import Mathlib

/-!
# Task validation subsystem of the nareshka backend

A shallow embedding of `back-go/app/features/code_editor` (the judge, the executor and the
sandbox command), of the daily streak, the activity log and the path progress of
`features/progress`, of the review scheduler of `features/content` and of the reads and the
owner-only mutations of `features/task`, together with the entities they read and write.

Conventions of the embedding:

* Go `string` is `String`, Go `uint` is `Nat`, Go `int` is `Int`.  The only `int` arithmetic in
  the judge counts test cases of one task held in memory, so it stays far below `2^63` and no
  wrap-around is modelled.  The steps of a learning path are unbounded integers as well: the
  statements about them cover the values that fit Go's `int`.
* The review scheduler is given twice.  `applyReview` is the update in exact arithmetic, with
  a rational ease factor and unbounded integers; the statements about a single answer and
  about the stored answer are made on it.  `applyReviewF64` is the update as the program
  computes it: every `float64` operation is rounded to binary64 (`roundF64`), `Repetitions`
  and `Interval` live in the 64-bit `int`, and what the conversion `int(f)` yields for a float
  outside that range, which the language leaves to the platform, is the parameter `Arch`.
  The statements about intervals and about the reachable records are made on it.
* A nil-able pointer (`*int`, `*string`, `*time.Time`) is an `Option`.
* A Go function returning `(value, error)` returns `Except String value`.
* The host (file system, clock, the `docker` child process) and the database driver are not
  part of the repository: they are parameters (`HostStep`, `Env`, `StreakEnv`, `ReviewEnv`,
  `TaskEnv`, `ActivityEnv`, `PathEnv`) over which every theorem quantifies.
* A `time.Time` is an instant together with the offset of the location it is shown in.
-/

namespace Nareshka

/-! ## Helpers from the Go standard library -/

/-- Go `unicode.IsSpace`: the Latin-1 spaces `\t \n \v \f \r`, space, U+0085, U+00A0 and the
other code points with the Unicode White_Space property. -/
def isSpace (c : Char) : Bool :=
  let n := c.toNat
  (9 ≤ n && n ≤ 13) || n == 32 || n == 0x85 || n == 0xA0 || n == 0x1680 ||
    (0x2000 ≤ n && n ≤ 0x200A) || n == 0x2028 || n == 0x2029 || n == 0x202F ||
    n == 0x205F || n == 0x3000

/-- Drop the leading white space of a rune sequence. -/
def trimLeft (l : List Char) : List Char := l.dropWhile isSpace

/-- Drop the trailing white space of a rune sequence. -/
def trimRight (l : List Char) : List Char := (l.reverse.dropWhile isSpace).reverse

/-- Go `strings.TrimSpace`: the string without its leading and trailing white space. -/
def TrimSpace (s : String) : String := ⟨trimRight (trimLeft s.data)⟩

/-- Worker of `ReplaceAll` for a non-empty `old`: `skip` counts the runes of a match that are
still to be consumed. -/
def replaceAllAux (old new : List Char) : Nat → List Char → List Char
  | _, [] => []
  | skip + 1, _ :: cs => replaceAllAux old new skip cs
  | 0, c :: cs =>
    if old.isPrefixOf (c :: cs) then new ++ replaceAllAux old new (old.length - 1) cs
    else c :: replaceAllAux old new 0 cs

/-- Go `strings.ReplaceAll s old new`: every non-overlapping occurrence of `old`, leftmost
first, is replaced by `new`; an empty `old` matches before every rune and at the end. -/
def ReplaceAll (s old new : String) : String :=
  if old.data.isEmpty then ⟨new.data ++ s.data.flatMap (fun c => c :: new.data)⟩
  else ⟨replaceAllAux old.data new.data 0 s.data⟩

/-- Go `filepath.Join` on two non-empty, already clean components. -/
def joinPath (dir name : String) : String := dir ++ "/" ++ name

/-! ## Go `time` -/

/-- A Go `time.Time`: an instant, in nanoseconds since the Unix epoch, shown in a location
whose offset from UTC is `zoneOffset` seconds (`time.Now()` answers in the local zone of the
process). -/
structure Time where
  unixNano : Int
  zoneOffset : Int
  deriving DecidableEq, Repr

/-- The nanoseconds of 24 hours. -/
def nanosPerDay : Int := 86400000000000

/-- The number of the calendar day (days since 1970-01-01) that `t.Year()`, `t.Month()`,
`t.Day()` name: the day `t` shows in its own location. -/
def Time.dayNumber (t : Time) : Int :=
  (t.unixNano + t.zoneOffset * 1000000000) / nanosPerDay

/-- The value `time.Date(t.Year(), t.Month(), t.Day(), 0, 0, 0, 0, time.UTC)`: midnight UTC
of the calendar day that `t` shows. -/
def Time.dateUTC (t : Time) : Time :=
  { unixNano := t.dayNumber * nanosPerDay, zoneOffset := 0 }

/-- Go `t.Sub(u)`: the duration `t - u` in nanoseconds, saturating at the bounds of
`int64`. -/
def Time.Sub (t u : Time) : Int :=
  let d := t.unixNano - u.unixNano
  if d > 9223372036854775807 then 9223372036854775807
  else if d < -9223372036854775808 then -9223372036854775808
  else d

/-- The expression `int(d.Hours() / 24)` for a duration `d` in nanoseconds: the quotient
truncated toward zero (exact for whole days and for the two saturation values). -/
def wholeDays (d : Int) : Int := Int.tdiv d nanosPerDay

/-- Go `t.AddDate(0, 0, days)` in a location with a fixed offset. -/
def Time.AddDays (t : Time) (days : Int) : Time :=
  { t with unixNano := t.unixNano + days * nanosPerDay }

/-! ## DTOs (`code_editor/dto`) -/

structure ExecuteCodeRequest where
  Code : String
  Language : String
  Input : String
  TimeLimit : Int
  MemoryLimit : Int
  deriving DecidableEq, Repr

structure ValidateTaskRequest where
  TaskID : Nat
  Code : String
  Language : String
  deriving DecidableEq, Repr

structure ExecuteCodeResponse where
  Output : String
  Error : String
  ExecutionTime : Int
  MemoryUsed : Int
  Status : String
  ExitCode : Int
  deriving DecidableEq, Repr

structure TestCaseResult where
  ID : Nat
  Input : String
  ExpectedOutput : String
  ActualOutput : String
  Passed : Bool
  ExecutionTime : Int
  MemoryUsed : Int
  Error : String
  deriving DecidableEq, Repr

structure ValidateTaskResponse where
  Success : Bool
  Score : Int
  TestsPassed : Int
  TestsFailed : Int
  TotalTests : Int
  TestResults : List TestCaseResult
  ExecutionTime : Int
  MemoryUsed : Int
  ErrorMessage : String
  deriving DecidableEq, Repr

structure LanguageConfig where
  Name : String
  Version : String
  FileExtension : String
  CompileCommand : String
  RunCommand : String
  DockerImage : String
  TimeLimit : Int
  MemoryLimit : Int
  deriving DecidableEq, Repr

/-! ## Entities (`shared/entities`, `shared/types`) -/

/-- The values of `types.TaskStatus`. -/
inductive TaskStatus where
  | PENDING | IN_REVIEW | COMPLETED | REJECTED
  deriving DecidableEq, Repr

structure TestCase where
  ID : Nat
  TaskID : Nat
  Input : String
  ExpectedOutput : String
  IsPublic : Bool
  IsActive : Bool
  Order : Int
  TimeLimit : Option Int
  MemoryLimit : Option Int
  deriving DecidableEq, Repr

structure Task where
  ID : Nat
  Points : Int
  TimeLimit : Option Int
  MemoryLimit : Option Int
  SupportedLanguages : List String
  IsPublic : Bool
  IsActive : Bool
  CreatedByID : Nat
  TestCases : List TestCase
  DeletedAt : Option Int
  Title : String := ""
  Description : String := ""
  Content : String := ""
  DifficultyLevel : String := ""
  Category : String := ""
  Tags : List String := []
  InitialCode : List (String × String) := []
  SolutionTemplate : List (String × String) := []
  deriving DecidableEq, Repr

structure TaskAttempt where
  ID : Nat
  TaskID : Nat
  UserID : Nat
  Language : String
  Code : String
  Status : TaskStatus
  Score : Option Int
  ExecutionTime : Option Int
  MemoryUsed : Option Int
  TestsPassed : Int
  TestsFailed : Int
  ErrorMessage : Option String
  Output : Option String
  deriving DecidableEq, Repr

structure User where
  ID : Nat
  TotalTasksCompleted : Int
  TotalPointsEarned : Int
  CurrentStreak : Int
  LongestStreak : Int
  LastActivityDate : Option Time
  DeletedAt : Option Int
  deriving DecidableEq, Repr

structure UserActivity where
  ID : Nat
  UserID : Nat
  ActivityType : String
  EntityType : String
  EntityID : Option Nat
  Description : String
  PointsEarned : Int
  Metadata : List (String × String)
  deriving DecidableEq, Repr

structure UserStreak where
  ID : Nat
  UserID : Nat
  CurrentStreak : Int
  LongestStreak : Int
  LastActivityDate : Option Time
  StreakStartDate : Option Time
  deriving DecidableEq, Repr

structure TheoryCard where
  ID : Nat
  Title : String
  Question : String
  Answer : String
  Category : String
  IsActive : Bool
  CreatedByID : Nat
  DeletedAt : Option Int
  deriving DecidableEq, Repr

/-- The row of `user_theory_progress`.  `EaseFactor` is a `float64` in the source; it is a
rational here, so the arithmetic on it is exact. -/
structure UserTheoryProgress where
  ID : Nat
  UserID : Nat
  TheoryCardID : Nat
  Interval : Int
  Repetitions : Int
  EaseFactor : ℚ
  NextReviewAt : Time
  LastAnswer : String
  IsActive : Bool
  CreatedAt : Time
  UpdatedAt : Time
  deriving DecidableEq, Repr

/-- The row of `user_path_progresses`.  `ProgressPercentage` is a `float32` in the source; it
is a rational here. -/
structure UserPathProgress where
  ID : Nat
  UserID : Nat
  PathName : String
  TotalSteps : Int
  CompletedSteps : Int
  CurrentStep : Int
  ProgressPercentage : ℚ
  IsCompleted : Bool
  CompletedAt : Option Time
  LastAccessedAt : Option Time
  deriving DecidableEq, Repr

/-! ## The host: what the executor cannot decide by itself -/

/-- The error value of `cmd.Run()`: an `*exec.ExitError` carrying the exit status of the child
(137 when the container is killed by the kernel), or any other failure to start or wait. -/
inductive RunError where
  | exitStatus (code : Int)
  | other (msg : String)
  deriving DecidableEq, Repr

/-- What one run of the `docker` child process leaves behind. -/
structure ProcOutcome where
  stdout : String
  stderr : String
  err : Option RunError
  deadlineExceeded : Bool
  elapsedMs : Int
  deriving DecidableEq, Repr

/-- The behaviour of the host during one call of `Execute`: the clock, the file system and the
child process.  `run argv stdin timeLimit` is the outcome of running `argv` with the given
standard input under a context deadline of `timeLimit` seconds. -/
structure HostStep where
  now : Int
  mkdirAll : String → Option String
  writeFile : String → String → Option String
  fileExists : String → Bool
  readFile : String → String
  run : List String → Option String → Int → ProcOutcome

/-! ## `CodeExecutorService` (`code_executor_service.go`) -/

/-- The `workDir` set by `NewCodeExecutorService`. -/
def workDir : String := "/tmp/nareshka-code-execution"

/-- The map literal of `getLanguageConfig`, with the keys `types.LanguagePython` etc. written
as their string values. -/
def configs : List (String × LanguageConfig) :=
  [ ("python",
      { Name := "Python", Version := "3.11", FileExtension := ".py", CompileCommand := "",
        RunCommand := "python3 {file}", DockerImage := "python:3.11-alpine",
        TimeLimit := 10, MemoryLimit := 256 }),
    ("javascript",
      { Name := "Node.js", Version := "20", FileExtension := ".js", CompileCommand := "",
        RunCommand := "node {file}", DockerImage := "node:20-alpine",
        TimeLimit := 10, MemoryLimit := 256 }),
    ("java",
      { Name := "Java", Version := "17", FileExtension := ".java",
        CompileCommand := "javac {file}", RunCommand := "java -cp . Main",
        DockerImage := "openjdk:17-alpine", TimeLimit := 15, MemoryLimit := 512 }),
    ("cpp",
      { Name := "C++", Version := "11", FileExtension := ".cpp",
        CompileCommand := "g++ -o program {file}", RunCommand := "./program",
        DockerImage := "gcc:11-alpine", TimeLimit := 10, MemoryLimit := 256 }),
    ("go",
      { Name := "Go", Version := "1.21", FileExtension := ".go", CompileCommand := "",
        RunCommand := "go run {file}", DockerImage := "golang:1.21-alpine",
        TimeLimit := 10, MemoryLimit := 256 }),
    ("rust",
      { Name := "Rust", Version := "1.70", FileExtension := ".rs",
        CompileCommand := "rustc -o program {file}", RunCommand := "./program",
        DockerImage := "rust:1.70-alpine", TimeLimit := 15, MemoryLimit := 256 }) ]

/-- `getLanguageConfig`: the lookup `configs[lang]`, `none` standing for the nil pointer. -/
def getLanguageConfig (lang : String) : Option LanguageConfig :=
  configs.lookup lang

/-- The argument vector `dockerCmd` assembled at the start of `executeInDocker`. -/
def dockerCmd (config : LanguageConfig) (execDir : String) : List String :=
  let base : List String :=
    [ "docker", "run", "--rm",
      "--network", "none",
      "--memory", "256m",
      "--cpus", "0.5",
      "-v", execDir ++ ":/workspace",
      "-w", "/workspace",
      config.DockerImage ]
  if config.CompileCommand ≠ "" then
    let compileCmd := ReplaceAll config.CompileCommand "{file}" ("code" ++ config.FileExtension)
    base ++ ["sh", "-c", compileCmd ++ " && " ++ config.RunCommand]
  else
    let runCmd := ReplaceAll config.RunCommand "{file}" ("code" ++ config.FileExtension)
    base ++ ["sh", "-c", runCmd]

/-- The `cmd.Run()` of `executeInDocker`: the sandbox command is started with the input file
as standard input when that file exists, under a deadline of `timeLimit` seconds. -/
def sandboxRun (h : HostStep) (config : LanguageConfig) (execDir inputFile : String)
    (timeLimit : Int) : ProcOutcome :=
  let stdin : Option String :=
    if inputFile ≠ "" ∧ h.fileExists inputFile = true then some (h.readFile inputFile) else none
  h.run (dockerCmd config execDir) stdin timeLimit

/-- `executeInDocker`: run the sandbox command and classify what came back. -/
def executeInDocker (h : HostStep) (config : LanguageConfig)
    (execDir _codeFile inputFile : String) (timeLimit : Int) : ExecuteCodeResponse :=
  let out := sandboxRun h config execDir inputFile timeLimit
  let response : ExecuteCodeResponse :=
    { Output := out.stdout, Error := "", ExecutionTime := out.elapsedMs, MemoryUsed := 0,
      Status := "", ExitCode := 0 }
  if out.err ≠ none then
    let response := { response with Error := out.stderr, Status := "error" }
    let response :=
      if out.deadlineExceeded = true then
        { response with Error := "Time limit exceeded", Status := "timeout" }
      else response
    { response with ExitCode := 1 }
  else
    { response with Status := "success", ExitCode := 0 }

/-- `Execute`: resolve the profile, materialise the workspace, run in the sandbox. -/
def Execute (h : HostStep) (req : ExecuteCodeRequest) : Except String ExecuteCodeResponse :=
  match getLanguageConfig req.Language with
  | none => .error ("unsupported language: " ++ req.Language)
  | some config =>
    let execDir := joinPath workDir ("exec_" ++ toString h.now)
    match h.mkdirAll execDir with
    | some err => .error ("failed to create execution directory: " ++ err)
    | none =>
      let codeFile := joinPath execDir ("code" ++ config.FileExtension)
      match h.writeFile codeFile req.Code with
      | some err => .error ("failed to write code file: " ++ err)
      | none =>
        let inputFile := joinPath execDir "input.txt"
        match (if req.Input ≠ "" then h.writeFile inputFile req.Input else none) with
        | some err => .error ("failed to write input file: " ++ err)
        | none =>
          let timeLimit := if req.TimeLimit ≤ 0 then config.TimeLimit else req.TimeLimit
          .ok (executeInDocker h config execDir codeFile inputFile timeLimit)

/-! ## The database -/

/-- The tables of the task, judge and progress features.  A row of `tasks` is stored with
`TestCases = []`; the association is filled by `Preload`. -/
structure DB where
  tasks : List Task
  testCases : List TestCase
  users : List User
  attempts : List TaskAttempt
  activities : List UserActivity
  streaks : List UserStreak
  theoryCards : List TheoryCard
  theoryProgress : List UserTheoryProgress
  pathProgress : List UserPathProgress := []
  deriving DecidableEq, Repr

/-- The environment of one call of `ValidateTask`: the host behaviour at the `n`-th call of
`Execute` within the validation, and the driver errors (connection loss, constraint
violation, ...) that the four database statements may report. -/
structure Env where
  host : Nat → HostStep
  loadTaskErr : Option String
  createAttemptErr : Option String
  progressTaskErr : Option String
  progressUpdateErr : Option String

/-- Statement `db.First(&task, id)`: the row with that primary key, soft-deleted rows being
invisible to gorm. -/
def dbFirstTask (fault : Option String) (db : DB) (id : Nat) : Except String Task :=
  match fault with
  | some err => .error err
  | none =>
    match db.tasks.find? (fun t => t.ID == id && t.DeletedAt.isNone) with
    | none => .error "record not found"
    | some t => .ok t

/-- Statement `db.Preload("TestCases").First(&task, id)`. -/
def dbFirstTaskWithTestCases (fault : Option String) (db : DB) (id : Nat) :
    Except String Task :=
  match dbFirstTask fault db id with
  | .error err => .error err
  | .ok t => .ok { t with TestCases := db.testCases.filter (fun tc => tc.TaskID == t.ID) }

/-- The next value of the `task_attempts` primary-key sequence. -/
def nextAttemptID (db : DB) : Nat :=
  (db.attempts.map (fun a => a.ID)).foldl max 0 + 1

/-- Statement `db.Create(attempt)`. -/
def dbCreateAttempt (fault : Option String) (db : DB) (attempt : TaskAttempt) :
    Except String DB :=
  match fault with
  | some err => .error err
  | none => .ok { db with attempts := db.attempts ++ [{ attempt with ID := nextAttemptID db }] }

/-- The column expressions of `updateUserProgress` applied to one row of `users`. -/
def bumpProgress (points : Int) (u : User) : User :=
  { u with
    TotalTasksCompleted := u.TotalTasksCompleted + 1
    TotalPointsEarned := u.TotalPointsEarned + points }

/-- Statement `db.Model(&entities.User{}).Where("id = ?", userID).Updates(updates)`;
gorm adds `deleted_at IS NULL` for a model with a `DeletedAt` column. -/
def dbUpdateUserCounters (fault : Option String) (db : DB) (userID : Nat) (points : Int) :
    Except String DB :=
  match fault with
  | some err => .error err
  | none =>
    .ok { db with
          users := db.users.map (fun u =>
            if u.ID = userID ∧ u.DeletedAt = none then bumpProgress points u else u) }

/-! ## `CodeEditorService` (`code_editor_service.go`) -/

/-- `isLanguageSupported`. -/
def isLanguageSupported (task : Task) (language : String) : Bool :=
  if task.SupportedLanguages.length = 0 then true
  else task.SupportedLanguages.any (fun lang => lang == language)

/-- `getTaskStatus`. -/
def getTaskStatus (success : Bool) : TaskStatus :=
  if success then TaskStatus.COMPLETED else TaskStatus.REJECTED

/-- The `execReq` that `runTestCase` hands to the executor. -/
def buildExecReq (req : ValidateTaskRequest) (testCase : TestCase) : ExecuteCodeRequest :=
  let execReq : ExecuteCodeRequest :=
    { Code := req.Code, Language := req.Language, Input := testCase.Input,
      TimeLimit := 10, MemoryLimit := 256 }
  let execReq :=
    match testCase.TimeLimit with
    | some t => { execReq with TimeLimit := t }
    | none => execReq
  match testCase.MemoryLimit with
  | some m => { execReq with MemoryLimit := m }
  | none => execReq

/-- `runTestCase`, `h` being the host behaviour during its single call of `Execute`. -/
def runTestCase (h : HostStep) (req : ValidateTaskRequest) (testCase : TestCase) :
    TestCaseResult :=
  let result : TestCaseResult :=
    { ID := testCase.ID, Input := testCase.Input, ExpectedOutput := testCase.ExpectedOutput,
      ActualOutput := "", Passed := false, ExecutionTime := 0, MemoryUsed := 0, Error := "" }
  match Execute h (buildExecReq req testCase) with
  | .error err => { result with Error := err, Passed := false }
  | .ok execResp =>
    let result :=
      { result with
        ActualOutput := TrimSpace execResp.Output
        ExecutionTime := execResp.ExecutionTime
        MemoryUsed := execResp.MemoryUsed }
    if execResp.Status ≠ "success" then
      { result with Error := execResp.Error, Passed := false }
    else
      let expectedOutput := TrimSpace testCase.ExpectedOutput
      { result with Passed := decide (expectedOutput = result.ActualOutput) }

/-- `updateUserProgress`: the error it returns (`none` for nil) and the database it leaves. -/
def updateUserProgress (env : Env) (db : DB) (userID taskID : Nat) : Option String × DB :=
  match dbFirstTask env.progressTaskErr db taskID with
  | .error err => (some err, db)
  | .ok task =>
    match dbUpdateUserCounters env.progressUpdateErr db userID task.Points with
    | .error err => (some err, db)
    | .ok db1 => (none, db1)

/-- The local variables of the test-case loop of `ValidateTask`; `executed` is the ghost
trace of the requests handed to `Execute`, oldest first. -/
structure LoopState where
  TestResults : List TestCaseResult
  totalExecutionTime : Int
  totalMemoryUsed : Int
  testsPassed : Int
  testsFailed : Int
  executed : List ExecuteCodeRequest
  deriving DecidableEq, Repr

/-- The state before the first iteration. -/
def LoopState.init : LoopState :=
  { TestResults := [], totalExecutionTime := 0, totalMemoryUsed := 0,
    testsPassed := 0, testsFailed := 0, executed := [] }

/-- One iteration of `for _, testCase := range task.TestCases`. -/
def loopStep (host : Nat → HostStep) (req : ValidateTaskRequest)
    (st : LoopState) (testCase : TestCase) : LoopState :=
  if !testCase.IsActive then st
  else
    let result := runTestCase (host st.executed.length) req testCase
    { TestResults := st.TestResults ++ [result]
      totalExecutionTime := st.totalExecutionTime + result.ExecutionTime
      totalMemoryUsed := st.totalMemoryUsed + result.MemoryUsed
      testsPassed := if result.Passed then st.testsPassed + 1 else st.testsPassed
      testsFailed := if result.Passed then st.testsFailed else st.testsFailed + 1
      executed := st.executed ++ [buildExecReq req testCase] }

/-- The whole loop. -/
def runLoop (host : Nat → HostStep) (req : ValidateTaskRequest) (testCases : List TestCase) :
    LoopState :=
  testCases.foldl (loopStep host req) LoopState.init

/-- The response as it stands after the aggregation and the score computation. -/
def buildResponse (st : LoopState) : ValidateTaskResponse :=
  let response : ValidateTaskResponse :=
    { Success := false, Score := 0, TestsPassed := 0, TestsFailed := 0, TotalTests := 0,
      TestResults := st.TestResults, ExecutionTime := 0, MemoryUsed := 0, ErrorMessage := "" }
  let response :=
    { response with
      TestsPassed := st.testsPassed
      TestsFailed := st.testsFailed
      TotalTests := st.testsPassed + st.testsFailed
      ExecutionTime := st.totalExecutionTime
      MemoryUsed := st.totalMemoryUsed
      Success := decide (st.testsFailed = 0) && decide (st.testsPassed > 0) }
  if response.TotalTests > 0 then
    { response with Score := Int.tdiv (st.testsPassed * 100) response.TotalTests }
  else response

/-- The `attempt` value handed to `db.Create`. -/
def buildAttempt (userID : Nat) (req : ValidateTaskRequest) (response : ValidateTaskResponse) :
    TaskAttempt :=
  let attempt : TaskAttempt :=
    { ID := 0, TaskID := req.TaskID, UserID := userID, Language := req.Language,
      Code := req.Code, Status := getTaskStatus response.Success, Score := none,
      ExecutionTime := some response.ExecutionTime, MemoryUsed := some response.MemoryUsed,
      TestsPassed := response.TestsPassed, TestsFailed := response.TestsFailed,
      ErrorMessage := none, Output := none }
  if response.Success then
    { attempt with Score := some response.Score }
  else
    match response.TestResults with
    | first :: _ =>
      if first.Error ≠ "" then { attempt with ErrorMessage := some first.Error } else attempt
    | [] => attempt

/-- The database right after `db.Create(attempt)` succeeded for the attempt built from
`response`. -/
def insertedDB (db : DB) (userID : Nat) (req : ValidateTaskRequest)
    (response : ValidateTaskResponse) : DB :=
  { db with
    attempts := db.attempts ++
      [{ buildAttempt userID req response with ID := nextAttemptID db }] }

/-- Everything one call of `ValidateTask` produces: the returned pair, the database
afterwards, the requests handed to the executor and the lines printed to standard output. -/
structure Outcome where
  result : Except String ValidateTaskResponse
  db : DB
  executed : List ExecuteCodeRequest
  stdout : List String

/-- `ValidateTask`. -/
def ValidateTask (env : Env) (db : DB) (userID : Nat) (req : ValidateTaskRequest) : Outcome :=
  match dbFirstTaskWithTestCases env.loadTaskErr db req.TaskID with
  | .error err =>
    { result := .error ("task not found: " ++ err), db := db, executed := [], stdout := [] }
  | .ok task =>
    if !isLanguageSupported task req.Language then
      { result := .error ("language " ++ req.Language ++ " is not supported for this task"),
        db := db, executed := [], stdout := [] }
    else
      let st := runLoop env.host req task.TestCases
      let response := buildResponse st
      let attempt := buildAttempt userID req response
      match dbCreateAttempt env.createAttemptErr db attempt with
      | .error err =>
        { result := .error ("failed to save task attempt: " ++ err), db := db,
          executed := st.executed, stdout := [] }
      | .ok db1 =>
        if response.Success then
          match updateUserProgress env db1 userID req.TaskID with
          | (some err, db2) =>
            { result := .ok response, db := db2, executed := st.executed,
              stdout := ["Failed to update user progress: " ++ err ++ "\n"] }
          | (none, db2) =>
            { result := .ok response, db := db2, executed := st.executed, stdout := [] }
        else
          { result := .ok response, db := db1, executed := st.executed, stdout := [] }

/-- The relation between the counters and the result list that every iteration keeps. -/
def LoopInv (st : LoopState) : Prop :=
  st.testsPassed = (st.TestResults.countP (fun r => r.Passed) : Nat) ∧
  st.testsFailed = (st.TestResults.countP (fun r => !r.Passed) : Nat) ∧
  st.executed.length = st.TestResults.length


/-! ## Concrete data used to exercise the theorems -/

/-- A host on which every file operation succeeds and the child prints `out` and exits 0. -/
def quietHost (out : String) : HostStep :=
  { now := 1700000000
    mkdirAll := fun _ => none
    writeFile := fun _ _ => none
    fileExists := fun _ => true
    readFile := fun _ => "2 3\n"
    run := fun _ _ _ =>
      { stdout := out, stderr := "", err := none, deadlineExceeded := false, elapsedMs := 12 } }

/-- A host whose child process fails with the given error, `late` telling whether the
deadline had passed. -/
def failingHost (e : RunError) (late : Bool) : HostStep :=
  { now := 1700000000
    mkdirAll := fun _ => none
    writeFile := fun _ _ => none
    fileExists := fun _ => true
    readFile := fun _ => "2 3\n"
    run := fun _ _ _ =>
      { stdout := "", stderr := "Killed", err := some e, deadlineExceeded := late,
        elapsedMs := 40 } }

/-- An environment without database errors whose programs print `out`. -/
def demoEnv (out : String) : Env :=
  { host := fun _ => quietHost out
    loadTaskErr := none, createAttemptErr := none
    progressTaskErr := none, progressUpdateErr := none }

/-- The task of the "happy path" scenario: python only, 10 points. -/
def demoTask : Task :=
  { ID := 1, Points := 10, TimeLimit := none, MemoryLimit := none,
    SupportedLanguages := ["python"], IsPublic := true, IsActive := true, CreatedByID := 2,
    TestCases := [], DeletedAt := none }

/-- An active test case of `demoTask`. -/
def demoCase : TestCase :=
  { ID := 11, TaskID := 1, Input := "2 3\n", ExpectedOutput := "5", IsPublic := true,
    IsActive := true, Order := 0, TimeLimit := none, MemoryLimit := none }

/-- A switched-off test case of `demoTask`. -/
def demoInactiveCase : TestCase :=
  { ID := 12, TaskID := 1, Input := "1 1\n", ExpectedOutput := "2", IsPublic := false,
    IsActive := false, Order := 1, TimeLimit := some 1, MemoryLimit := none }

/-- The submitting user, with empty counters. -/
def demoUser : User :=
  { ID := 7, TotalTasksCompleted := 0, TotalPointsEarned := 0, CurrentStreak := 0,
    LongestStreak := 0, LastActivityDate := none, DeletedAt := none }

/-- Another user, who never submits. -/
def demoBystander : User :=
  { ID := 8, TotalTasksCompleted := 3, TotalPointsEarned := 30, CurrentStreak := 0,
    LongestStreak := 0, LastActivityDate := none, DeletedAt := none }

/-- A database holding the task, its two test cases and the two users. -/
def demoDB : DB :=
  { tasks := [demoTask], testCases := [demoCase, demoInactiveCase],
    users := [demoUser, demoBystander], attempts := [], activities := [], streaks := [],
    theoryCards := [], theoryProgress := [] }

/-- A python submission for `demoTask`. -/
def demoReq : ValidateTaskRequest :=
  { TaskID := 1, Code := "print(sum(map(int, input().split())))", Language := "python" }

/-- The task as `Preload` returns it. -/
def demoLoaded : Task :=
  { demoTask with TestCases := [demoCase, demoInactiveCase] }

/-- The response for `demoReq` when the program prints `actual`: one test case, which
passed or not. -/
def demoResponse (actual : String) (passed : Bool) (score : Int) : ValidateTaskResponse :=
  { Success := passed, Score := score,
    TestsPassed := if passed then 1 else 0, TestsFailed := if passed then 0 else 1,
    TotalTests := 1,
    TestResults :=
      [{ ID := 11, Input := "2 3\n", ExpectedOutput := "5", ActualOutput := actual,
         Passed := passed, ExecutionTime := 12, MemoryUsed := 0, Error := "" }],
    ExecutionTime := 12, MemoryUsed := 0, ErrorMessage := "" }

/-- An environment in which the insert works but the counter update is refused. -/
def progressDownEnv : Env :=
  { host := fun _ => quietHost "5\n"
    loadTaskErr := none, createAttemptErr := none
    progressTaskErr := none, progressUpdateErr := some "connection reset" }

/-- The python profile of the registry. -/
def pythonConfig : LanguageConfig :=
  { Name := "Python", Version := "3.11", FileExtension := ".py", CompileCommand := "",
    RunCommand := "python3 {file}", DockerImage := "python:3.11-alpine",
    TimeLimit := 10, MemoryLimit := 256 }

/-- The outcome of a container that the kernel killed for exceeding `--memory`: exit status
137, well before the deadline. -/
def oomKilledHost : HostStep := failingHost (RunError.exitStatus 137) false

/-! ## The host operations of one execution -/

/-- A call that `Execute` makes on the host. -/
inductive HostOp where
  | mkdirAll (path : String)
  | writeFile (path content : String)
  | stat (path : String)
  | readFile (path : String)
  | run (argv : List String)
  | removeAll (path : String)
  deriving DecidableEq, Repr

/-- The host calls of `executeInDocker`, in order: the check and the read of the input file,
then the child process. -/
def executeInDockerOps (h : HostStep) (config : LanguageConfig) (execDir inputFile : String) :
    List HostOp :=
  (if inputFile ≠ "" then
      [HostOp.stat inputFile] ++
        (if h.fileExists inputFile = true then [HostOp.readFile inputFile] else [])
    else []) ++
  [HostOp.run (dockerCmd config execDir)]

/-- The host calls of `Execute`, in order; the deferred `os.RemoveAll(execDir)` closes every
path on which the directory was created. -/
def ExecuteOps (h : HostStep) (req : ExecuteCodeRequest) : List HostOp :=
  match getLanguageConfig req.Language with
  | none => []
  | some config =>
    let execDir := joinPath workDir ("exec_" ++ toString h.now)
    match h.mkdirAll execDir with
    | some _ => [HostOp.mkdirAll execDir]
    | none =>
      let codeFile := joinPath execDir ("code" ++ config.FileExtension)
      match h.writeFile codeFile req.Code with
      | some _ =>
        [HostOp.mkdirAll execDir, HostOp.writeFile codeFile req.Code, HostOp.removeAll execDir]
      | none =>
        let inputFile := joinPath execDir "input.txt"
        let inputOps : List HostOp :=
          if req.Input ≠ "" then [HostOp.writeFile inputFile req.Input] else []
        match (if req.Input ≠ "" then h.writeFile inputFile req.Input else none) with
        | some _ =>
          [HostOp.mkdirAll execDir, HostOp.writeFile codeFile req.Code] ++ inputOps ++
            [HostOp.removeAll execDir]
        | none =>
          [HostOp.mkdirAll execDir, HostOp.writeFile codeFile req.Code] ++ inputOps ++
            executeInDockerOps h config execDir inputFile ++ [HostOp.removeAll execDir]

/-- The six identifiers with a profile in the registry. -/
def registeredLanguages : List String :=
  ["python", "javascript", "java", "cpp", "go", "rust"]

/-! ## `ProgressService`: the daily streak (`progress_service.go`) -/

/-- The environment of one call of `updateUserStreak`: the value of `time.Now()` and the
driver errors of its three statements. -/
structure StreakEnv where
  now : Time
  findErr : Option String
  createErr : Option String
  saveErr : Option String

/-- The next value of the `user_streaks` primary-key sequence. -/
def nextStreakID (db : DB) : Nat :=
  (db.streaks.map (fun s => s.ID)).foldl max 0 + 1

/-- The row that `updateUserStreak` creates for a user without one. -/
def newStreak (userID : Nat) (now : Time) : UserStreak :=
  { ID := 0, UserID := userID, CurrentStreak := 1, LongestStreak := 1,
    LastActivityDate := some now, StreakStartDate := some now.dateUTC }

/-- The in-memory update that `updateUserStreak` applies to the row it found. -/
def advanceStreak (now : Time) (streak : UserStreak) : UserStreak :=
  let today := now.dateUTC
  let streak :=
    match streak.LastActivityDate with
    | some last =>
      let lastActivityDay := last.dateUTC
      let daysDiff := wholeDays (today.Sub lastActivityDay)
      if daysDiff = 1 then
        let streak := { streak with CurrentStreak := streak.CurrentStreak + 1 }
        if streak.CurrentStreak > streak.LongestStreak then
          { streak with LongestStreak := streak.CurrentStreak }
        else streak
      else if daysDiff > 1 then
        { streak with CurrentStreak := 1, StreakStartDate := some today }
      else streak
    | none => streak
  { streak with LastActivityDate := some now }

/-- `updateUserStreak`: the error it returns (`none` for nil) and the database it leaves.
`First` on `user_id`, a unique column; `Create` appends; `Save` rewrites the row with the
primary key of the row that was read. -/
def updateUserStreak (env : StreakEnv) (db : DB) (userID : Nat) : Option String × DB :=
  match env.findErr with
  | some err => (some err, db)
  | none =>
    match db.streaks.find? (fun s => s.UserID == userID) with
    | none =>
      match env.createErr with
      | some err => (some err, db)
      | none =>
        (none, { db with
                 streaks := db.streaks ++
                   [{ newStreak userID env.now with ID := nextStreakID db }] })
    | some streak =>
      match env.saveErr with
      | some err => (some err, db)
      | none =>
        (none, { db with
                 streaks := db.streaks.map (fun s =>
                   if s.ID = streak.ID then advanceStreak env.now streak else s) })

/-- A clock reading of 00:05 UTC on day 19001. -/
def demoMorning : Time := { unixNano := 19001 * 86400000000000 + 300000000000, zoneOffset := 0 }

/-- A clock reading of 23:59 UTC on day 19000. -/
def demoLastNight : Time :=
  { unixNano := 19000 * 86400000000000 + 86340000000000, zoneOffset := 0 }

/-- The streak row of the streak scenario: four days in a row, last seen the evening before. -/
def demoStreak : UserStreak :=
  { ID := 1, UserID := 7, CurrentStreak := 4, LongestStreak := 9,
    LastActivityDate := some demoLastNight,
    StreakStartDate := some { unixNano := 18997 * 86400000000000, zoneOffset := 0 } }

/-- The demo database with the streak row of user 7. -/
def demoStreakDB : DB := { demoDB with streaks := [demoStreak] }

/-- A streak environment without driver errors at the given clock reading. -/
def calmStreakEnv (now : Time) : StreakEnv :=
  { now := now, findErr := none, createErr := none, saveErr := none }

/-- The databases that arise from one without streak rows by calls of `updateUserStreak`,
for any users, at any clock readings and with any driver errors. -/
inductive StreakReachable : DB → Prop where
  | start (db : DB) (h : db.streaks = []) : StreakReachable db
  | call (env : StreakEnv) (userID : Nat) (db : DB) (h : StreakReachable db) :
      StreakReachable (updateUserStreak env db userID).2

/-- What every reachable streak table satisfies: primary keys are pairwise different and in
every row `LongestStreak ≥ CurrentStreak ≥ 1`. -/
def StreakInv (db : DB) : Prop :=
  (db.streaks.map (fun s => s.ID)).Nodup ∧
  ∀ s ∈ db.streaks, s.LongestStreak ≥ s.CurrentStreak ∧ s.CurrentStreak ≥ 1

/-- The streak row of user 7 after an activity on the evening of day 19000 and one on the
morning of day 19001, starting without a row. -/
def demoTwoDayStreak : UserStreak :=
  { ID := 1, UserID := 7, CurrentStreak := 2, LongestStreak := 2,
    LastActivityDate := some demoMorning,
    StreakStartDate := some { unixNano := 19000 * 86400000000000, zoneOffset := 0 } }

/-! ## `TheoryService.ReviewTheoryCard` (`theory_service.go`) -/

/-- The body of `dto.ReviewTheoryCardRequest`; `types.ReviewAnswer` is a string type. -/
structure ReviewTheoryCardRequest where
  Answer : String
  deriving DecidableEq, Repr

/-- The environment of one call of `ReviewTheoryCard`: the three clock readings (when a new
record is built, when the next review is scheduled, when gorm stamps the row) and the
driver errors of its three statements. -/
structure ReviewEnv where
  createNow : Time
  now : Time
  saveNow : Time
  cardErr : Option String
  findErr : Option String
  saveErr : Option String

/-- The integer part of `x`, truncated toward zero: Go `int(x)` for a float `x` whose
integer part is an `int` (`intOfFloat64` covers the other floats). -/
def truncToInt (x : ℚ) : Int := if 0 ≤ x then ⌊x⌋ else ⌈x⌉

/-- The `quality` chosen by the `switch` on the answer; it keeps its zero value when no case
matches. -/
def qualityOf (answer : String) : Int :=
  if answer = "HARD" then 3
  else if answer = "GOOD" then 4
  else if answer = "EASY" then 5
  else 0

/-- The progress record built when the user has none for the card. -/
def freshProgress (userID cardID : Nat) (answer : String) (createNow : Time) :
    UserTheoryProgress :=
  { ID := 0, UserID := userID, TheoryCardID := cardID, Interval := 1, Repetitions := 0,
    EaseFactor := 5 / 2, NextReviewAt := createNow.AddDays 1, LastAnswer := answer,
    IsActive := true, CreatedAt := { unixNano := 0, zoneOffset := 0 },
    UpdatedAt := { unixNano := 0, zoneOffset := 0 } }

/-- The spaced-repetition update applied to the record in memory, up to and including the
assignment of `NextReviewAt`, in exact arithmetic: the ease factor is a rational, and
`Repetitions` and `Interval` are unbounded.  `applyReviewF64` is the same update with the
roundings of `float64` and the range of `int`. -/
def applyReview (answer : String) (now : Time) (progress : UserTheoryProgress) :
    UserTheoryProgress :=
  let progress := { progress with LastAnswer := answer }
  let progress :=
    if answer = "AGAIN" then
      { progress with Repetitions := 0, Interval := 1 }
    else
      let progress := { progress with Repetitions := progress.Repetitions + 1 }
      let quality : ℚ := qualityOf answer
      let progress :=
        { progress with
          EaseFactor := progress.EaseFactor +
            (1 / 10 - (5 - quality) * (8 / 100 + (5 - quality) * (2 / 100))) }
      let progress :=
        if progress.EaseFactor < 13 / 10 then { progress with EaseFactor := 13 / 10 }
        else progress
      if progress.Repetitions ≤ 1 then { progress with Interval := 1 }
      else if progress.Repetitions = 2 then { progress with Interval := 6 }
      else
        { progress with
          Interval := truncToInt ((progress.Interval : ℚ) * progress.EaseFactor) }
  { progress with NextReviewAt := now.AddDays progress.Interval }

/-- Statement `First(&card, "id = ? AND is_active = ?", cardID, true)`. -/
def dbFirstActiveCard (fault : Option String) (db : DB) (cardID : Nat) :
    Except String TheoryCard :=
  match fault with
  | some err => .error ("failed to find theory card: " ++ err)
  | none =>
    match db.theoryCards.find?
        (fun c => c.ID == cardID && c.IsActive && c.DeletedAt.isNone) with
    | none => .error "theory card not found"
    | some c => .ok c

/-- The row with the least primary key, as `First` orders by it. -/
def leastID (rows : List UserTheoryProgress) : Option UserTheoryProgress :=
  rows.foldl
    (fun acc r =>
      match acc with
      | none => some r
      | some a => if r.ID < a.ID then some r else some a)
    none

/-- Statement `Where("user_id = ? AND theory_card_id = ?", userID, cardID).First(&progress)`
when the driver reports no error; `none` is `gorm.ErrRecordNotFound`. -/
def dbFirstProgress (db : DB) (userID cardID : Nat) : Option UserTheoryProgress :=
  leastID (db.theoryProgress.filter (fun r => r.UserID == userID && r.TheoryCardID == cardID))

/-- The next value of the `user_theory_progresses` primary-key sequence. -/
def nextProgressID (db : DB) : Nat :=
  (db.theoryProgress.map (fun r => r.ID)).foldl max 0 + 1

/-- Statement `db.Save(&progress)` without driver error: the record as gorm leaves it and
the table.  A record with a zero primary key is inserted, any other rewrites the row with
its key; gorm stamps `UpdatedAt`, and `CreatedAt` on insert. -/
def dbSaveProgress (saveNow : Time) (db : DB) (progress : UserTheoryProgress) :
    UserTheoryProgress × DB :=
  if progress.ID = 0 then
    let row := { progress with ID := nextProgressID db, CreatedAt := saveNow,
                               UpdatedAt := saveNow }
    (row, { db with theoryProgress := db.theoryProgress ++ [row] })
  else
    let row := { progress with UpdatedAt := saveNow }
    (row, { db with
            theoryProgress := db.theoryProgress.map (fun r => if r.ID = row.ID then row else r) })

/-- `ReviewTheoryCard`: the response (it copies every column of the saved record, so it is
given as that record) or the error, and the database afterwards. -/
def ReviewTheoryCard (env : ReviewEnv) (db : DB) (cardID userID : Nat)
    (req : ReviewTheoryCardRequest) : Except String UserTheoryProgress × DB :=
  match dbFirstActiveCard env.cardErr db cardID with
  | .error err => (.error err, db)
  | .ok _ =>
    match env.findErr with
    | some err => (.error ("failed to find progress record: " ++ err), db)
    | none =>
      let progress :=
        match dbFirstProgress db userID cardID with
        | some p => p
        | none => freshProgress userID cardID req.Answer env.createNow
      let progress := applyReview req.Answer env.now progress
      match env.saveErr with
      | some err => (.error ("failed to save progress: " ++ err), db)
      | none =>
        let saved := dbSaveProgress env.saveNow db progress
        (.ok saved.1, saved.2)

/-- A theory card that is active. -/
def demoCard : TheoryCard :=
  { ID := 3, Title := "Closures", Question := "What is a closure?", Answer := "...",
    Category := "js", IsActive := true, CreatedByID := 2, DeletedAt := none }

/-- The demo database with one theory card and no progress rows. -/
def demoTheoryDB : DB := { demoDB with theoryCards := [demoCard] }

/-- A review environment without driver errors in which all three clocks show `t`. -/
def calmReviewEnv (t : Time) : ReviewEnv :=
  { createNow := t, now := t, saveNow := t, cardErr := none, findErr := none, saveErr := none }

/-- The ease factor after a graded review, as the specification words it:
`max(1.3, ease + (0.1 - (5 - q) * (0.08 + (5 - q) * 0.02)))`. -/
def specEase (q : ℚ) (ease : ℚ) : ℚ :=
  max (13 / 10) (ease + (1 / 10 - (5 - q) * (8 / 100 + (5 - q) * (2 / 100))))

/-- The record that a review starts from: the stored one, or a fresh one. -/
def priorProgress (env : ReviewEnv) (db : DB) (cardID userID : Nat)
    (req : ReviewTheoryCardRequest) : UserTheoryProgress :=
  match dbFirstProgress db userID cardID with
  | some p => p
  | none => freshProgress userID cardID req.Answer env.createNow

/-- The four values of `types.ReviewAnswer`. -/
def reviewAnswers : List String := ["AGAIN", "HARD", "GOOD", "EASY"]

/-- The reviews of one card by one user, one call of `ReviewTheoryCard` after the other:
the database at the end and what each call returned, earliest first. -/
def reviewAll (cardID userID : Nat) :
    List (ReviewEnv × String) → DB → DB × List (Except String UserTheoryProgress)
  | [], db => (db, [])
  | (env, answer) :: rest, db =>
    let out := ReviewTheoryCard env db cardID userID { Answer := answer }
    let tail := reviewAll cardID userID rest out.2
    (tail.1, out.1 :: tail.2)

/-- The stored record after a review of an existing record: the scheduler's update, stamped
by gorm. -/
def stepRow (env : ReviewEnv) (answer : String) (row : UserTheoryProgress) :
    UserTheoryProgress :=
  { applyReview answer env.now row with UpdatedAt := env.saveNow }

/-- The stored record after the first review of a card by a user. -/
def firstRow (env : ReviewEnv) (db : DB) (cardID userID : Nat) (answer : String) :
    UserTheoryProgress :=
  { applyReview answer env.now (freshProgress userID cardID answer env.createNow) with
    ID := nextProgressID db, CreatedAt := env.saveNow, UpdatedAt := env.saveNow }

/-- The successive stored records of one card and user under further reviews. -/
def rowsFrom (row : UserTheoryProgress) : List (ReviewEnv × String) → List UserTheoryProgress
  | [] => []
  | (env, answer) :: rest => stepRow env answer row :: rowsFrom (stepRow env answer row) rest

/-- An environment of `ReviewTheoryCard` in which no statement fails. -/
def ReviewEnv.calm (env : ReviewEnv) : Prop :=
  env.cardErr = none ∧ env.findErr = none ∧ env.saveErr = none

/-- A database in which the record of `userID` for `cardID` is `row`, stored after the rows
`tbl` of other users or cards, under a key of its own. -/
def Tracked (db : DB) (cardID userID : Nat) (tbl : List UserTheoryProgress)
    (row : UserTheoryProgress) : Prop :=
  db.theoryProgress = tbl ++ [row] ∧
  (∀ r ∈ tbl, ¬ (r.UserID = userID ∧ r.TheoryCardID = cardID)) ∧
  (∀ r ∈ tbl, r.ID ≠ row.ID) ∧
  row.UserID = userID ∧ row.TheoryCardID = cardID ∧ row.ID ≠ 0

/-- An environment in which gorm stamps the row no earlier than, and less than a day after,
the clock reading from which the next review was scheduled. -/
def ReviewEnv.timely (env : ReviewEnv) : Prop :=
  env.now.unixNano ≤ env.saveNow.unixNano ∧
  env.saveNow.unixNano < env.now.unixNano + nanosPerDay

/-! ## `TaskService`: the owner-only mutations (`task_service.go`, `task_router.go`) -/

/-- The body of `dto.UpdateTaskRequest`; a nil pointer, slice or map is `none`. -/
structure UpdateTaskRequest where
  Title : Option String
  Description : Option String
  Content : Option String
  DifficultyLevel : Option String
  Category : Option String
  Tags : Option (List String)
  Points : Option Int
  TimeLimit : Option Int
  MemoryLimit : Option Int
  SupportedLanguages : Option (List String)
  InitialCode : Option (List (String × String))
  SolutionTemplate : Option (List (String × String))
  IsPublic : Option Bool
  IsActive : Option Bool
  deriving DecidableEq, Repr

/-- The body of `dto.CreateTestCaseRequest`. -/
structure CreateTestCaseRequest where
  TaskID : Nat
  Input : String
  ExpectedOutput : String
  IsPublic : Bool
  Order : Int
  TimeLimit : Option Int
  MemoryLimit : Option Int
  deriving DecidableEq, Repr

/-- The environment of one call of a `TaskService` mutation: the clock of the soft delete
and the driver errors of the statements. -/
structure TaskEnv where
  now : Int
  firstErr : Option String
  updateErr : Option String
  reloadErr : Option String
  deleteErr : Option String
  createErr : Option String

/-- The row that `db.First(&task, id)` finds when the driver reports no error; `none` is
`gorm.ErrRecordNotFound`.  Soft-deleted rows are invisible. -/
def findLiveTask (db : DB) (id : Nat) : Option Task :=
  db.tasks.find? (fun t => t.ID == id && t.DeletedAt.isNone)

/-- The `updates` map of `UpdateTask` applied to a row. -/
def applyTaskUpdates (req : UpdateTaskRequest) (t : Task) : Task :=
  { t with
    Title := req.Title.getD t.Title
    Description := req.Description.getD t.Description
    Content := req.Content.getD t.Content
    DifficultyLevel := req.DifficultyLevel.getD t.DifficultyLevel
    Category := req.Category.getD t.Category
    Tags := req.Tags.getD t.Tags
    Points := req.Points.getD t.Points
    TimeLimit := match req.TimeLimit with
      | some v => some v
      | none => t.TimeLimit
    MemoryLimit := match req.MemoryLimit with
      | some v => some v
      | none => t.MemoryLimit
    SupportedLanguages := req.SupportedLanguages.getD t.SupportedLanguages
    InitialCode := req.InitialCode.getD t.InitialCode
    SolutionTemplate := req.SolutionTemplate.getD t.SolutionTemplate
    IsPublic := req.IsPublic.getD t.IsPublic
    IsActive := req.IsActive.getD t.IsActive }

/-- `UpdateTask`: the returned task or error, and the database afterwards. -/
def UpdateTask (env : TaskEnv) (db : DB) (id userID : Nat) (req : UpdateTaskRequest) :
    Except String Task × DB :=
  match env.firstErr with
  | some err => (.error ("failed to get task: " ++ err), db)
  | none =>
    match findLiveTask db id with
    | none => (.error "task not found", db)
    | some task =>
      if task.CreatedByID ≠ userID then (.error "permission denied", db)
      else
        match env.updateErr with
        | some err => (.error ("failed to update task: " ++ err), db)
        | none =>
          let db1 : DB :=
            { db with
              tasks := db.tasks.map (fun t =>
                if t.ID = task.ID ∧ t.DeletedAt = none then applyTaskUpdates req t else t) }
          match env.reloadErr with
          | some err => (.error ("failed to load updated task: " ++ err), db1)
          | none =>
            match findLiveTask db1 id with
            | none => (.error ("failed to load updated task: " ++ "record not found"), db1)
            | some updated => (.ok updated, db1)

/-- `DeleteTask`: the error (`none` for nil) and the database afterwards. -/
def DeleteTask (env : TaskEnv) (db : DB) (id userID : Nat) : Option String × DB :=
  match env.firstErr with
  | some err => (some ("failed to get task: " ++ err), db)
  | none =>
    match findLiveTask db id with
    | none => (some "task not found", db)
    | some task =>
      if task.CreatedByID ≠ userID then (some "permission denied", db)
      else
        match env.deleteErr with
        | some err => (some ("failed to delete task: " ++ err), db)
        | none =>
          (none,
           { db with
             tasks := db.tasks.map (fun t =>
               if t.ID = task.ID ∧ t.DeletedAt = none then { t with DeletedAt := some env.now }
               else t) })

/-- The next value of the `test_cases` primary-key sequence. -/
def nextTestCaseID (db : DB) : Nat :=
  (db.testCases.map (fun tc => tc.ID)).foldl max 0 + 1

/-- `CreateTestCase`: the created test case or the error, and the database afterwards. -/
def CreateTestCase (env : TaskEnv) (db : DB) (userID : Nat) (req : CreateTestCaseRequest) :
    Except String TestCase × DB :=
  match env.firstErr with
  | some err => (.error ("failed to get task: " ++ err), db)
  | none =>
    match findLiveTask db req.TaskID with
    | none => (.error "task not found", db)
    | some task =>
      if task.CreatedByID ≠ userID then (.error "permission denied", db)
      else
        let testCase : TestCase :=
          { ID := 0, TaskID := req.TaskID, Input := req.Input,
            ExpectedOutput := req.ExpectedOutput, IsPublic := req.IsPublic, IsActive := true,
            Order := req.Order, TimeLimit := req.TimeLimit, MemoryLimit := req.MemoryLimit }
        match env.createErr with
        | some err => (.error ("failed to create test case: " ++ err), db)
        | none =>
          let row := { testCase with ID := nextTestCaseID db }
          (.ok row, { db with testCases := db.testCases ++ [row] })

/-- The status code with which the three handlers answer a service error. -/
def taskErrorStatus (err : String) : Nat :=
  if err = "permission denied" then 403
  else if err = "task not found" then 404
  else 500

/-- The handler `TaskHandler.UpdateTask`: `userID` is the `user_id` of the context if the
request was authenticated, `id` the parsed path parameter if it parsed, `body` the bound
JSON body if it bound.  The status code and the database afterwards. -/
def handleUpdateTask (env : TaskEnv) (db : DB) (userID : Option Nat) (id : Option Nat)
    (body : Option UpdateTaskRequest) : Nat × DB :=
  match userID with
  | none => (401, db)
  | some uid =>
    match id with
    | none => (400, db)
    | some taskID =>
      match body with
      | none => (400, db)
      | some req =>
        match UpdateTask env db taskID uid req with
        | (.error err, db1) => (taskErrorStatus err, db1)
        | (.ok _, db1) => (200, db1)

/-- The handler `TaskHandler.DeleteTask`. -/
def handleDeleteTask (env : TaskEnv) (db : DB) (userID : Option Nat) (id : Option Nat) :
    Nat × DB :=
  match userID with
  | none => (401, db)
  | some uid =>
    match id with
    | none => (400, db)
    | some taskID =>
      match DeleteTask env db taskID uid with
      | (some err, db1) => (taskErrorStatus err, db1)
      | (none, db1) => (200, db1)

/-- The handler `TaskHandler.CreateTestCase`. -/
def handleCreateTestCase (env : TaskEnv) (db : DB) (userID : Option Nat)
    (body : Option CreateTestCaseRequest) : Nat × DB :=
  match userID with
  | none => (401, db)
  | some uid =>
    match body with
    | none => (400, db)
    | some req =>
      match CreateTestCase env db uid req with
      | (.error err, db1) => (taskErrorStatus err, db1)
      | (.ok _, db1) => (201, db1)

/-- A task environment without driver errors. -/
def calmTaskEnv : TaskEnv :=
  { now := 1700000000, firstErr := none, updateErr := none, reloadErr := none,
    deleteErr := none, createErr := none }

/-- A request that switches `demoTask` off. -/
def demoDeactivate : UpdateTaskRequest :=
  { Title := none, Description := none, Content := none, DifficultyLevel := none,
    Category := none, Tags := none, Points := none, TimeLimit := none, MemoryLimit := none,
    SupportedLanguages := none, InitialCode := none, SolutionTemplate := none,
    IsPublic := none, IsActive := some false }

/-- A test case that user 7, who does not own `demoTask`, wants to add to it. -/
def demoNewCase : CreateTestCaseRequest :=
  { TaskID := 1, Input := "0 0\n", ExpectedOutput := "0", IsPublic := true, Order := 2,
    TimeLimit := none, MemoryLimit := none }

/-! ## `ProgressService.RecordActivity` (`progress_service.go`) -/

/-- The body of `dto.UpdateActivityRequest`. -/
structure UpdateActivityRequest where
  ActivityType : String
  EntityType : String
  EntityID : Option Nat
  Description : String
  PointsEarned : Int
  Metadata : List (String × String)
  deriving DecidableEq, Repr

/-- The environment of one call of `RecordActivity`: the driver errors of the insert and of
the statistics update, the clock reading of the latter, and the environment of the streak
update. -/
structure ActivityEnv where
  createErr : Option String
  statsNow : Time
  statsErr : Option String
  streak : StreakEnv

/-- The next value of the `user_activities` primary-key sequence. -/
def nextActivityID (db : DB) : Nat :=
  (db.activities.map (fun a => a.ID)).foldl max 0 + 1

/-- `updateUserStats`: the single `UPDATE` on the live row of the user. -/
def updateUserStats (fault : Option String) (now : Time) (db : DB) (userID : Nat)
    (pointsEarned : Int) : Option String × DB :=
  match fault with
  | some err => (some err, db)
  | none =>
    (none,
     { db with
       users := db.users.map (fun u =>
         if u.ID = userID ∧ u.DeletedAt = none then
           { u with TotalPointsEarned := u.TotalPointsEarned + pointsEarned,
                    LastActivityDate := some now }
         else u) })

/-- `RecordActivity`: the recorded activity or the error, and the database afterwards.  The
three steps are separate statements; a later failure leaves the earlier writes in place. -/
def RecordActivity (env : ActivityEnv) (db : DB) (userID : Nat) (req : UpdateActivityRequest) :
    Except String UserActivity × DB :=
  let activity : UserActivity :=
    { ID := 0, UserID := userID, ActivityType := req.ActivityType,
      EntityType := req.EntityType, EntityID := req.EntityID, Description := req.Description,
      PointsEarned := req.PointsEarned, Metadata := req.Metadata }
  match env.createErr with
  | some err => (.error ("failed to record activity: " ++ err), db)
  | none =>
    let activity := { activity with ID := nextActivityID db }
    let db1 : DB := { db with activities := db.activities ++ [activity] }
    match updateUserStats env.statsErr env.statsNow db1 userID req.PointsEarned with
    | (some err, db2) => (.error ("failed to update user stats: " ++ err), db2)
    | (none, db2) =>
      match updateUserStreak env.streak db2 userID with
      | (some err, db3) => (.error ("failed to update user streak: " ++ err), db3)
      | (none, db3) => (.ok activity, db3)

/-- An activity environment without driver errors at the given clock reading. -/
def calmActivityEnv (now : Time) : ActivityEnv :=
  { createErr := none, statsNow := now, statsErr := none, streak := calmStreakEnv now }

/-- The activity "task solved" as a client would report it. -/
def demoActivity : UpdateActivityRequest :=
  { ActivityType := "task_completed", EntityType := "task", EntityID := some 1,
    Description := "solved", PointsEarned := 10, Metadata := [] }

/-! ## Further scenarios of the judge -/

/-- The first non-empty `Error` among the per-test results, taken in execution order: the
error message of an attempt as the specification words it. -/
def firstNonEmptyError (results : List TestCaseResult) : Option String :=
  (results.find? (fun r => decide (r.Error ≠ ""))).map (fun r => r.Error)

/-- The error message that `ValidateTask` copies into the attempt of a failed validation:
the `Error` of `TestResults[0]` when there is such a result and its `Error` is not empty. -/
def leadingError (results : List TestCaseResult) : Option String :=
  match results with
  | first :: _ => if first.Error ≠ "" then some first.Error else none
  | [] => none

/-- A second active test case of `demoTask`. -/
def demoSecondCase : TestCase :=
  { ID := 13, TaskID := 1, Input := "4 4\n", ExpectedOutput := "8", IsPublic := false,
    IsActive := true, Order := 2, TimeLimit := none, MemoryLimit := none }

/-- The demo database with two active test cases for `demoTask`. -/
def demoTwoCaseDB : DB := { demoDB with testCases := [demoCase, demoSecondCase] }

/-- An environment in which the first execution prints a wrong answer and every later one
runs into the deadline. -/
def wrongThenTimeoutEnv : Env :=
  { host := fun n =>
      if n = 0 then quietHost "6\n" else failingHost (RunError.other "signal: killed") true
    loadTaskErr := none, createAttemptErr := none
    progressTaskErr := none, progressUpdateErr := none }

/-- An environment in which the first execution prints the right answer and every later one
a wrong one. -/
def rightThenWrongEnv : Env :=
  { host := fun n => if n = 0 then quietHost "5\n" else quietHost "9\n"
    loadTaskErr := none, createAttemptErr := none
    progressTaskErr := none, progressUpdateErr := none }

/-- The demo database with `demoTask` switched off. -/
def demoInactiveTaskDB : DB := { demoDB with tasks := [{ demoTask with IsActive := false }] }

/-- The database whose `is_active` column of `tasks` is rewritten by `f`, all else equal. -/
def withTaskFlags (f : Task → Bool) (db : DB) : DB :=
  { db with tasks := db.tasks.map (fun t => { t with IsActive := f t }) }

/-! ## The limits of one execution -/

/-- The deadline, in seconds, of the context under which `Execute` starts the child process
(`context.WithTimeout` with `time.Duration(timeLimit) * time.Second`); `none` when `Execute`
returns before it starts one. -/
def ExecuteDeadline (h : HostStep) (req : ExecuteCodeRequest) : Option Int :=
  match getLanguageConfig req.Language with
  | none => none
  | some config =>
    let execDir := joinPath workDir ("exec_" ++ toString h.now)
    match h.mkdirAll execDir with
    | some _ => none
    | none =>
      let codeFile := joinPath execDir ("code" ++ config.FileExtension)
      match h.writeFile codeFile req.Code with
      | some _ => none
      | none =>
        let inputFile := joinPath execDir "input.txt"
        match (if req.Input ≠ "" then h.writeFile inputFile req.Input else none) with
        | some _ => none
        | none => some (if req.TimeLimit ≤ 0 then config.TimeLimit else req.TimeLimit)

/-- The value of the `--memory` option in an argument vector of `docker run`, if there is
one: the bound that the container runtime imposes. -/
def memoryFlag : List String → Option String
  | [] => none
  | [_] => none
  | a :: b :: rest => if a = "--memory" then some b else memoryFlag (b :: rest)

/-- The time limit of test case `t` of `task` as the specification resolves it:
`t.timeLimit ?? task.timeLimit ?? profile default`. -/
def specTimeLimit (task : Task) (t : TestCase) (profile : LanguageConfig) : Int :=
  match t.TimeLimit with
  | some v => v
  | none =>
    match task.TimeLimit with
    | some v => v
    | none => profile.TimeLimit

/-- The memory limit of test case `t` of `task` as the specification resolves it. -/
def specMemoryLimit (task : Task) (t : TestCase) (profile : LanguageConfig) : Int :=
  match t.MemoryLimit with
  | some v => v
  | none =>
    match task.MemoryLimit with
    | some v => v
    | none => profile.MemoryLimit

/-- The memory bound of the sandbox as the specification resolves it, in the notation of
`docker run --memory`: the caller's `MemoryLimit` when one is supplied, the default of the
profile otherwise. -/
def specMemoryFlag (req : ExecuteCodeRequest) (profile : LanguageConfig) : String :=
  toString (if req.MemoryLimit = 0 then profile.MemoryLimit else req.MemoryLimit) ++ "m"

/-- The time limit that the judge requests for a test case: its own, or 10 seconds. -/
def judgeTimeLimit (t : TestCase) : Int :=
  match t.TimeLimit with
  | some v => v
  | none => 10

/-- The memory limit that the judge requests for a test case: its own, or 256 MB. -/
def judgeMemoryLimit (t : TestCase) : Int :=
  match t.MemoryLimit with
  | some v => v
  | none => 256

/-- The Java profile of the registry. -/
def javaConfig : LanguageConfig :=
  { Name := "Java", Version := "17", FileExtension := ".java",
    CompileCommand := "javac {file}", RunCommand := "java -cp . Main",
    DockerImage := "openjdk:17-alpine", TimeLimit := 15, MemoryLimit := 512 }

/-- A Java execution request that leaves both limits to the defaults. -/
def javaExec : ExecuteCodeRequest :=
  { Code := "public class Main { public static void main(String[] a) { } }",
    Language := "java", Input := "", TimeLimit := 0, MemoryLimit := 0 }

/-- A Java execution request that asks for 64 MB. -/
def javaExecSmall : ExecuteCodeRequest := { javaExec with MemoryLimit := 64 }

/-- The demo task with limits of its own (2 seconds, 64 MB), open to every language. -/
def limitedTask : Task :=
  { demoTask with TimeLimit := some 2, MemoryLimit := some 64, SupportedLanguages := [] }

/-- The demo database with `limitedTask` in place of `demoTask`. -/
def limitedDB : DB := { demoDB with tasks := [limitedTask] }

/-- A Java submission for task 1. -/
def javaReq : ValidateTaskRequest :=
  { TaskID := 1, Language := "java",
    Code := "public class Main { public static void main(String[] a) { } }" }

/-- A test case that asks for 128 MB. -/
def demoHungryCase : TestCase := { demoCase with MemoryLimit := some 128 }

/-- A host on which every file operation succeeds and the child reports the deadline it was
started under as its elapsed time. -/
def deadlineProbe : HostStep :=
  { now := 1700000000
    mkdirAll := fun _ => none
    writeFile := fun _ _ => none
    fileExists := fun _ => true
    readFile := fun _ => "2 3\n"
    run := fun _ _ limit =>
      { stdout := "5\n", stderr := "", err := none, deadlineExceeded := false,
        elapsedMs := limit } }

/-! ## `TaskService.GetTask` (`task_service.go`) -/

/-- The condition that the `Preload("TestCases", ...)` of `GetTask` adds: public and active
test cases for a request without caller, active ones for an authenticated caller. -/
def testCaseScope (userID : Option Nat) (tc : TestCase) : Bool :=
  match userID with
  | none => tc.IsPublic && tc.IsActive
  | some _ => tc.IsActive

/-- `GetTask`: the task with its preloaded test cases, as `TaskToResponse` copies them
column by column, or the error.  `userID` is `none` for the nil pointer of an
unauthenticated request.  The preloaded creator (`created_by` of the response) is not part
of the model. -/
def GetTask (env : TaskEnv) (db : DB) (id : Nat) (userID : Option Nat) : Except String Task :=
  match env.firstErr with
  | some err => .error ("failed to get task: " ++ err)
  | none =>
    match findLiveTask db id with
    | none => .error "task not found"
    | some row =>
      let task : Task :=
        { row with
          TestCases := db.testCases.filter (fun tc =>
            tc.TaskID == row.ID && testCaseScope userID tc) }
      if !task.IsPublic &&
          (match userID with
           | none => true
           | some uid => decide (uid ≠ task.CreatedByID)) then
        .error "task not found"
      else .ok task

/-- The demo database with `demoTask` made private (its creator is user 2). -/
def demoPrivateTaskDB : DB := { demoDB with tasks := [{ demoTask with IsPublic := false }] }

/-- The demo database with `demoTask` open to every language (empty supported set). -/
def openTaskDB : DB := { demoDB with tasks := [{ demoTask with SupportedLanguages := [] }] }

/-- The demo database with `demoTask` naming a language that has no profile. -/
def rubyTaskDB : DB :=
  { demoDB with tasks := [{ demoTask with SupportedLanguages := ["python", "ruby"] }] }

/-- A submission in a language without a profile in the registry. -/
def rubyReq : ValidateTaskRequest :=
  { TaskID := 1, Code := "puts gets.split.map(&:to_i).sum", Language := "ruby" }

/-! ## `ProgressService.UpdatePathProgress` (`progress_service.go`) -/

/-- The body of `dto.PathProgressRequest`. -/
structure PathProgressRequest where
  PathName : String
  deriving DecidableEq, Repr

/-- The environment of one call of `UpdatePathProgress`: the clock reading taken when the
path is marked completed, the one taken for `LastAccessedAt`, and the driver errors of its
two statements. -/
structure PathEnv where
  completedNow : Time
  now : Time
  findErr : Option String
  saveErr : Option String

/-- The record built when the user has none for the path: `CurrentStep: 1`, every other
column at its zero value. -/
def freshPath (userID : Nat) (pathName : String) : UserPathProgress :=
  { ID := 0, UserID := userID, PathName := pathName, TotalSteps := 0, CompletedSteps := 0,
    CurrentStep := 1, ProgressPercentage := 0, IsCompleted := false, CompletedAt := none,
    LastAccessedAt := none }

/-- The update that `UpdatePathProgress` applies to the record in memory. -/
def advancePath (env : PathEnv) (progress : UserPathProgress) : UserPathProgress :=
  let progress :=
    if progress.CurrentStep < progress.TotalSteps then
      { progress with
        CurrentStep := progress.CurrentStep + 1
        CompletedSteps := progress.CompletedSteps + 1 }
    else progress
  let progress :=
    if progress.TotalSteps > 0 then
      { progress with
        ProgressPercentage :=
          (progress.CompletedSteps : ℚ) / (progress.TotalSteps : ℚ) * 100 }
    else progress
  let progress :=
    if progress.CompletedSteps ≥ progress.TotalSteps ∧ progress.IsCompleted = false then
      { progress with IsCompleted := true, CompletedAt := some env.completedNow }
    else progress
  { progress with LastAccessedAt := some env.now }

/-- The row with the least primary key, as `First` orders by it. -/
def leastPathID (rows : List UserPathProgress) : Option UserPathProgress :=
  rows.foldl
    (fun acc r =>
      match acc with
      | none => some r
      | some a => if r.ID < a.ID then some r else some a)
    none

/-- Statement `Where("user_id = ? AND path_name = ?", userID, pathName).First(&progress)`
when the driver reports no error; `none` is `gorm.ErrRecordNotFound`. -/
def dbFirstPath (db : DB) (userID : Nat) (pathName : String) : Option UserPathProgress :=
  leastPathID (db.pathProgress.filter (fun r => r.UserID == userID && r.PathName == pathName))

/-- The next value of the `user_path_progresses` primary-key sequence. -/
def nextPathID (db : DB) : Nat :=
  (db.pathProgress.map (fun r => r.ID)).foldl max 0 + 1

/-- Statement `db.Save(&progress)` without driver error: the record as gorm leaves it and
the table.  A record with a zero primary key is inserted, any other rewrites the row with
its key. -/
def dbSavePath (db : DB) (progress : UserPathProgress) : UserPathProgress × DB :=
  if progress.ID = 0 then
    let row := { progress with ID := nextPathID db }
    (row, { db with pathProgress := db.pathProgress ++ [row] })
  else
    (progress, { db with
                 pathProgress := db.pathProgress.map (fun r =>
                   if r.ID = progress.ID then progress else r) })

/-- The record that a call of `UpdatePathProgress` starts from: the stored one, or a fresh
one. -/
def priorPath (db : DB) (userID : Nat) (req : PathProgressRequest) : UserPathProgress :=
  match dbFirstPath db userID req.PathName with
  | some p => p
  | none => freshPath userID req.PathName

/-- `UpdatePathProgress`: the response (it copies the columns of the saved record, so it is
given as that record) or the error, and the database afterwards. -/
def UpdatePathProgress (env : PathEnv) (db : DB) (userID : Nat) (req : PathProgressRequest) :
    Except String UserPathProgress × DB :=
  match env.findErr with
  | some err => (.error ("failed to find path progress: " ++ err), db)
  | none =>
    let progress :=
      match dbFirstPath db userID req.PathName with
      | some p => p
      | none => freshPath userID req.PathName
    let progress := advancePath env progress
    match env.saveErr with
    | some err => (.error ("failed to update path progress: " ++ err), db)
    | none =>
      let saved := dbSavePath db progress
      (.ok saved.1, saved.2)

/-- Several calls of `UpdatePathProgress` by one user for one path, one after the other:
the database at the end and what each call returned, earliest first. -/
def updatePathAll (userID : Nat) (req : PathProgressRequest) :
    List PathEnv → DB → DB × List (Except String UserPathProgress)
  | [], db => (db, [])
  | env :: rest, db =>
    let out := UpdatePathProgress env db userID req
    let tail := updatePathAll userID req rest out.2
    (tail.1, out.1 :: tail.2)

/-- A row as it stands before its first update: at step 1 with nothing completed and not
marked completed. -/
def PathStart (r : UserPathProgress) : Prop :=
  r.CurrentStep = 1 ∧ r.CompletedSteps = 0 ∧ r.IsCompleted = false

/-- The databases that arise by calls of `UpdatePathProgress`, for any users and paths and
with any driver errors, from one in which every path row stands at its start. -/
inductive PathReachable : DB → Prop where
  | start (db : DB) (h : ∀ r ∈ db.pathProgress, PathStart r) : PathReachable db
  | call (env : PathEnv) (userID : Nat) (req : PathProgressRequest) (db : DB)
      (h : PathReachable db) : PathReachable (UpdatePathProgress env db userID req).2

/-- What every reachable path row satisfies. -/
def PathInv (r : UserPathProgress) : Prop :=
  r.CompletedSteps = r.CurrentStep - 1 ∧ r.CurrentStep ≤ max r.TotalSteps 1 ∧
  (1 ≤ r.TotalSteps → r.IsCompleted = false)

/-- A path environment without driver errors at the given clock reading. -/
def calmPathEnv (now : Time) : PathEnv :=
  { completedNow := now, now := now, findErr := none, saveErr := none }

/-- A path of three steps on which user 7 has not moved yet. -/
def demoPath : UserPathProgress :=
  { ID := 1, UserID := 7, PathName := "go-basics", TotalSteps := 3, CompletedSteps := 0,
    CurrentStep := 1, ProgressPercentage := 0, IsCompleted := false, CompletedAt := none,
    LastAccessedAt := none }

/-- The demo database with the path row of user 7. -/
def demoPathDB : DB := { demoDB with pathProgress := [demoPath] }

/-! ## binary64 and the 64-bit `int` -/

/-- The integer nearest to `x`, the even one of the two when `x` lies half-way. -/
def roundHalfEven (x : ℚ) : Int :=
  let f := ⌊x⌋
  let r := x - f
  if r < 1 / 2 then f
  else if 1 / 2 < r then f + 1
  else if f % 2 = 0 then f
  else f + 1

/-- The number of times `n` can be halved before it drops below 2, counted within `fuel`
halvings. -/
def log2Fuel : Nat → Nat → Nat
  | 0, _ => 0
  | fuel + 1, n => if 2 ≤ n then log2Fuel fuel (n / 2) + 1 else 0

/-- The position of the leading binary digit of `n`: `Nat.log2 n`, by structural
recursion. -/
def natLog2 (n : Nat) : Nat := log2Fuel n n

/-- For a positive rational `a`, the integer `k` with `2 ^ k ≤ a < 2 ^ (k + 1)`. -/
def floorLog2 (a : ℚ) : Int :=
  let k : Int := (natLog2 a.num.natAbs : Int) - (natLog2 a.den : Int)
  if (2 : ℚ) ^ k ≤ a then k else k - 1

/-- The binary64 value nearest to `x` (53 significant bits, ties to the even significand):
the result of every `float64` operation is its exact result rounded this way.  The exponent
is not limited; the values of the scheduler lie far inside the normal range. -/
def roundF64 (x : ℚ) : ℚ :=
  if x = 0 then 0
  else
    let a := |x|
    let e := floorLog2 a - 52
    let n := roundHalfEven (a / (2 : ℚ) ^ e)
    (if x < 0 then -1 else 1) * (n : ℚ) * (2 : ℚ) ^ e

/-- The least value of a Go `int` on a 64-bit platform. -/
def minInt64 : Int := -9223372036854775808

/-- The greatest value of a Go `int` on a 64-bit platform. -/
def maxInt64 : Int := 9223372036854775807

/-- Go `int` arithmetic wraps around: the representative of `i` in the range of `int`. -/
def wrapInt64 (i : Int) : Int :=
  (i + 9223372036854775808) % 18446744073709551616 - 9223372036854775808

/-- What the language leaves to the platform: the value of the conversion `int(f)` when the
integer part of the float `f` is outside the range of `int` ("the conversion succeeds but
the result value is implementation-dependent"). -/
structure Arch where
  outOfRange : ℚ → Int

/-- The conversion on amd64: the truncating instruction answers every out-of-range operand
with the least `int`. -/
def amd64 : Arch := { outOfRange := fun _ => minInt64 }

/-- The conversion on arm64: it saturates at the bounds of `int`. -/
def arm64 : Arch := { outOfRange := fun f => if f < 0 then minInt64 else maxInt64 }

/-- Go `int(f)` for a `float64` value `f`: the integer part when it is an `int`. -/
def intOfFloat64 (arch : Arch) (f : ℚ) : Int :=
  if minInt64 ≤ truncToInt f ∧ truncToInt f ≤ maxInt64 then truncToInt f
  else arch.outOfRange f

/-- Go `float64(i)` for an `int` value `i`. -/
def float64OfInt (i : Int) : ℚ := roundF64 (i : ℚ)

/-- The expression `0.1 - (5-float64(quality))*(0.08+(5-float64(quality))*0.02)` in
`float64`: every literal is the binary64 value nearest to it and every operation rounds.
For the qualities 3, 4 and 5 both products are exact, so fusing a product with the
operation that follows it gives the same value. -/
def easeDelta (quality : Int) : ℚ :=
  let d := roundF64 (5 - float64OfInt quality)
  roundF64 (roundF64 (1 / 10) -
    roundF64 (d * roundF64 (roundF64 (8 / 100) + roundF64 (d * roundF64 (2 / 100)))))

/-- The spaced-repetition update as the program computes it: `EaseFactor` in `float64`,
`Repetitions` and `Interval` in the 64-bit `int`. -/
def applyReviewF64 (arch : Arch) (answer : String) (now : Time)
    (progress : UserTheoryProgress) : UserTheoryProgress :=
  let progress := { progress with LastAnswer := answer }
  let progress :=
    if answer = "AGAIN" then
      { progress with Repetitions := 0, Interval := 1 }
    else
      let progress := { progress with Repetitions := wrapInt64 (progress.Repetitions + 1) }
      let progress :=
        { progress with
          EaseFactor := roundF64 (progress.EaseFactor + easeDelta (qualityOf answer)) }
      let progress :=
        if progress.EaseFactor < roundF64 (13 / 10) then
          { progress with EaseFactor := roundF64 (13 / 10) }
        else progress
      if progress.Repetitions ≤ 1 then { progress with Interval := 1 }
      else if progress.Repetitions = 2 then { progress with Interval := 6 }
      else
        { progress with
          Interval :=
            intOfFloat64 arch
              (roundF64 (float64OfInt progress.Interval * progress.EaseFactor)) }
  { progress with NextReviewAt := now.AddDays progress.Interval }

/-- `ReviewTheoryCard` with the update computed in `float64` and `int`. -/
def ReviewTheoryCardF64 (arch : Arch) (env : ReviewEnv) (db : DB) (cardID userID : Nat)
    (req : ReviewTheoryCardRequest) : Except String UserTheoryProgress × DB :=
  match dbFirstActiveCard env.cardErr db cardID with
  | .error err => (.error err, db)
  | .ok _ =>
    match env.findErr with
    | some err => (.error ("failed to find progress record: " ++ err), db)
    | none =>
      let progress :=
        match dbFirstProgress db userID cardID with
        | some p => p
        | none => freshProgress userID cardID req.Answer env.createNow
      let progress := applyReviewF64 arch req.Answer env.now progress
      match env.saveErr with
      | some err => (.error ("failed to save progress: " ++ err), db)
      | none =>
        let saved := dbSaveProgress env.saveNow db progress
        (.ok saved.1, saved.2)

/-- The reviews of one card by one user, one call of `ReviewTheoryCardF64` after the other:
the database at the end and what each call returned, earliest first. -/
def reviewAllF64 (arch : Arch) (cardID userID : Nat) :
    List (ReviewEnv × String) → DB → DB × List (Except String UserTheoryProgress)
  | [], db => (db, [])
  | (env, answer) :: rest, db =>
    let out := ReviewTheoryCardF64 arch env db cardID userID { Answer := answer }
    let tail := reviewAllF64 arch cardID userID rest out.2
    (tail.1, out.1 :: tail.2)

/-- The ease factor after a graded review, as the program computes it: the `float64` sum,
raised to the `float64` value of 1.3 when it is below it. -/
def easeF64 (answer : String) (ease : ℚ) : ℚ :=
  max (roundF64 (13 / 10)) (roundF64 (ease + easeDelta (qualityOf answer)))

/-- The `float64` product `float64(Interval) * EaseFactor` of a graded review, with the
updated ease factor. -/
def productF64 (answer : String) (p : UserTheoryProgress) : ℚ :=
  roundF64 (float64OfInt p.Interval * easeF64 answer p.EaseFactor)

/-- A review whose integer arithmetic stays inside the 64-bit `int`: the repetition count
does not wrap around and, from the third repetition on, the integer part of the product is
an `int`. -/
def reviewFits (answer : String) (p : UserTheoryProgress) : Prop :=
  answer = "AGAIN" ∨
    (p.Repetitions < maxInt64 ∧
      (3 ≤ p.Repetitions + 1 →
        minInt64 ≤ truncToInt (productF64 answer p) ∧
        truncToInt (productF64 answer p) ≤ maxInt64))

/-- The databases that arise from one without progress records by calls of
`ReviewTheoryCardF64` with answers among the four grades, in environments that satisfy `P`
(any cards, any users, failing calls included), as long as every review stays inside the
`int`. -/
inductive ReviewReachableF64 (arch : Arch) (P : ReviewEnv → Prop) : DB → Prop where
  | start (db : DB) (h : db.theoryProgress = []) : ReviewReachableF64 arch P db
  | review (env : ReviewEnv) (cardID userID : Nat) (req : ReviewTheoryCardRequest) (db : DB)
      (h : ReviewReachableF64 arch P db) (hP : P env) (hans : req.Answer ∈ reviewAnswers)
      (hfit : reviewFits req.Answer (priorProgress env db cardID userID req)) :
      ReviewReachableF64 arch P (ReviewTheoryCardF64 arch env db cardID userID req).2

/-- A number of days that `AddDate` adds exactly to a clock reading of the present era: the
sum, in seconds, stays inside the 64 bits in which `time.Time` counts. -/
def maxAddDays : Int := 100000000000000

/-- The repetition count, the interval and the ease factor of each answer of a series of
reviews; `none` for a call that failed. -/
def reviewTrace (results : List (Except String UserTheoryProgress)) :
    List (Option (Int × Int × ℚ)) :=
  results.map (fun r =>
    match r with
    | .ok p => some (p.Repetitions, p.Interval, p.EaseFactor)
    | .error _ => none)

/-- The same answer `n` times, each in a calm environment at the same clock reading. -/
def sameReviews (n : Nat) (answer : String) : List (ReviewEnv × String) :=
  List.replicate n (calmReviewEnv demoMorning, answer)

/-- The record of user 7 for the demo card after three reviews answered GOOD. -/
def demoProgress : UserTheoryProgress :=
  { ID := 1, UserID := 7, TheoryCardID := 3, Interval := 15, Repetitions := 3,
    EaseFactor := 5 / 2, NextReviewAt := demoMorning.AddDays 15, LastAnswer := "GOOD",
    IsActive := true, CreatedAt := demoMorning, UpdatedAt := demoMorning }

/-- The demo database with that record. -/
def demoReviewedDB : DB := { demoTheoryDB with theoryProgress := [demoProgress] }

/-- The record of user 7 for the demo card after 47 reviews answered GOOD. -/
def demoRipeProgress : UserTheoryProgress :=
  { demoProgress with Interval := 4753954829065798656, Repetitions := 47,
                      NextReviewAt := demoMorning.AddDays 4753954829065798656 }

/-- The demo database with that record. -/
def demoRipeDB : DB := { demoTheoryDB with theoryProgress := [demoRipeProgress] }

/-! ## The streak scenario on a server ahead of UTC -/

/-- The clock reading `demoMorning`, 00:05 UTC on day 19001, as a server three hours ahead
of UTC shows it: 03:05 on day 19001. -/
def demoMorningEast : Time := { demoMorning with zoneOffset := 10800 }

/-- The clock reading `demoLastNight`, 23:59 UTC on day 19000, as a server three hours ahead
of UTC shows it: 02:59 on day 19001. -/
def demoLastNightEast : Time := { demoLastNight with zoneOffset := 10800 }

/-- The streak row of the streak scenario on that server. -/
def demoStreakEast : UserStreak := { demoStreak with LastActivityDate := some demoLastNightEast }

/-- The demo database with that streak row. -/
def demoStreakEastDB : DB := { demoDB with streaks := [demoStreakEast] }

/-! # Theorems -/

/-! ## Facts about the test-case loop -/

theorem init_TestResults : LoopState.init.TestResults = [] := rfl

theorem init_executed : LoopState.init.executed = [] := rfl

theorem loopInv_init : LoopInv LoopState.init := by
  simp [LoopInv, LoopState.init]

theorem loopInv_step (host : Nat → HostStep) (req : ValidateTaskRequest)
    (st : LoopState) (tc : TestCase) (h : LoopInv st) : LoopInv (loopStep host req st tc) := by
  obtain ⟨hp, hf, hl⟩ := h
  unfold loopStep
  cases hact : tc.IsActive
  · simpa using ⟨hp, hf, hl⟩
  · simp only [hact, Bool.not_true, Bool.false_eq_true, if_false]
    generalize runTestCase (host st.executed.length) req tc = r
    cases hpass : r.Passed <;>
      simp [LoopInv, hpass, hp, hf, hl, List.countP_append, List.countP_cons]

theorem loopInv_foldl (host : Nat → HostStep) (req : ValidateTaskRequest) :
    ∀ (tcs : List TestCase) (st : LoopState), LoopInv st →
      LoopInv (tcs.foldl (loopStep host req) st) := by
  intro tcs
  induction tcs with
  | nil => intro st h; simpa using h
  | cons tc rest ih =>
    intro st h
    simp only [List.foldl_cons]
    exact ih _ (loopInv_step host req st tc h)

theorem foldl_loopStep_trace (host : Nat → HostStep) (req : ValidateTaskRequest) :
    ∀ (tcs : List TestCase) (st : LoopState),
      (tcs.foldl (loopStep host req) st).executed =
          st.executed ++ (tcs.filter (fun tc => tc.IsActive)).map (buildExecReq req) ∧
      (tcs.foldl (loopStep host req) st).TestResults.map (fun r => r.ID) =
          st.TestResults.map (fun r => r.ID) ++
            (tcs.filter (fun tc => tc.IsActive)).map (fun tc => tc.ID) := by
  intro tcs
  induction tcs with
  | nil => intro st; simp
  | cons tc rest ih =>
    intro st
    simp only [List.foldl_cons]
    obtain ⟨h1, h2⟩ := ih (loopStep host req st tc)
    rw [h1, h2]
    cases hact : tc.IsActive
    · simp [loopStep, hact]
    · simp [loopStep, hact, runTestCase]
      cases Execute (host st.executed.length) (buildExecReq req tc) <;> simp
      split <;> simp

/-! ## Facts about the database statements -/

theorem updateUserProgress_frame (env : Env) (db : DB) (userID taskID : Nat) :
    (updateUserProgress env db userID taskID).2.tasks = db.tasks ∧
    (updateUserProgress env db userID taskID).2.testCases = db.testCases ∧
    (updateUserProgress env db userID taskID).2.attempts = db.attempts := by
  unfold updateUserProgress
  cases dbFirstTask env.progressTaskErr db taskID with
  | error err => simp
  | ok task =>
    unfold dbUpdateUserCounters
    cases env.progressUpdateErr <;> simp

theorem updateUserProgress_failed (env : Env) (db : DB) (userID taskID : Nat)
    (h : (updateUserProgress env db userID taskID).1 ≠ none) :
    (updateUserProgress env db userID taskID).2 = db := by
  revert h
  unfold updateUserProgress
  cases dbFirstTask env.progressTaskErr db taskID with
  | error err => simp
  | ok task =>
    unfold dbUpdateUserCounters
    cases env.progressUpdateErr <;> simp

/-- What `ValidateTask` returns and leaves behind once both checks and the insert succeed. -/
theorem ValidateTask_of_checks (env : Env) (db : DB) (userID : Nat) (req : ValidateTaskRequest)
    (task : Task)
    (hload : dbFirstTaskWithTestCases env.loadTaskErr db req.TaskID = .ok task)
    (hlang : isLanguageSupported task req.Language = true)
    (hcreate : env.createAttemptErr = none) :
    (ValidateTask env db userID req).result =
        .ok (buildResponse (runLoop env.host req task.TestCases)) ∧
    (ValidateTask env db userID req).executed = (runLoop env.host req task.TestCases).executed ∧
    (ValidateTask env db userID req).db =
      (if (buildResponse (runLoop env.host req task.TestCases)).Success = true then
        (updateUserProgress env (insertedDB db userID req
          (buildResponse (runLoop env.host req task.TestCases))) userID req.TaskID).2
      else insertedDB db userID req (buildResponse (runLoop env.host req task.TestCases))) := by
  unfold ValidateTask
  simp only [hload, hlang, dbCreateAttempt, hcreate, Bool.not_true, Bool.false_eq_true, if_false]
  cases hs : (buildResponse (runLoop env.host req task.TestCases)).Success
  · simp [insertedDB]
  · simp only [if_true]
    rcases hu : updateUserProgress env _ userID req.TaskID with ⟨e, db2⟩
    cases e <;> simp [insertedDB, hu]

theorem ValidateTask_ok_inv (env : Env) (db : DB) (userID : Nat) (req : ValidateTaskRequest)
    (resp : ValidateTaskResponse) (h : (ValidateTask env db userID req).result = .ok resp) :
    ∃ task, dbFirstTaskWithTestCases env.loadTaskErr db req.TaskID = .ok task ∧
      isLanguageSupported task req.Language = true ∧ env.createAttemptErr = none ∧
      resp = buildResponse (runLoop env.host req task.TestCases) := by
  unfold ValidateTask at h
  cases hload : dbFirstTaskWithTestCases env.loadTaskErr db req.TaskID with
  | error err => simp [hload] at h
  | ok task =>
    cases hlang : isLanguageSupported task req.Language
    · simp [hload, hlang] at h
    · cases hcreate : env.createAttemptErr with
      | some err => simp [hload, hlang, dbCreateAttempt, hcreate] at h
      | none =>
        refine ⟨task, rfl, hlang, rfl, ?_⟩
        have := (ValidateTask_of_checks env db userID req task hload hlang hcreate).1
        unfold ValidateTask at this
        rw [this] at h
        exact (Except.ok.inj h).symm

/-! ## The judge: counts, score, verdict -/

theorem ValidateTask_executed (env : Env) (db : DB) (userID : Nat) (req : ValidateTaskRequest)
    (task : Task)
    (hload : dbFirstTaskWithTestCases env.loadTaskErr db req.TaskID = .ok task)
    (hlang : isLanguageSupported task req.Language = true) :
    (ValidateTask env db userID req).executed =
      (task.TestCases.filter (fun tc => tc.IsActive)).map (buildExecReq req) := by
  have htrace := (foldl_loopStep_trace env.host req task.TestCases LoopState.init).1
  simp only [LoopState.init, List.nil_append] at htrace
  cases hcreate : env.createAttemptErr with
  | none =>
    rw [(ValidateTask_of_checks env db userID req task hload hlang hcreate).2.1]
    exact htrace
  | some err =>
    unfold ValidateTask
    simp only [hload, hlang, dbCreateAttempt, hcreate, Bool.not_true, Bool.false_eq_true,
      if_false]
    exact htrace

theorem buildResponse_fields (st : LoopState) :
    (buildResponse st).TestsPassed = st.testsPassed ∧
    (buildResponse st).TestsFailed = st.testsFailed ∧
    (buildResponse st).TotalTests = st.testsPassed + st.testsFailed ∧
    (buildResponse st).TestResults = st.TestResults ∧
    (buildResponse st).Success = (decide (st.testsFailed = 0) && decide (st.testsPassed > 0)) ∧
    (buildResponse st).Score =
      (if st.testsPassed + st.testsFailed > 0 then
        Int.tdiv (st.testsPassed * 100) (st.testsPassed + st.testsFailed) else 0) := by
  unfold buildResponse
  by_cases h : st.testsPassed + st.testsFailed > 0 <;> simp [h]

theorem buildAttempt_fields (userID : Nat) (req : ValidateTaskRequest)
    (response : ValidateTaskResponse) :
    (buildAttempt userID req response).TestsPassed = response.TestsPassed ∧
    (buildAttempt userID req response).TestsFailed = response.TestsFailed ∧
    (buildAttempt userID req response).Status = getTaskStatus response.Success ∧
    (buildAttempt userID req response).TaskID = req.TaskID ∧
    (buildAttempt userID req response).UserID = userID := by
  unfold buildAttempt
  cases response.Success
  · cases response.TestResults with
    | nil => simp
    | cons first rest => by_cases h : first.Error = "" <;> simp [h]
  · simp

theorem ValidateTask_attempts (env : Env) (db : DB) (userID : Nat) (req : ValidateTaskRequest)
    (task : Task)
    (hload : dbFirstTaskWithTestCases env.loadTaskErr db req.TaskID = .ok task)
    (hlang : isLanguageSupported task req.Language = true)
    (hcreate : env.createAttemptErr = none) :
    (ValidateTask env db userID req).db.attempts =
      db.attempts ++
        [{ buildAttempt userID req (buildResponse (runLoop env.host req task.TestCases)) with
            ID := nextAttemptID db }] := by
  rw [(ValidateTask_of_checks env db userID req task hload hlang hcreate).2.2]
  split
  · rw [(updateUserProgress_frame env _ userID req.TaskID).2.2]; rfl
  · rfl

/-- C1: once the task is loaded and the language accepted, exactly the active test cases are
handed to the executor (in order); and when the insert goes through, the response has
`TestsPassed + TestsFailed = TotalTests = len(TestResults) =` the number of active test
cases, one result per active test case, and the persisted attempt carries the same two
counters. -/
theorem validateTask_counts_active_cases (env : Env) (db : DB) (userID : Nat)
    (req : ValidateTaskRequest) (task : Task)
    (hload : dbFirstTaskWithTestCases env.loadTaskErr db req.TaskID = .ok task)
    (hlang : isLanguageSupported task req.Language = true) :
    (ValidateTask env db userID req).executed =
        (task.TestCases.filter (fun tc => tc.IsActive)).map (buildExecReq req) ∧
    (env.createAttemptErr = none →
      ∃ resp attempt,
        (ValidateTask env db userID req).result = .ok resp ∧
        resp.TestsPassed + resp.TestsFailed = resp.TotalTests ∧
        resp.TotalTests = (resp.TestResults.length : Int) ∧
        resp.TestResults.length = (task.TestCases.filter (fun tc => tc.IsActive)).length ∧
        resp.TestResults.map (fun r => r.ID) =
          (task.TestCases.filter (fun tc => tc.IsActive)).map (fun tc => tc.ID) ∧
        (ValidateTask env db userID req).db.attempts = db.attempts ++ [attempt] ∧
        attempt.TestsPassed = resp.TestsPassed ∧
        attempt.TestsFailed = resp.TestsFailed) := by
  refine ⟨ValidateTask_executed env db userID req task hload hlang, fun hcreate => ?_⟩
  obtain ⟨hTP, hTF, hTT, hTR, -, -⟩ := buildResponse_fields (runLoop env.host req task.TestCases)
  obtain ⟨hp, hf, -⟩ := loopInv_foldl env.host req task.TestCases LoopState.init loopInv_init
  have hids := (foldl_loopStep_trace env.host req task.TestCases LoopState.init).2
  simp only [LoopState.init, List.map_nil, List.nil_append] at hids
  have hlen := congrArg List.length hids
  simp only [List.length_map] at hlen
  refine ⟨buildResponse (runLoop env.host req task.TestCases), _,
    (ValidateTask_of_checks env db userID req task hload hlang hcreate).1, ?_, ?_, ?_, ?_,
    ValidateTask_attempts env db userID req task hload hlang hcreate, ?_, ?_⟩
  · rw [hTP, hTF, hTT]
  · rw [hTT, hTR]
    unfold runLoop
    rw [hp, hf]
    have := List.length_eq_countP_add_countP (fun r : TestCaseResult => r.Passed)
      (l := (List.foldl (loopStep env.host req) LoopState.init task.TestCases).TestResults)
    simp only [Bool.not_eq_true, Bool.decide_eq_false] at this
    omega
  · rw [hTR]; exact hlen
  · rw [hTR]; exact hids
  · exact (buildAttempt_fields userID req _).1
  · exact (buildAttempt_fields userID req _).2.1

theorem validateTask_counts_active_cases_witness :
    (ValidateTask (demoEnv "5\n") demoDB 7 demoReq).executed =
      [{ Code := demoReq.Code, Language := "python", Input := "2 3\n", TimeLimit := 10,
         MemoryLimit := 256 }] :=
  (validateTask_counts_active_cases (demoEnv "5\n") demoDB 7 demoReq demoLoaded
    (by rfl) (by decide)).1

theorem runLoop_counts (host : Nat → HostStep) (req : ValidateTaskRequest)
    (tcs : List TestCase) :
    0 ≤ (runLoop host req tcs).testsPassed ∧ 0 ≤ (runLoop host req tcs).testsFailed ∧
    (runLoop host req tcs).testsPassed + (runLoop host req tcs).testsFailed =
      ((tcs.filter (fun tc => tc.IsActive)).length : Int) := by
  obtain ⟨hp, hf, -⟩ := loopInv_foldl host req tcs LoopState.init loopInv_init
  have hids := (foldl_loopStep_trace host req tcs LoopState.init).2
  simp only [init_TestResults, List.map_nil, List.nil_append] at hids
  have hlen := congrArg List.length hids
  simp only [List.length_map] at hlen
  have hsum := List.length_eq_countP_add_countP (fun r : TestCaseResult => r.Passed)
    (l := (List.foldl (loopStep host req) LoopState.init tcs).TestResults)
  simp only [Bool.not_eq_true, Bool.decide_eq_false] at hsum
  unfold runLoop
  rw [hp, hf]
  refine ⟨by omega, by omega, by omega⟩

/-- C2: in every response of `ValidateTask` the score is `TestsPassed * 100` divided by
`TotalTests` with floor division when `TotalTests > 0`, it is 0 when `TotalTests = 0`, in
particular when the task has no active test case, and it always lies in `[0, 100]`. -/
theorem validateTask_score (env : Env) (db : DB) (userID : Nat) (req : ValidateTaskRequest)
    (resp : ValidateTaskResponse)
    (h : (ValidateTask env db userID req).result = .ok resp) :
    (0 < resp.TotalTests →
      resp.Score = Int.fdiv (resp.TestsPassed * 100) resp.TotalTests) ∧
    (resp.TotalTests = 0 → resp.Score = 0) ∧
    (∀ task, dbFirstTaskWithTestCases env.loadTaskErr db req.TaskID = .ok task →
      task.TestCases.filter (fun tc => tc.IsActive) = [] → resp.Score = 0) ∧
    0 ≤ resp.Score ∧ resp.Score ≤ 100 := by
  obtain ⟨task, hload, -, -, rfl⟩ := ValidateTask_ok_inv env db userID req resp h
  obtain ⟨hTP, -, hTT, -, -, hS⟩ := buildResponse_fields (runLoop env.host req task.TestCases)
  obtain ⟨hp, hf, hsum⟩ := runLoop_counts env.host req task.TestCases
  rw [hTP, hTT, hS]
  generalize (runLoop env.host req task.TestCases).testsPassed = p at *
  generalize (runLoop env.host req task.TestCases).testsFailed = f at *
  have hdiv : Int.tdiv (p * 100) (p + f) = (p * 100) / (p + f) :=
    Int.tdiv_eq_ediv (by omega) (by omega)
  refine ⟨?_, ?_, ?_, ?_, ?_⟩
  · intro hpos
    rw [if_pos hpos, Int.fdiv_eq_tdiv (by omega) (by omega)]
  · intro hz
    rw [if_neg (by omega)]
  · intro task2 hload2 hnone
    rw [hload] at hload2
    cases hload2
    rw [hnone] at hsum
    rw [if_neg (by simp at hsum; omega)]
  · split
    · rw [hdiv]; exact Int.ediv_nonneg (by omega) (by omega)
    · exact le_refl 0
  · split
    · rename_i hpos
      rw [hdiv]; exact Int.ediv_le_of_le_mul hpos (by omega)
    · decide

theorem validateTask_score_witness :
    (ValidateTask (demoEnv "5\n") demoDB 7 demoReq).result = .ok (demoResponse "5" true 100) ∧
    (demoResponse "5" true 100).Score = 100 ∧ (demoResponse "5" true 100).Score ≤ 100 :=
  ⟨by rfl, by decide,
    (validateTask_score (demoEnv "5\n") demoDB 7 demoReq (demoResponse "5" true 100)
      (by rfl)).2.2.2.2⟩

/-- C3: `Success` holds exactly when no test failed and at least one passed; the attempt row
the validation appends is `COMPLETED` exactly when `Success` holds and `REJECTED` exactly
when it does not; so a `COMPLETED` attempt has `TestsFailed = 0` and `TestsPassed > 0`, and a
task without active test case yields a `REJECTED` attempt. -/
theorem validateTask_success_status (env : Env) (db : DB) (userID : Nat)
    (req : ValidateTaskRequest) (resp : ValidateTaskResponse)
    (h : (ValidateTask env db userID req).result = .ok resp) :
    (resp.Success = true ↔ resp.TestsFailed = 0 ∧ resp.TestsPassed > 0) ∧
    ∃ attempt,
      (ValidateTask env db userID req).db.attempts = db.attempts ++ [attempt] ∧
      (attempt.Status = TaskStatus.COMPLETED ↔ resp.Success = true) ∧
      (attempt.Status = TaskStatus.REJECTED ↔ resp.Success = false) ∧
      (attempt.Status = TaskStatus.COMPLETED →
        attempt.TestsFailed = 0 ∧ attempt.TestsPassed > 0) ∧
      (∀ task, dbFirstTaskWithTestCases env.loadTaskErr db req.TaskID = .ok task →
        task.TestCases.filter (fun tc => tc.IsActive) = [] →
        attempt.Status = TaskStatus.REJECTED) := by
  obtain ⟨task, hload, hlang, hcreate, rfl⟩ := ValidateTask_ok_inv env db userID req resp h
  obtain ⟨hTP, hTF, -, -, hSu, -⟩ := buildResponse_fields (runLoop env.host req task.TestCases)
  obtain ⟨hp, hf, hsum⟩ := runLoop_counts env.host req task.TestCases
  obtain ⟨hAP, hAF, hASt, -, -⟩ :=
    buildAttempt_fields userID req (buildResponse (runLoop env.host req task.TestCases))
  have hiff : (buildResponse (runLoop env.host req task.TestCases)).Success = true ↔
      (buildResponse (runLoop env.host req task.TestCases)).TestsFailed = 0 ∧
      (buildResponse (runLoop env.host req task.TestCases)).TestsPassed > 0 := by
    rw [hSu, hTP, hTF]; simp
  refine ⟨hiff, _, ValidateTask_attempts env db userID req task hload hlang hcreate, ?_, ?_, ?_, ?_⟩
  · show (buildAttempt userID req _).Status = _ ↔ _
    rw [hASt]; unfold getTaskStatus
    cases (buildResponse (runLoop env.host req task.TestCases)).Success <;> simp
  · show (buildAttempt userID req _).Status = _ ↔ _
    rw [hASt]; unfold getTaskStatus
    cases (buildResponse (runLoop env.host req task.TestCases)).Success <;> simp
  · show (buildAttempt userID req _).Status = _ →
      (buildAttempt userID req _).TestsFailed = 0 ∧ (buildAttempt userID req _).TestsPassed > 0
    rw [hASt, hAP, hAF]; unfold getTaskStatus
    intro hc
    apply hiff.mp
    revert hc
    cases (buildResponse (runLoop env.host req task.TestCases)).Success <;> simp
  · intro task2 hload2 hnone
    rw [hload] at hload2
    cases hload2
    rw [hnone] at hsum
    show (buildAttempt userID req _).Status = _
    rw [hASt, hSu]
    have : ¬ ((runLoop env.host req task.TestCases).testsPassed > 0) := by
      simp at hsum; omega
    simp [getTaskStatus, this]

theorem validateTask_success_status_witness :
    (ValidateTask (demoEnv "6\n") demoDB 7 demoReq).result = .ok (demoResponse "6" false 0) ∧
    ((demoResponse "6" false 0).Success = true ↔
      (demoResponse "6" false 0).TestsFailed = 0 ∧ (demoResponse "6" false 0).TestsPassed > 0) :=
  ⟨by rfl,
    (validateTask_success_status (demoEnv "6\n") demoDB 7 demoReq (demoResponse "6" false 0)
      (by rfl)).1⟩

/-! ## Trimming -/

theorem dropWhile_isSpace_append (pre l : List Char) (h : ∀ c ∈ pre, isSpace c = true) :
    (pre ++ l).dropWhile isSpace = l.dropWhile isSpace := by
  induction pre with
  | nil => rfl
  | cons c rest ih =>
    have hc : isSpace c = true := h c (List.mem_cons_self c rest)
    rw [List.cons_append, List.dropWhile_cons_of_pos hc]
    exact ih (fun d hd => h d (List.mem_cons_of_mem c hd))

theorem dropWhile_isSpace_all (l : List Char) (h : ∀ c ∈ l, isSpace c = true) :
    l.dropWhile isSpace = [] := by
  have := dropWhile_isSpace_append l [] h
  simpa using this

theorem trimRight_append (l post : List Char) (h : ∀ c ∈ post, isSpace c = true) :
    trimRight (l ++ post) = trimRight l := by
  unfold trimRight
  rw [List.reverse_append, dropWhile_isSpace_append _ _ (fun c hc => h c (List.mem_reverse.mp hc))]

theorem trimRight_trimLeft_append (l post : List Char) (h : ∀ c ∈ post, isSpace c = true) :
    trimRight (trimLeft (l ++ post)) = trimRight (trimLeft l) := by
  induction l with
  | nil =>
    simp only [List.nil_append, trimLeft]
    rw [dropWhile_isSpace_all post h]
    rfl
  | cons c rest ih =>
    cases hc : isSpace c
    · have e1 : trimLeft (c :: rest ++ post) = (c :: rest) ++ post := by
        unfold trimLeft
        rw [List.cons_append, List.dropWhile_cons_of_neg (by simp [hc])]
      have e2 : trimLeft (c :: rest) = c :: rest := by
        unfold trimLeft
        rw [List.dropWhile_cons_of_neg (by simp [hc])]
      rw [e1, e2, trimRight_append _ _ h]
    · have e1 : trimLeft (c :: rest ++ post) = trimLeft (rest ++ post) := by
        unfold trimLeft
        rw [List.cons_append, List.dropWhile_cons_of_pos hc]
      have e2 : trimLeft (c :: rest) = trimLeft rest := by
        unfold trimLeft
        rw [List.dropWhile_cons_of_pos hc]
      rw [e1, e2, ih]

theorem TrimSpace_pad (s : String) (pre post : List Char)
    (hpre : ∀ c ∈ pre, isSpace c = true) (hpost : ∀ c ∈ post, isSpace c = true) :
    TrimSpace ⟨pre ++ s.data ++ post⟩ = TrimSpace s := by
  unfold TrimSpace
  congr 1
  show trimRight (trimLeft (pre ++ s.data ++ post)) = trimRight (trimLeft s.data)
  rw [List.append_assoc]
  have : trimLeft (pre ++ (s.data ++ post)) = trimLeft (s.data ++ post) :=
    dropWhile_isSpace_append pre _ hpre
  rw [this, trimRight_trimLeft_append _ _ hpost]

theorem TrimSpace_decompose (s : String) :
    ∃ pre post : List Char, (∀ c ∈ pre, isSpace c = true) ∧ (∀ c ∈ post, isSpace c = true) ∧
      s.data = pre ++ (TrimSpace s).data ++ post := by
  refine ⟨s.data.takeWhile isSpace,
    ((s.data.dropWhile isSpace).reverse.takeWhile isSpace).reverse, ?_, ?_, ?_⟩
  · intro c hc
    exact List.mem_takeWhile_imp hc
  · intro c hc
    exact List.mem_takeWhile_imp (List.mem_reverse.mp hc)
  · show s.data = _ ++ trimRight (trimLeft s.data) ++ _
    unfold trimRight trimLeft
    rw [List.append_assoc, ← List.reverse_append, List.takeWhile_append_dropWhile,
      List.reverse_reverse, List.takeWhile_append_dropWhile]
/-- C4: for one test case, whatever the executor answers: on status "success" the verdict
is `Passed` exactly when the trimmed expected output equals the trimmed stdout, and
`ActualOutput` is the trimmed stdout; on any other status, or when the executor returns an
error, `Passed = false`.  Trimming removes exactly a leading and a trailing run of white
space, so padding either side with white space never changes the verdict. -/
theorem runTestCase_verdict (h : HostStep) (req : ValidateTaskRequest) (tc : TestCase) :
    (∀ execResp, Execute h (buildExecReq req tc) = .ok execResp →
      execResp.Status = "success" →
        ((runTestCase h req tc).Passed = true ↔
          TrimSpace tc.ExpectedOutput = TrimSpace execResp.Output) ∧
        (runTestCase h req tc).ActualOutput = TrimSpace execResp.Output) ∧
    (∀ execResp, Execute h (buildExecReq req tc) = .ok execResp →
      execResp.Status ≠ "success" → (runTestCase h req tc).Passed = false) ∧
    (∀ err, Execute h (buildExecReq req tc) = .error err →
      (runTestCase h req tc).Passed = false) ∧
    (∀ (s : String) (pre post : List Char),
      (∀ c ∈ pre, isSpace c = true) → (∀ c ∈ post, isSpace c = true) →
        TrimSpace ⟨pre ++ s.data ++ post⟩ = TrimSpace s) ∧
    (∀ s : String, ∃ pre post : List Char,
      (∀ c ∈ pre, isSpace c = true) ∧ (∀ c ∈ post, isSpace c = true) ∧
        s.data = pre ++ (TrimSpace s).data ++ post) := by
  refine ⟨?_, ?_, ?_, TrimSpace_pad, TrimSpace_decompose⟩
  · intro execResp hexec hst
    unfold runTestCase
    simp [hexec, hst]
  · intro execResp hexec hst
    unfold runTestCase
    simp [hexec, hst]
  · intro err hexec
    unfold runTestCase
    simp [hexec]

/-- C5: when the loaded task names a non-empty set of languages that does not contain the
submitted one, `ValidateTask` returns an error, hands nothing to the executor and leaves the
database (attempts and user counters included) as it was; `isLanguageSupported` accepts
every language for an empty set and exactly the members of a non-empty one. -/
theorem validateTask_rejects_unsupported_language (env : Env) (db : DB) (userID : Nat)
    (req : ValidateTaskRequest) (task : Task)
    (hload : dbFirstTaskWithTestCases env.loadTaskErr db req.TaskID = .ok task)
    (hne : task.SupportedLanguages ≠ [])
    (hnot : req.Language ∉ task.SupportedLanguages) :
    (ValidateTask env db userID req).result =
        .error ("language " ++ req.Language ++ " is not supported for this task") ∧
    (ValidateTask env db userID req).executed = [] ∧
    (ValidateTask env db userID req).db = db ∧
    (∀ (t : Task) (lang : String), t.SupportedLanguages = [] →
      isLanguageSupported t lang = true) ∧
    (∀ (t : Task) (lang : String), t.SupportedLanguages ≠ [] →
      (isLanguageSupported t lang = true ↔ lang ∈ t.SupportedLanguages)) := by
  have hfacts : ∀ (t : Task) (lang : String), t.SupportedLanguages ≠ [] →
      (isLanguageSupported t lang = true ↔ lang ∈ t.SupportedLanguages) := by
    intro t lang hn
    unfold isLanguageSupported
    have : t.SupportedLanguages.length ≠ 0 := fun h0 => hn (List.length_eq_zero.mp h0)
    rw [if_neg this]
    simp
  have hlang : isLanguageSupported task req.Language = false := by
    cases hb : isLanguageSupported task req.Language
    · rfl
    · exact absurd ((hfacts task req.Language hne).mp hb) hnot
  refine ⟨?_, ?_, ?_, ?_, hfacts⟩
  · unfold ValidateTask; simp [hload, hlang]
  · unfold ValidateTask; simp [hload, hlang]
  · unfold ValidateTask; simp [hload, hlang]
  · intro t lang he
    unfold isLanguageSupported
    simp [he]

theorem validateTask_rejects_unsupported_language_witness :
    (ValidateTask (demoEnv "5\n") demoDB 7 { demoReq with Language := "cpp" }).result =
        .error "language cpp is not supported for this task" ∧
    (ValidateTask (demoEnv "5\n") demoDB 7 { demoReq with Language := "cpp" }).db = demoDB :=
  ⟨(validateTask_rejects_unsupported_language (demoEnv "5\n") demoDB 7
      { demoReq with Language := "cpp" } demoLoaded (by rfl) (by decide) (by decide)).1,
   (validateTask_rejects_unsupported_language (demoEnv "5\n") demoDB 7
      { demoReq with Language := "cpp" } demoLoaded (by rfl) (by decide) (by decide)).2.2.1⟩

/-! ## Progress counters -/

theorem dbFirstTask_ok (fault : Option String) (db : DB) (id : Nat) (t : Task)
    (h : dbFirstTask fault db id = .ok t) :
    fault = none ∧ dbFirstTask none db id = .ok t := by
  cases fault with
  | some err => simp [dbFirstTask] at h
  | none => exact ⟨rfl, h⟩

theorem dbFirstTaskWithTestCases_ok (fault : Option String) (db : DB) (id : Nat) (task : Task)
    (h : dbFirstTaskWithTestCases fault db id = .ok task) :
    ∃ t, dbFirstTask none db id = .ok t ∧ task.Points = t.Points := by
  unfold dbFirstTaskWithTestCases at h
  cases hf : dbFirstTask fault db id with
  | error err => simp [hf] at h
  | ok t =>
    simp only [hf, Except.ok.injEq] at h
    exact ⟨t, (dbFirstTask_ok fault db id t hf).2, by rw [← h]⟩

/-- The users table after one validation: untouched unless the validation succeeded and the
progress update went through, in which case every live row of the submitting user is bumped
by one task and the points of the task. -/
theorem ValidateTask_users (env : Env) (db : DB) (userID : Nat) (req : ValidateTaskRequest)
    (resp : ValidateTaskResponse)
    (h : (ValidateTask env db userID req).result = .ok resp) :
    (ValidateTask env db userID req).db.tasks = db.tasks ∧
    (ValidateTask env db userID req).db.testCases = db.testCases ∧
    (resp.Success = false →
      (ValidateTask env db userID req).db.users = db.users ∧
      (ValidateTask env db userID req).stdout = []) ∧
    (resp.Success = true →
      ((ValidateTask env db userID req).stdout = [] ↔
        (updateUserProgress env (insertedDB db userID req resp) userID req.TaskID).1 = none)) ∧
    (resp.Success = true → (ValidateTask env db userID req).stdout = [] →
      ∃ task, dbFirstTaskWithTestCases env.loadTaskErr db req.TaskID = .ok task ∧
        (ValidateTask env db userID req).db.users =
          db.users.map (fun u =>
            if u.ID = userID ∧ u.DeletedAt = none then bumpProgress task.Points u else u)) := by
  obtain ⟨task, hload, hlang, hcreate, rfl⟩ := ValidateTask_ok_inv env db userID req resp h
  obtain ⟨t0, ht0, hpts⟩ := dbFirstTaskWithTestCases_ok _ _ _ _ hload
  unfold ValidateTask
  simp only [hload, hlang, dbCreateAttempt, hcreate, Bool.not_true, Bool.false_eq_true, if_false]
  cases hs : (buildResponse (runLoop env.host req task.TestCases)).Success
  · simp
  · simp only [if_true]
    unfold insertedDB updateUserProgress
    cases hpf : env.progressTaskErr with
    | some err => simp [dbFirstTask]
    | none =>
      have : dbFirstTask none
          { db with
            attempts := db.attempts ++
              [{ buildAttempt userID req (buildResponse (runLoop env.host req task.TestCases))
                  with ID := nextAttemptID db }] } req.TaskID = .ok t0 := ht0
      simp only [this]
      unfold dbUpdateUserCounters
      cases hpu : env.progressUpdateErr with
      | some err => simp
      | none => simp [hpts]
theorem dbFirstTask_congr (fault : Option String) (db1 db2 : DB) (id : Nat)
    (h : db1.tasks = db2.tasks) : dbFirstTask fault db1 id = dbFirstTask fault db2 id := by
  unfold dbFirstTask
  rw [h]

theorem forall₂_map_of_forall {R : User → User → Prop} (f : User → User) (l : List User)
    (h : ∀ u, R u (f u)) : List.Forall₂ R l (l.map f) := by
  induction l with
  | nil => exact List.Forall₂.nil
  | cons u rest ih => exact List.Forall₂.cons (h u) ih

/-- C6: a successful validation whose progress update succeeds (`updateUserProgress`
returns no error) adds exactly 1 to `TotalTasksCompleted` and exactly the task's `Points` to
`TotalPointsEarned` in the live row of the submitting user and changes no row of another
user; this happens again on a second success for the same task, although a `COMPLETED`
attempt of that user for the task is already stored (2 and `2 * Points` in total); an
unsuccessful validation leaves all rows of `users` unchanged. -/
theorem validateTask_progress_counters (env : Env) (db : DB) (userID : Nat)
    (req : ValidateTaskRequest) (resp : ValidateTaskResponse)
    (h : (ValidateTask env db userID req).result = .ok resp) :
    (resp.Success = false → (ValidateTask env db userID req).db.users = db.users) ∧
    (resp.Success = true →
      (updateUserProgress env (insertedDB db userID req resp) userID req.TaskID).1 = none →
      ∃ task, dbFirstTaskWithTestCases env.loadTaskErr db req.TaskID = .ok task ∧
        List.Forall₂
          (fun u u' =>
            (u.ID = userID → u.DeletedAt = none →
              u'.TotalTasksCompleted = u.TotalTasksCompleted + 1 ∧
              u'.TotalPointsEarned = u.TotalPointsEarned + task.Points) ∧
            (u.ID ≠ userID → u' = u))
          db.users (ValidateTask env db userID req).db.users) ∧
    (∀ (env2 : Env) (resp2 : ValidateTaskResponse),
      (ValidateTask env2 (ValidateTask env db userID req).db userID req).result = .ok resp2 →
      resp.Success = true →
      (updateUserProgress env (insertedDB db userID req resp) userID req.TaskID).1 = none →
      resp2.Success = true →
      (updateUserProgress env2
        (insertedDB (ValidateTask env db userID req).db userID req resp2)
        userID req.TaskID).1 = none →
      ∃ task, dbFirstTaskWithTestCases env.loadTaskErr db req.TaskID = .ok task ∧
        (∃ a ∈ (ValidateTask env db userID req).db.attempts,
          a.UserID = userID ∧ a.TaskID = req.TaskID ∧ a.Status = TaskStatus.COMPLETED) ∧
        List.Forall₂
          (fun u u'' =>
            (u.ID = userID → u.DeletedAt = none →
              u''.TotalTasksCompleted = u.TotalTasksCompleted + 2 ∧
              u''.TotalPointsEarned = u.TotalPointsEarned + 2 * task.Points) ∧
            (u.ID ≠ userID → u'' = u))
          db.users
          (ValidateTask env2 (ValidateTask env db userID req).db userID req).db.users) := by
  obtain ⟨htasks, -, hfail, hlink, hok⟩ := ValidateTask_users env db userID req resp h
  refine ⟨fun hs => (hfail hs).1, ?_, ?_⟩
  · intro hs hupd
    obtain ⟨task, hload, husers⟩ := hok hs ((hlink hs).mpr hupd)
    refine ⟨task, hload, ?_⟩
    rw [husers]
    apply forall₂_map_of_forall
    intro u
    by_cases hu : u.ID = userID ∧ u.DeletedAt = none
    · simp [hu, bumpProgress]
    · rw [if_neg hu]
      exact ⟨fun h1 h2 => absurd ⟨h1, h2⟩ hu, fun _ => rfl⟩
  · intro env2 resp2 h2 hs hupd hs2 hupd2
    obtain ⟨task, hload, husers⟩ := hok hs ((hlink hs).mpr hupd)
    obtain ⟨-, -, -, hlink2, hok2⟩ :=
      ValidateTask_users env2 (ValidateTask env db userID req).db userID req resp2 h2
    obtain ⟨task2, hload2, husers2⟩ := hok2 hs2 ((hlink2 hs2).mpr hupd2)
    obtain ⟨t0, ht0, hpts⟩ := dbFirstTaskWithTestCases_ok _ _ _ _ hload
    obtain ⟨t2, ht2, hpts2⟩ := dbFirstTaskWithTestCases_ok _ _ _ _ hload2
    rw [dbFirstTask_congr none _ db req.TaskID htasks, ht0] at ht2
    cases ht2
    obtain ⟨task', hload', hlang, hcreate, hresp⟩ := ValidateTask_ok_inv env db userID req resp h
    rw [hload] at hload'
    cases hload'
    refine ⟨task, hload, ?_, ?_⟩
    · rw [ValidateTask_attempts env db userID req task hload hlang hcreate]
      refine ⟨_, List.mem_append_right _ (List.mem_singleton_self _), ?_, ?_, ?_⟩
      · exact (buildAttempt_fields userID req _).2.2.2.2
      · exact (buildAttempt_fields userID req _).2.2.2.1
      · show (buildAttempt userID req _).Status = _
        rw [(buildAttempt_fields userID req _).2.2.1, ← hresp, hs]
        rfl
    · rw [husers2, husers, List.map_map]
      apply forall₂_map_of_forall
      intro u
      simp only [Function.comp]
      by_cases hu : u.ID = userID ∧ u.DeletedAt = none
      · have hu' : (bumpProgress task.Points u).ID = userID ∧
            (bumpProgress task.Points u).DeletedAt = none := hu
        rw [if_pos hu, if_pos hu']
        refine ⟨fun _ _ => ⟨?_, ?_⟩, fun hne => absurd hu.1 hne⟩
        · show u.TotalTasksCompleted + 1 + 1 = u.TotalTasksCompleted + 2
          ring
        · show u.TotalPointsEarned + task.Points + task2.Points =
            u.TotalPointsEarned + 2 * task.Points
          rw [hpts2, hpts]; ring
      · rw [if_neg hu, if_neg hu]
        exact ⟨fun h1 h2 => absurd ⟨h1, h2⟩ hu, fun _ => rfl⟩

theorem validateTask_progress_counters_witness :
    ∃ task, dbFirstTaskWithTestCases (demoEnv "5\n").loadTaskErr demoDB demoReq.TaskID =
        .ok task ∧
      List.Forall₂
        (fun u u' =>
          (u.ID = 7 → u.DeletedAt = none →
            u'.TotalTasksCompleted = u.TotalTasksCompleted + 1 ∧
            u'.TotalPointsEarned = u.TotalPointsEarned + task.Points) ∧
          (u.ID ≠ 7 → u' = u))
        demoDB.users (ValidateTask (demoEnv "5\n") demoDB 7 demoReq).db.users :=
  (validateTask_progress_counters (demoEnv "5\n") demoDB 7 demoReq (demoResponse "5" true 100)
    (by rfl)).2.1 (by rfl) (by rfl)

/-- C7: with the task loaded and the language accepted, a successful insert makes
`ValidateTask` return the aggregated response and keep the inserted row, whatever happens
to the progress update: when that update fails, the database is exactly the one right after
the insert and the failure is only printed; when the insert itself fails, `ValidateTask`
returns an error and the database, user counters included, is unchanged. -/
theorem validateTask_insert_then_progress (env : Env) (db : DB) (userID : Nat)
    (req : ValidateTaskRequest) (task : Task)
    (hload : dbFirstTaskWithTestCases env.loadTaskErr db req.TaskID = .ok task)
    (hlang : isLanguageSupported task req.Language = true) :
    (env.createAttemptErr = none →
      ∃ resp,
        resp = buildResponse (runLoop env.host req task.TestCases) ∧
        (ValidateTask env db userID req).result = .ok resp ∧
        (ValidateTask env db userID req).db.attempts =
          db.attempts ++ [{ buildAttempt userID req resp with ID := nextAttemptID db }] ∧
        (resp.Success = true →
          (updateUserProgress env (insertedDB db userID req resp) userID req.TaskID).1 ≠ none →
            (ValidateTask env db userID req).db = insertedDB db userID req resp ∧
            (ValidateTask env db userID req).db.users = db.users ∧
            (ValidateTask env db userID req).stdout ≠ [])) ∧
    (∀ err, env.createAttemptErr = some err →
      (ValidateTask env db userID req).result =
          .error ("failed to save task attempt: " ++ err) ∧
      (ValidateTask env db userID req).db = db) := by
  constructor
  · intro hcreate
    obtain ⟨hres, -, hdb⟩ := ValidateTask_of_checks env db userID req task hload hlang hcreate
    refine ⟨_, rfl, hres, ValidateTask_attempts env db userID req task hload hlang hcreate, ?_⟩
    intro hs hfail
    have hdb' : (ValidateTask env db userID req).db =
        insertedDB db userID req (buildResponse (runLoop env.host req task.TestCases)) := by
      rw [hdb, if_pos hs]
      exact updateUserProgress_failed env _ userID req.TaskID hfail
    refine ⟨hdb', by rw [hdb']; rfl, ?_⟩
    unfold ValidateTask
    simp only [hload, hlang, dbCreateAttempt, hcreate, Bool.not_true, Bool.false_eq_true,
      if_false, hs, if_true]
    revert hfail
    unfold insertedDB
    rcases updateUserProgress env _ userID req.TaskID with ⟨e, db2⟩
    cases e <;> simp
  · intro err hcreate
    unfold ValidateTask
    simp [hload, hlang, dbCreateAttempt, hcreate]

theorem validateTask_insert_then_progress_witness :
    (ValidateTask progressDownEnv demoDB 7 demoReq).result = .ok (demoResponse "5" true 100) ∧
    (ValidateTask progressDownEnv demoDB 7 demoReq).db.users = demoDB.users ∧
    (ValidateTask progressDownEnv demoDB 7 demoReq).db.attempts.length = 1 := by
  obtain ⟨resp, hresp, hres, hatt, hfail⟩ :=
    (validateTask_insert_then_progress progressDownEnv demoDB 7 demoReq demoLoaded
      (by rfl) (by decide)).1 (by rfl)
  have hr : resp = demoResponse "5" true 100 := by rw [hresp]; rfl
  subst hr
  exact ⟨hres, (hfail (by rfl) (by decide)).2.1, by rw [hatt]; rfl⟩

/-! ## The sandbox command and the classification of its outcome -/

theorem lookup_mem (lang : String) (config : LanguageConfig)
    (l : List (String × LanguageConfig)) (h : l.lookup lang = some config) :
    (lang, config) ∈ l := by
  induction l with
  | nil => simp at h
  | cons p rest ih =>
    obtain ⟨k, v⟩ := p
    by_cases hk : lang = k
    · subst hk
      simp only [List.lookup_cons, beq_self_eq_true, Option.some.injEq] at h
      subst h
      exact List.mem_cons_self _ _
    · have hb : (lang == k) = false := by simpa using hk
      rw [List.lookup_cons, hb] at h
      exact List.mem_cons_of_mem _ (ih h)

theorem mount_ne_flag (execDir : String) : execDir ++ ":/workspace" ≠ "-v" := by
  intro h
  have := congrArg String.length h
  rw [String.length_append] at this
  have h1 : (":/workspace" : String).length = 11 := by decide
  have h2 : ("-v" : String).length = 2 := by decide
  omega

theorem count_volume_flag (execDir image shCmd : String)
    (himg : image ≠ "-v") (hsh : shCmd ≠ "-v") :
    List.count "-v"
      ["docker", "run", "--rm", "--network", "none", "--memory", "256m", "--cpus", "0.5",
       "-v", execDir ++ ":/workspace", "-w", "/workspace", image, "sh", "-c", shCmd] = 1 := by
  have hv := mount_ne_flag execDir
  simp [List.count_cons, hv, himg, hsh]

/-- C8: for every registered profile and every execution directory the sandbox command is
`docker run --rm --network none --memory 256m --cpus 0.5 -v <execDir>:/workspace
-w /workspace <image> sh -c <command>`: no network, a memory cap, a CPU bound, exactly one
`-v` mount, of the execution directory onto `/workspace`, then the image of the profile and
one `sh -c` command. -/
theorem dockerCmd_is_isolated (lang : String) (config : LanguageConfig) (execDir : String)
    (hreg : getLanguageConfig lang = some config) :
    (∃ shCmd : String,
      dockerCmd config execDir =
        ["docker", "run", "--rm", "--network", "none", "--memory", "256m", "--cpus", "0.5",
         "-v", execDir ++ ":/workspace", "-w", "/workspace", config.DockerImage,
         "sh", "-c", shCmd]) ∧
    (dockerCmd config execDir).count "-v" = 1 := by
  have hmem := lookup_mem lang config configs hreg
  constructor
  · unfold dockerCmd
    split
    · exact ⟨_, rfl⟩
    · exact ⟨_, rfl⟩
  · simp only [configs, List.mem_cons, Prod.mk.injEq, List.mem_nil_iff, or_false] at hmem
    rcases hmem with ⟨-, rfl⟩ | ⟨-, rfl⟩ | ⟨-, rfl⟩ | ⟨-, rfl⟩ | ⟨-, rfl⟩ | ⟨-, rfl⟩
    all_goals
      unfold dockerCmd
      split
      · exact count_volume_flag execDir _ _ (by decide) (by decide)
      · exact count_volume_flag execDir _ _ (by decide) (by decide)

theorem dockerCmd_is_isolated_witness :
    getLanguageConfig "java" = some
      { Name := "Java", Version := "17", FileExtension := ".java",
        CompileCommand := "javac {file}", RunCommand := "java -cp . Main",
        DockerImage := "openjdk:17-alpine", TimeLimit := 15, MemoryLimit := 512 } ∧
    (dockerCmd
      { Name := "Java", Version := "17", FileExtension := ".java",
        CompileCommand := "javac {file}", RunCommand := "java -cp . Main",
        DockerImage := "openjdk:17-alpine", TimeLimit := 15, MemoryLimit := 512 }
      "/tmp/nareshka-code-execution/exec_1").count "-v" = 1 :=
  ⟨by decide,
    (dockerCmd_is_isolated "java" _ "/tmp/nareshka-code-execution/exec_1" (by decide)).2⟩

theorem executeInDocker_cases (h : HostStep) (config : LanguageConfig)
    (execDir codeFile inputFile : String) (timeLimit : Int) :
    ((sandboxRun h config execDir inputFile timeLimit).err = none ∧
      (executeInDocker h config execDir codeFile inputFile timeLimit).Status = "success" ∧
      (executeInDocker h config execDir codeFile inputFile timeLimit).ExitCode = 0) ∨
    ((sandboxRun h config execDir inputFile timeLimit).err ≠ none ∧
      (sandboxRun h config execDir inputFile timeLimit).deadlineExceeded = true ∧
      (executeInDocker h config execDir codeFile inputFile timeLimit).Status = "timeout" ∧
      (executeInDocker h config execDir codeFile inputFile timeLimit).Error =
        "Time limit exceeded" ∧
      (executeInDocker h config execDir codeFile inputFile timeLimit).ExitCode = 1) ∨
    ((sandboxRun h config execDir inputFile timeLimit).err ≠ none ∧
      (sandboxRun h config execDir inputFile timeLimit).deadlineExceeded = false ∧
      (executeInDocker h config execDir codeFile inputFile timeLimit).Status = "error" ∧
      (executeInDocker h config execDir codeFile inputFile timeLimit).Error =
        (sandboxRun h config execDir inputFile timeLimit).stderr ∧
      (executeInDocker h config execDir codeFile inputFile timeLimit).ExitCode = 1) := by
  unfold executeInDocker
  generalize sandboxRun h config execDir inputFile timeLimit = out
  cases herr : out.err with
  | none => left; simp [herr]
  | some e =>
    right
    cases hd : out.deadlineExceeded
    · right; simp [herr, hd]
    · left; simp [herr, hd]

theorem Execute_ok (h : HostStep) (req : ExecuteCodeRequest) (resp : ExecuteCodeResponse)
    (hexec : Execute h req = .ok resp) :
    ∃ config execDir codeFile inputFile timeLimit,
      getLanguageConfig req.Language = some config ∧
      resp = executeInDocker h config execDir codeFile inputFile timeLimit := by
  unfold Execute at hexec
  cases hc : getLanguageConfig req.Language with
  | none => simp [hc] at hexec
  | some config =>
    simp only [hc] at hexec
    split at hexec
    · cases hexec
    · split at hexec
      · cases hexec
      · split at hexec
        · cases hexec
        · exact ⟨config, _, _, _, _, rfl, (Except.ok.inj hexec).symm⟩

/-- C9: the classification of the sandboxed run by `executeInDocker`: status "success" with
exit code 0 exactly when `cmd.Run()` returned no error; status "timeout" with error
"Time limit exceeded" when it returned an error and the deadline was exceeded; status
"error" with the captured stderr when it returned an error within the deadline; exit
code 1 whenever the status is not "success".  Hence a test case whose execution comes back
with status "timeout" has `Passed = false` and the error "Time limit exceeded". -/
theorem executeInDocker_classification (h : HostStep) (config : LanguageConfig)
    (execDir codeFile inputFile : String) (timeLimit : Int) :
    (((executeInDocker h config execDir codeFile inputFile timeLimit).Status = "success" ∧
        (executeInDocker h config execDir codeFile inputFile timeLimit).ExitCode = 0) ↔
      (sandboxRun h config execDir inputFile timeLimit).err = none) ∧
    ((sandboxRun h config execDir inputFile timeLimit).err ≠ none →
      (sandboxRun h config execDir inputFile timeLimit).deadlineExceeded = true →
        (executeInDocker h config execDir codeFile inputFile timeLimit).Status = "timeout" ∧
        (executeInDocker h config execDir codeFile inputFile timeLimit).Error =
          "Time limit exceeded") ∧
    ((sandboxRun h config execDir inputFile timeLimit).err ≠ none →
      (sandboxRun h config execDir inputFile timeLimit).deadlineExceeded = false →
        (executeInDocker h config execDir codeFile inputFile timeLimit).Status = "error" ∧
        (executeInDocker h config execDir codeFile inputFile timeLimit).Error =
          (sandboxRun h config execDir inputFile timeLimit).stderr) ∧
    ((executeInDocker h config execDir codeFile inputFile timeLimit).Status ≠ "success" →
      (executeInDocker h config execDir codeFile inputFile timeLimit).ExitCode = 1) ∧
    (∀ (req : ValidateTaskRequest) (tc : TestCase) (resp : ExecuteCodeResponse),
      Execute h (buildExecReq req tc) = .ok resp → resp.Status = "timeout" →
        (runTestCase h req tc).Passed = false ∧
        (runTestCase h req tc).Error = "Time limit exceeded") := by
  refine ⟨?_, ?_, ?_, ?_, ?_⟩
  · rcases executeInDocker_cases h config execDir codeFile inputFile timeLimit with
      ⟨he, hs, hx⟩ | ⟨he, -, hs, -, hx⟩ | ⟨he, -, hs, -, hx⟩
    · exact ⟨fun _ => he, fun _ => ⟨hs, hx⟩⟩
    · rw [hs, hx]; exact ⟨fun hh => absurd hh.1 (by decide), fun hh => absurd hh he⟩
    · rw [hs, hx]; exact ⟨fun hh => absurd hh.1 (by decide), fun hh => absurd hh he⟩
  · intro he hd
    rcases executeInDocker_cases h config execDir codeFile inputFile timeLimit with
      ⟨he', -, -⟩ | ⟨-, -, hs, hm, -⟩ | ⟨-, hd', -, -, -⟩
    · exact absurd he' he
    · exact ⟨hs, hm⟩
    · rw [hd] at hd'; cases hd'
  · intro he hd
    rcases executeInDocker_cases h config execDir codeFile inputFile timeLimit with
      ⟨he', -, -⟩ | ⟨-, hd', -, -, -⟩ | ⟨-, -, hs, hm, -⟩
    · exact absurd he' he
    · rw [hd] at hd'; cases hd'
    · exact ⟨hs, hm⟩
  · intro hne
    rcases executeInDocker_cases h config execDir codeFile inputFile timeLimit with
      ⟨-, hs, -⟩ | ⟨-, -, -, -, hx⟩ | ⟨-, -, -, -, hx⟩
    · exact absurd hs hne
    · exact hx
    · exact hx
  · intro req tc resp hexec hst
    obtain ⟨cfg, dir, cf, inf, tl, -, hresp⟩ := Execute_ok h _ resp hexec
    have herrmsg : resp.Error = "Time limit exceeded" := by
      rcases executeInDocker_cases h cfg dir cf inf tl with
        ⟨-, hs, -⟩ | ⟨-, -, -, hm, -⟩ | ⟨-, -, hs, -, -⟩
      · rw [hresp, hs] at hst; exact absurd hst (by decide)
      · rw [hresp]; exact hm
      · rw [hresp, hs] at hst; exact absurd hst (by decide)
    have hns : resp.Status ≠ "success" := by rw [hst]; decide
    unfold runTestCase
    simp [hexec, hns, herrmsg]

/-- The time-limit scenario on concrete data: the child is killed at the deadline, the test
case fails and its error names the time limit. -/
theorem runTestCase_timeout_scenario :
    (runTestCase (failingHost (RunError.other "signal: killed") true) demoReq demoCase).Passed
        = false ∧
    (runTestCase (failingHost (RunError.other "signal: killed") true) demoReq demoCase).Error
        = "Time limit exceeded" := by
  constructor <;> decide

/-- C10 (as stated, refuted): the run of a container killed for exceeding the memory cap
(exit status 137 within the deadline) is answered with status "error", not "memory". -/
theorem executeInDocker_oom_is_error :
    (executeInDocker oomKilledHost pythonConfig "/tmp/nareshka-code-execution/exec_1"
      "/tmp/nareshka-code-execution/exec_1/code.py"
      "/tmp/nareshka-code-execution/exec_1/input.txt" 10).Status = "error" ∧
    (executeInDocker oomKilledHost pythonConfig "/tmp/nareshka-code-execution/exec_1"
      "/tmp/nareshka-code-execution/exec_1/code.py"
      "/tmp/nareshka-code-execution/exec_1/input.txt" 10).Status ≠ "memory" := by
  constructor <;> decide

/-- C10 (amended): `executeInDocker` only ever answers with one of the statuses "success",
"error" and "timeout", never with "memory"; a run that returned an error within the
deadline, as the run of a container killed for exceeding the memory cap does, gets status
"error" and the captured stderr as its error. -/
theorem executeInDocker_never_memory (h : HostStep) (config : LanguageConfig)
    (execDir codeFile inputFile : String) (timeLimit : Int) :
    ((executeInDocker h config execDir codeFile inputFile timeLimit).Status = "success" ∨
      (executeInDocker h config execDir codeFile inputFile timeLimit).Status = "error" ∨
      (executeInDocker h config execDir codeFile inputFile timeLimit).Status = "timeout") ∧
    (executeInDocker h config execDir codeFile inputFile timeLimit).Status ≠ "memory" ∧
    ((sandboxRun h config execDir inputFile timeLimit).err ≠ none →
      (sandboxRun h config execDir inputFile timeLimit).deadlineExceeded = false →
        (executeInDocker h config execDir codeFile inputFile timeLimit).Status = "error" ∧
        (executeInDocker h config execDir codeFile inputFile timeLimit).Error =
          (sandboxRun h config execDir inputFile timeLimit).stderr) := by
  rcases executeInDocker_cases h config execDir codeFile inputFile timeLimit with
    ⟨he, hs, -⟩ | ⟨he, hd, hs, -, -⟩ | ⟨he, hd, hs, hm, -⟩
  · rw [hs]; exact ⟨Or.inl rfl, by decide, fun hne => absurd he hne⟩
  · rw [hs]; exact ⟨Or.inr (Or.inr rfl), by decide, fun _ hd' => by rw [hd] at hd'; cases hd'⟩
  · rw [hs]; exact ⟨Or.inr (Or.inl rfl), by decide, fun _ _ => ⟨rfl, hm⟩⟩

/-! ## The language registry -/

theorem lookup_isSome_iff (lang : String) (l : List (String × LanguageConfig)) :
    (l.lookup lang).isSome = true ↔ lang ∈ l.map Prod.fst := by
  induction l with
  | nil => simp
  | cons p rest ih =>
    obtain ⟨k, v⟩ := p
    by_cases hk : lang = k
    · subst hk; simp [List.lookup_cons]
    · have hb : (lang == k) = false := by simpa using hk
      rw [List.lookup_cons, hb]
      simp [ih, hk]

theorem getLanguageConfig_isSome_iff (lang : String) :
    (getLanguageConfig lang).isSome = true ↔ lang ∈ registeredLanguages := by
  unfold getLanguageConfig
  rw [lookup_isSome_iff]
  exact Iff.rfl

theorem unsupported_ne_failed (pre lang err : String) (hpre : pre.data.head? = some 'f') :
    pre ++ err ≠ "unsupported language: " ++ lang := by
  intro h
  have h2 := congrArg (fun s : String => s.data.head?) h
  simp only [String.data_append] at h2
  cases hd : pre.data with
  | nil => rw [hd] at hpre; simp at hpre
  | cons c cs =>
    rw [hd] at hpre h2
    simp only [List.head?_cons, Option.some.injEq] at hpre
    subst hpre
    simp at h2

/-- C11: `Execute` answers with the error "unsupported language: <id>" exactly when the
identifier is not one of python, javascript, java, cpp, go, rust, and then it has made no
call on the host (no directory, no file, no process); `getLanguageConfig` has a profile
exactly for those six identifiers, so `c` and `csharp` are rejected. -/
theorem execute_unsupported_language (h : HostStep) (req : ExecuteCodeRequest) :
    (Execute h req = .error ("unsupported language: " ++ req.Language) ↔
      req.Language ∉ registeredLanguages) ∧
    (req.Language ∉ registeredLanguages → ExecuteOps h req = []) ∧
    (∀ lang : String, (getLanguageConfig lang).isSome = true ↔ lang ∈ registeredLanguages) ∧
    registeredLanguages = ["python", "javascript", "java", "cpp", "go", "rust"] ∧
    getLanguageConfig "c" = none ∧ getLanguageConfig "csharp" = none ∧
    (∀ (h' : HostStep) (code input : String) (tl ml : Int),
      Execute h' { Code := code, Language := "c", Input := input, TimeLimit := tl,
                   MemoryLimit := ml } = .error "unsupported language: c" ∧
      Execute h' { Code := code, Language := "csharp", Input := input, TimeLimit := tl,
                   MemoryLimit := ml } = .error "unsupported language: csharp") := by
  have hnone : req.Language ∉ registeredLanguages → getLanguageConfig req.Language = none := by
    intro hn
    cases hc : getLanguageConfig req.Language with
    | none => rfl
    | some c =>
      exact absurd ((getLanguageConfig_isSome_iff req.Language).mp (by rw [hc]; rfl)) hn
  refine ⟨⟨?_, ?_⟩, ?_, getLanguageConfig_isSome_iff, rfl, by decide, by decide, ?_⟩
  · intro hexec hmem
    have hsome := (getLanguageConfig_isSome_iff req.Language).mpr hmem
    cases hc : getLanguageConfig req.Language with
    | none => rw [hc] at hsome; cases hsome
    | some config =>
      unfold Execute at hexec
      simp only [hc] at hexec
      split at hexec
      · exact unsupported_ne_failed _ _ _ (by decide) (Except.error.inj hexec)
      · split at hexec
        · exact unsupported_ne_failed _ _ _ (by decide) (Except.error.inj hexec)
        · split at hexec
          · exact unsupported_ne_failed _ _ _ (by decide) (Except.error.inj hexec)
          · cases hexec
  · intro hn
    unfold Execute
    rw [hnone hn]
  · intro hn
    unfold ExecuteOps
    rw [hnone hn]
  · intro h' code input tl ml
    exact ⟨rfl, rfl⟩

/-! ## The daily streak -/

theorem wholeDays_sub_dateUTC (now last : Time) :
    (wholeDays (now.dateUTC.Sub last.dateUTC) = 1 ↔ now.dayNumber - last.dayNumber = 1) ∧
    (wholeDays (now.dateUTC.Sub last.dateUTC) > 1 ↔ now.dayNumber - last.dayNumber > 1) := by
  unfold wholeDays Time.Sub Time.dateUTC nanosPerDay
  simp only
  generalize now.dayNumber = a
  generalize last.dayNumber = b
  by_cases h1 : a * 86400000000000 - b * 86400000000000 > 9223372036854775807
  · rw [if_pos h1]
    have : Int.tdiv 9223372036854775807 86400000000000 = 106751 := by decide
    rw [this]
    constructor <;> constructor <;> intro h <;> omega
  · rw [if_neg h1]
    by_cases h2 : a * 86400000000000 - b * 86400000000000 < -9223372036854775808
    · rw [if_pos h2]
      have : Int.tdiv (-9223372036854775808) 86400000000000 = -106751 := by decide
      rw [this]
      constructor <;> constructor <;> intro h <;> omega
    · rw [if_neg h2]
      have e : a * 86400000000000 - b * 86400000000000 = (a - b) * 86400000000000 := by ring
      rw [e]
      have hq : Int.tdiv ((a - b) * 86400000000000) 86400000000000 = a - b :=
        Int.mul_tdiv_cancel _ (by decide)
      rw [hq]
      exact ⟨Iff.rfl, Iff.rfl⟩

theorem advanceStreak_spec (now last : Time) (streak : UserStreak)
    (hl : streak.LastActivityDate = some last) :
    (advanceStreak now streak).LastActivityDate = some now ∧
    (advanceStreak now streak).ID = streak.ID ∧
    (advanceStreak now streak).UserID = streak.UserID ∧
    (now.dayNumber - last.dayNumber = 1 →
      (advanceStreak now streak).CurrentStreak = streak.CurrentStreak + 1 ∧
      (advanceStreak now streak).LongestStreak =
        max streak.LongestStreak (streak.CurrentStreak + 1) ∧
      (advanceStreak now streak).StreakStartDate = streak.StreakStartDate) ∧
    (now.dayNumber - last.dayNumber > 1 →
      (advanceStreak now streak).CurrentStreak = 1 ∧
      (advanceStreak now streak).LongestStreak = streak.LongestStreak ∧
      (advanceStreak now streak).StreakStartDate = some now.dateUTC) ∧
    (now.dayNumber - last.dayNumber < 1 →
      (advanceStreak now streak).CurrentStreak = streak.CurrentStreak ∧
      (advanceStreak now streak).LongestStreak = streak.LongestStreak ∧
      (advanceStreak now streak).StreakStartDate = streak.StreakStartDate) := by
  obtain ⟨h1, h2⟩ := wholeDays_sub_dateUTC now last
  by_cases hd1 : wholeDays (now.dateUTC.Sub last.dateUTC) = 1
  · have hd := h1.mp hd1
    by_cases hgt : streak.CurrentStreak + 1 > streak.LongestStreak
    · have e : advanceStreak now streak =
          { streak with CurrentStreak := streak.CurrentStreak + 1,
                        LongestStreak := streak.CurrentStreak + 1,
                        LastActivityDate := some now } := by
        unfold advanceStreak
        simp only [hl, hd1, if_true, hgt]
      rw [e]
      refine ⟨rfl, rfl, rfl, fun _ => ⟨rfl, ?_, rfl⟩, fun h => by omega, fun h => by omega⟩
      show streak.CurrentStreak + 1 = max streak.LongestStreak (streak.CurrentStreak + 1)
      omega
    · have e : advanceStreak now streak =
          { streak with CurrentStreak := streak.CurrentStreak + 1,
                        LastActivityDate := some now } := by
        unfold advanceStreak
        simp only [hl, hd1, if_true, hgt, if_false]
      rw [e]
      refine ⟨rfl, rfl, rfl, fun _ => ⟨rfl, ?_, rfl⟩, fun h => by omega, fun h => by omega⟩
      show streak.LongestStreak = max streak.LongestStreak (streak.CurrentStreak + 1)
      omega
  · have hd : ¬ (now.dayNumber - last.dayNumber = 1) := fun h => hd1 (h1.mpr h)
    by_cases hd2 : wholeDays (now.dateUTC.Sub last.dateUTC) > 1
    · have hdd := h2.mp hd2
      have e : advanceStreak now streak =
          { streak with CurrentStreak := 1, StreakStartDate := some now.dateUTC,
                        LastActivityDate := some now } := by
        unfold advanceStreak
        simp only [hl, hd1, if_false, hd2, if_true]
      rw [e]
      exact ⟨rfl, rfl, rfl, fun h => absurd h hd, fun _ => ⟨rfl, rfl, rfl⟩, fun h => by omega⟩
    · have hdd : ¬ (now.dayNumber - last.dayNumber > 1) := fun h => hd2 (h2.mpr h)
      have e : advanceStreak now streak = { streak with LastActivityDate := some now } := by
        unfold advanceStreak
        simp only [hl, hd1, if_false, hd2]
      rw [e]
      exact ⟨rfl, rfl, rfl, fun h => absurd h hd, fun h => absurd h hdd,
        fun _ => ⟨rfl, rfl, rfl⟩⟩

/-- C12 (as stated, refuted): on a server three hours ahead of UTC, user 7 has a streak of 4
with the last activity at 23:59 UTC on day 19000, and `updateUserStreak` runs at 00:05 UTC
on day 19001.  The UTC calendar days differ by one, but both readings show day 19001 in the
zone of the server, and the streak stays 4.  And the row created at 23:59 UTC on day 19000
starts its streak on day 19001, which is not the UTC calendar day of that clock reading. -/
theorem updateUserStreak_day_is_local :
    demoMorningEast.unixNano / nanosPerDay = 19001 ∧
    demoLastNightEast.unixNano / nanosPerDay = 19000 ∧
    demoStreakEast.CurrentStreak = 4 ∧
    demoStreakEast.LastActivityDate = some demoLastNightEast ∧
    (updateUserStreak (calmStreakEnv demoMorningEast) demoStreakEastDB 7).2.streaks.map
        (fun s => (s.UserID, s.CurrentStreak, s.LongestStreak, s.LastActivityDate)) =
      [(7, 4, 9, some demoMorningEast)] ∧
    (updateUserStreak (calmStreakEnv demoLastNightEast) demoDB 7).2.streaks.map
        (fun s => (s.UserID, s.CurrentStreak, s.StreakStartDate)) =
      [(7, 1, some { unixNano := 19001 * nanosPerDay, zoneOffset := 0 })] := by
  refine ⟨by decide, by decide, by decide, by decide, by decide, by decide⟩

/-- C12 (amended): the case analysis of `updateUserStreak`, with today the calendar day that
`now` shows in its own location, taken at midnight UTC.  Without a row, one is created with
`CurrentStreak = LongestStreak = 1`, `LastActivityDate = now`, `StreakStartDate = today`.
With a row that has a last activity date, let `d` be the number of whole days from the
calendar day that the last activity shows in its location to today: `d = 0` leaves the two
counters and the start date, `d = 1` adds one to `CurrentStreak` and makes `LongestStreak`
the maximum of its old value and the new `CurrentStreak`, `d > 1` sets `CurrentStreak = 1`
and `StreakStartDate = today`; `LastActivityDate` becomes `now` in every case.  `d` is a
difference of day numbers, so the time of day plays no part (23:59 and 00:05 of the next
day, as the location shows them, give `d = 1`); for a clock shown in UTC, today is the UTC
calendar day of `now`. -/
theorem updateUserStreak_case_analysis (env : StreakEnv) (db : DB) (userID : Nat)
    (hfind : env.findErr = none) :
    (db.streaks.find? (fun s => s.UserID == userID) = none → env.createErr = none →
      ∃ row,
        updateUserStreak env db userID = (none, { db with streaks := db.streaks ++ [row] }) ∧
        row.UserID = userID ∧ row.CurrentStreak = 1 ∧ row.LongestStreak = 1 ∧
        row.LastActivityDate = some env.now ∧ row.StreakStartDate = some env.now.dateUTC) ∧
    (∀ streak last, db.streaks.find? (fun s => s.UserID == userID) = some streak →
      streak.LastActivityDate = some last → env.saveErr = none →
      ∃ row,
        updateUserStreak env db userID =
          (none, { db with
                   streaks := db.streaks.map (fun s => if s.ID = streak.ID then row else s) }) ∧
        row.ID = streak.ID ∧ row.UserID = userID ∧
        row.LastActivityDate = some env.now ∧
        (env.now.dayNumber - last.dayNumber = 0 →
          row.CurrentStreak = streak.CurrentStreak ∧
          row.LongestStreak = streak.LongestStreak ∧
          row.StreakStartDate = streak.StreakStartDate) ∧
        (env.now.dayNumber - last.dayNumber = 1 →
          row.CurrentStreak = streak.CurrentStreak + 1 ∧
          row.LongestStreak = max streak.LongestStreak (streak.CurrentStreak + 1) ∧
          row.StreakStartDate = streak.StreakStartDate) ∧
        (env.now.dayNumber - last.dayNumber > 1 →
          row.CurrentStreak = 1 ∧
          row.LongestStreak = streak.LongestStreak ∧
          row.StreakStartDate = some env.now.dateUTC)) ∧
    (env.now.dateUTC.zoneOffset = 0 ∧
      env.now.dateUTC.unixNano = env.now.dayNumber * nanosPerDay ∧
      env.now.dateUTC.unixNano ≤ env.now.unixNano + env.now.zoneOffset * 1000000000 ∧
      env.now.unixNano + env.now.zoneOffset * 1000000000 <
        env.now.dateUTC.unixNano + nanosPerDay) ∧
    (env.now.zoneOffset = 0 →
      env.now.dateUTC =
        { unixNano := env.now.unixNano / nanosPerDay * nanosPerDay, zoneOffset := 0 } ∧
      env.now.dateUTC.unixNano ≤ env.now.unixNano ∧
      env.now.unixNano < env.now.dateUTC.unixNano + nanosPerDay) ∧
    (∀ k z : Int,
      Time.dayNumber
          { unixNano := (k + 1) * nanosPerDay + 300000000000 - z * 1000000000,
            zoneOffset := z } -
        Time.dayNumber
          { unixNano := k * nanosPerDay + 86340000000000 - z * 1000000000,
            zoneOffset := z } = 1) := by
  refine ⟨?_, ?_, ?_, ?_, ?_⟩
  · intro hnone hcreate
    refine ⟨{ newStreak userID env.now with ID := nextStreakID db }, ?_, rfl, rfl, rfl, rfl, rfl⟩
    unfold updateUserStreak
    simp only [hfind, hnone, hcreate]
  · intro streak last hsome hlast hsave
    obtain ⟨hL, hID, hU, hd1, hd2, hd0⟩ := advanceStreak_spec env.now last streak hlast
    have huser : streak.UserID = userID := by
      have := List.find?_some hsome
      simpa using this
    refine ⟨advanceStreak env.now streak, ?_, hID, by rw [hU, huser], hL,
      fun h => hd0 (by omega), hd1, hd2⟩
    unfold updateUserStreak
    simp only [hfind, hsome, hsave]
  · refine ⟨rfl, rfl, ?_, ?_⟩
    · show (env.now.unixNano + env.now.zoneOffset * 1000000000) / nanosPerDay * nanosPerDay ≤
        env.now.unixNano + env.now.zoneOffset * 1000000000
      unfold nanosPerDay; omega
    · show env.now.unixNano + env.now.zoneOffset * 1000000000 <
        (env.now.unixNano + env.now.zoneOffset * 1000000000) / nanosPerDay * nanosPerDay +
          nanosPerDay
      unfold nanosPerDay; omega
  · intro hz
    have hday : env.now.dayNumber = env.now.unixNano / nanosPerDay := by
      unfold Time.dayNumber
      rw [hz, Int.zero_mul, Int.add_zero]
    unfold Time.dateUTC
    rw [hday]
    refine ⟨rfl, ?_, ?_⟩
    · show env.now.unixNano / nanosPerDay * nanosPerDay ≤ env.now.unixNano
      unfold nanosPerDay; omega
    · show env.now.unixNano < env.now.unixNano / nanosPerDay * nanosPerDay + nanosPerDay
      unfold nanosPerDay; omega
  · intro k z
    unfold Time.dayNumber nanosPerDay
    simp only
    omega

theorem updateUserStreak_case_analysis_witness :
    ∃ row,
      updateUserStreak (calmStreakEnv demoMorning) demoStreakDB 7 =
        (none, { demoStreakDB with
                 streaks := demoStreakDB.streaks.map
                   (fun s => if s.ID = demoStreak.ID then row else s) }) ∧
      row.CurrentStreak = 5 ∧ row.LongestStreak = 9 := by
  obtain ⟨row, h1, -, -, -, -, h5, -⟩ :=
    (updateUserStreak_case_analysis (calmStreakEnv demoMorning) demoStreakDB 7 (by rfl)).2.1
      demoStreak demoLastNight (by rfl) (by rfl) (by rfl)
  have hd : (calmStreakEnv demoMorning).now.dayNumber - demoLastNight.dayNumber = 1 := by
    decide
  obtain ⟨hc, hl, -⟩ := h5 hd
  exact ⟨row, h1, hc, by rw [hl]; decide⟩

theorem le_foldl_max (l : List Nat) : ∀ (a : Nat),
    a ≤ l.foldl max a ∧ ∀ x ∈ l, x ≤ l.foldl max a := by
  induction l with
  | nil => intro a; simp
  | cons y rest ih =>
    intro a
    simp only [List.foldl_cons, List.mem_cons]
    obtain ⟨h1, h2⟩ := ih (max a y)
    refine ⟨by omega, ?_⟩
    intro x hx
    rcases hx with rfl | hx
    · omega
    · exact h2 x hx

theorem nextStreakID_fresh (db : DB) : nextStreakID db ∉ db.streaks.map (fun s => s.ID) := by
  intro hmem
  have := (le_foldl_max (db.streaks.map (fun s => s.ID)) 0).2 _ hmem
  unfold nextStreakID at this
  omega

theorem advanceStreak_keeps (now : Time) (streak : UserStreak)
    (h : streak.LongestStreak ≥ streak.CurrentStreak ∧ streak.CurrentStreak ≥ 1) :
    (advanceStreak now streak).ID = streak.ID ∧
    (advanceStreak now streak).UserID = streak.UserID ∧
    (advanceStreak now streak).LongestStreak ≥ (advanceStreak now streak).CurrentStreak ∧
    (advanceStreak now streak).CurrentStreak ≥ 1 ∧
    (advanceStreak now streak).LongestStreak ≥ streak.LongestStreak := by
  cases hl : streak.LastActivityDate with
  | none =>
    have e : advanceStreak now streak = { streak with LastActivityDate := some now } := by
      unfold advanceStreak
      simp only [hl]
    rw [e]
    exact ⟨rfl, rfl, h.1, h.2, le_refl _⟩
  | some last =>
    obtain ⟨-, hID, hU, h1, h2, h0⟩ := advanceStreak_spec now last streak hl
    refine ⟨hID, hU, ?_⟩
    rcases lt_trichotomy (now.dayNumber - last.dayNumber) 1 with hlt | heq | hgt
    · obtain ⟨a, b, -⟩ := h0 hlt
      rw [a, b]; exact ⟨h.1, h.2, le_refl _⟩
    · obtain ⟨a, b, -⟩ := h1 heq
      rw [a, b]
      refine ⟨?_, ?_, ?_⟩ <;> omega
    · obtain ⟨a, b, -⟩ := h2 hgt
      rw [a, b]
      refine ⟨?_, ?_, ?_⟩ <;> omega

theorem forall₂_map_of_mem {α : Type} {R : α → α → Prop} (f : α → α) (l : List α)
    (h : ∀ u ∈ l, R u (f u)) : List.Forall₂ R l (l.map f) := by
  induction l with
  | nil => exact List.Forall₂.nil
  | cons u rest ih =>
    exact List.Forall₂.cons (h u (List.mem_cons_self u rest))
      (ih (fun v hv => h v (List.mem_cons_of_mem u hv)))

theorem forall₂_refl_of {α : Type} {R : α → α → Prop} (l : List α) (h : ∀ u, R u u) :
    List.Forall₂ R l l := by
  induction l with
  | nil => exact List.Forall₂.nil
  | cons u rest ih => exact List.Forall₂.cons (h u) ih

theorem eq_of_mem_of_ID_eq (l : List UserStreak) (hnd : (l.map (fun s => s.ID)).Nodup)
    (a b : UserStreak) (ha : a ∈ l) (hb : b ∈ l) (hab : a.ID = b.ID) : a = b :=
  List.inj_on_of_nodup_map hnd ha hb hab

/-- One call of `updateUserStreak` on a table that satisfies `StreakInv`: the invariant is
kept and every row that existed keeps its key and user and does not lose `LongestStreak`. -/
theorem updateUserStreak_step (env : StreakEnv) (db : DB) (userID : Nat) (h : StreakInv db) :
    StreakInv (updateUserStreak env db userID).2 ∧
    List.Forall₂
      (fun s s' => s'.ID = s.ID ∧ s'.UserID = s.UserID ∧ s'.LongestStreak ≥ s.LongestStreak)
      db.streaks ((updateUserStreak env db userID).2.streaks.take db.streaks.length) := by
  obtain ⟨hnd, hrows⟩ := h
  have hsame : List.Forall₂
      (fun s s' : UserStreak =>
        s'.ID = s.ID ∧ s'.UserID = s.UserID ∧ s'.LongestStreak ≥ s.LongestStreak)
      db.streaks (db.streaks.take db.streaks.length) := by
    rw [List.take_length]
    exact forall₂_refl_of _ (fun u => ⟨rfl, rfl, le_refl _⟩)
  unfold updateUserStreak
  cases hf : env.findErr with
  | some err => exact ⟨⟨hnd, hrows⟩, hsame⟩
  | none =>
    simp only
    cases hfound : db.streaks.find? (fun s => s.UserID == userID) with
    | none =>
      simp only
      cases hc : env.createErr with
      | some err => exact ⟨⟨hnd, hrows⟩, hsame⟩
      | none =>
        simp only
        refine ⟨⟨?_, ?_⟩, ?_⟩
        · rw [List.map_append, List.nodup_append]
          refine ⟨hnd, List.nodup_singleton _, ?_⟩
          intro x hx hx'
          simp only [List.map_cons, List.map_nil, List.mem_singleton] at hx'
          subst hx'
          exact nextStreakID_fresh db hx
        · intro s hs
          rcases List.mem_append.mp hs with hs | hs
          · exact hrows s hs
          · rw [List.mem_singleton] at hs
            subst hs
            exact ⟨le_refl _, le_refl _⟩
        · rw [List.take_left]
          exact forall₂_refl_of _ (fun u => ⟨rfl, rfl, le_refl _⟩)
    | some streak =>
      simp only
      cases hs : env.saveErr with
      | some err => exact ⟨⟨hnd, hrows⟩, hsame⟩
      | none =>
        simp only
        have hmem : streak ∈ db.streaks := List.mem_of_find?_eq_some hfound
        obtain ⟨kID, kU, kInv, kPos, kLong⟩ :=
          advanceStreak_keeps env.now streak (hrows streak hmem)
        have hids : (db.streaks.map (fun s =>
            if s.ID = streak.ID then advanceStreak env.now streak else s)).map (fun s => s.ID) =
            db.streaks.map (fun s => s.ID) := by
          rw [List.map_map]
          apply List.map_congr_left
          intro s _
          simp only [Function.comp]
          split
          · rename_i he; rw [kID, he]
          · rfl
        refine ⟨⟨by rw [hids]; exact hnd, ?_⟩, ?_⟩
        · intro s hs'
          obtain ⟨s0, hs0, rfl⟩ := List.mem_map.mp hs'
          split
          · exact ⟨kInv, kPos⟩
          · exact hrows s0 hs0
        · rw [← List.length_map db.streaks (fun s =>
            if s.ID = streak.ID then advanceStreak env.now streak else s), List.take_length]
          apply forall₂_map_of_mem
          intro s hs'
          split
          · rename_i he
            have : s = streak := eq_of_mem_of_ID_eq db.streaks hnd s streak hs' hmem he
            subst this
            exact ⟨kID, kU, kLong⟩
          · exact ⟨rfl, rfl, le_refl _⟩

theorem streakReachable_inv (db : DB) (h : StreakReachable db) : StreakInv db := by
  induction h with
  | start db h0 =>
    unfold StreakInv
    rw [h0]
    exact ⟨List.nodup_nil, fun s hs => absurd hs (List.not_mem_nil s)⟩
  | call env userID db _ ih => exact (updateUserStreak_step env db userID ih).1

/-- C13: in every streak table reachable from one without rows by calls of
`updateUserStreak` (any users, any clock readings), every row has
`LongestStreak ≥ CurrentStreak ≥ 1`, hence `CurrentStreak ≥ 0`; and a further call leaves
the key and the user of every existing row and does not lower its `LongestStreak`. -/
theorem streak_longest_ge_current (db : DB) (h : StreakReachable db) :
    (∀ s ∈ db.streaks,
      s.LongestStreak ≥ s.CurrentStreak ∧ s.CurrentStreak ≥ 0 ∧ s.CurrentStreak ≥ 1) ∧
    (∀ (env : StreakEnv) (userID : Nat),
      List.Forall₂
        (fun s s' => s'.ID = s.ID ∧ s'.UserID = s.UserID ∧ s'.LongestStreak ≥ s.LongestStreak)
        db.streaks ((updateUserStreak env db userID).2.streaks.take db.streaks.length)) := by
  have hinv := streakReachable_inv db h
  refine ⟨fun s hs => ?_, fun env userID => (updateUserStreak_step env db userID hinv).2⟩
  obtain ⟨h1, h2⟩ := hinv.2 s hs
  exact ⟨h1, by omega, h2⟩

theorem streak_longest_ge_current_witness :
    demoTwoDayStreak ∈ (updateUserStreak (calmStreakEnv demoMorning)
        (updateUserStreak (calmStreakEnv demoLastNight) demoDB 7).2 7).2.streaks ∧
    demoTwoDayStreak.LongestStreak ≥ demoTwoDayStreak.CurrentStreak ∧
    demoTwoDayStreak.CurrentStreak ≥ 0 ∧ demoTwoDayStreak.CurrentStreak ≥ 1 :=
  ⟨by decide,
    (streak_longest_ge_current _
      (StreakReachable.call (calmStreakEnv demoMorning) 7 _
        (StreakReachable.call (calmStreakEnv demoLastNight) 7 _
          (StreakReachable.start demoDB (by rfl))))).1 demoTwoDayStreak (by decide)⟩

/-! ## The review scheduler -/

theorem applyReview_again (now : Time) (p : UserTheoryProgress) :
    applyReview "AGAIN" now p =
      { p with LastAnswer := "AGAIN", Repetitions := 0, Interval := 1,
               NextReviewAt := now.AddDays 1 } := by
  unfold applyReview
  simp

theorem applyReview_graded (answer : String) (now : Time) (p : UserTheoryProgress)
    (h : answer ≠ "AGAIN") :
    (applyReview answer now p).ID = p.ID ∧
    (applyReview answer now p).UserID = p.UserID ∧
    (applyReview answer now p).TheoryCardID = p.TheoryCardID ∧
    (applyReview answer now p).LastAnswer = answer ∧
    (applyReview answer now p).Repetitions = p.Repetitions + 1 ∧
    (applyReview answer now p).EaseFactor = specEase (qualityOf answer) p.EaseFactor ∧
    (applyReview answer now p).Interval =
      (if p.Repetitions + 1 ≤ 1 then 1
       else if p.Repetitions + 1 = 2 then 6
       else truncToInt ((p.Interval : ℚ) * specEase (qualityOf answer) p.EaseFactor)) ∧
    (applyReview answer now p).NextReviewAt =
      now.AddDays (applyReview answer now p).Interval := by
  have hease : ∀ e : ℚ, (if e < 13 / 10 then (13 / 10 : ℚ) else e) = max (13 / 10) e := by
    intro e
    by_cases he : e < 13 / 10
    · rw [if_pos he, max_eq_left (le_of_lt he)]
    · rw [if_neg he, max_eq_right (not_lt.mp he)]
  have hmax := hease (p.EaseFactor +
      (1 / 10 - (5 - (qualityOf answer : ℚ)) * (8 / 100 + (5 - (qualityOf answer : ℚ)) * (2 / 100))))
  unfold specEase
  rw [← hmax]
  unfold applyReview
  simp only [h, if_false]
  by_cases he : p.EaseFactor +
      (1 / 10 - (5 - (qualityOf answer : ℚ)) * (8 / 100 + (5 - (qualityOf answer : ℚ)) * (2 / 100)))
        < 13 / 10
  · by_cases h1 : p.Repetitions + 1 ≤ 1
    · simp only [he, h1, if_true]
      refine ⟨?_, ?_, ?_, ?_, ?_, ?_, ?_, ?_⟩ <;> trivial
    · by_cases h2 : p.Repetitions + 1 = 2
      · simp only [he, h1, h2, if_true, if_false]
        refine ⟨?_, ?_, ?_, ?_, ?_, ?_, ?_, ?_⟩ <;> trivial
      · simp only [he, h1, h2, if_true, if_false]
        refine ⟨?_, ?_, ?_, ?_, ?_, ?_, ?_, ?_⟩ <;> trivial
  · by_cases h1 : p.Repetitions + 1 ≤ 1
    · simp only [he, h1, if_true, if_false]
      refine ⟨?_, ?_, ?_, ?_, ?_, ?_, ?_, ?_⟩ <;> trivial
    · by_cases h2 : p.Repetitions + 1 = 2
      · simp only [he, h1, h2, if_true, if_false]
        refine ⟨?_, ?_, ?_, ?_, ?_, ?_, ?_, ?_⟩ <;> trivial
      · simp only [he, h1, h2, if_true, if_false]
        refine ⟨?_, ?_, ?_, ?_, ?_, ?_, ?_, ?_⟩ <;> trivial

theorem truncToInt_nonneg (x : ℚ) (h : 0 ≤ x) : truncToInt x = ⌊x⌋ := by
  unfold truncToInt
  rw [if_pos h]

theorem leastID_mem_aux (l : List UserTheoryProgress) :
    ∀ (acc : Option UserTheoryProgress) (p : UserTheoryProgress),
      l.foldl
        (fun acc r =>
          match acc with
          | none => some r
          | some a => if r.ID < a.ID then some r else some a) acc = some p →
      p ∈ l ∨ acc = some p := by
  induction l with
  | nil => intro acc p h; exact Or.inr h
  | cons r rest ih =>
    intro acc p h
    simp only [List.foldl_cons] at h
    rcases ih _ p h with hm | hacc
    · exact Or.inl (List.mem_cons_of_mem r hm)
    · cases acc with
      | none =>
        simp only [Option.some.injEq] at hacc
        subst hacc
        exact Or.inl (List.mem_cons_self _ _)
      | some a =>
        simp only at hacc
        split at hacc
        · simp only [Option.some.injEq] at hacc
          subst hacc
          exact Or.inl (List.mem_cons_self _ _)
        · exact Or.inr hacc

theorem dbFirstProgress_some (db : DB) (userID cardID : Nat) (p : UserTheoryProgress)
    (h : dbFirstProgress db userID cardID = some p) :
    p ∈ db.theoryProgress ∧ p.UserID = userID ∧ p.TheoryCardID = cardID := by
  unfold dbFirstProgress leastID at h
  rcases leastID_mem_aux _ none p h with hm | hn
  · have := List.mem_filter.mp hm
    refine ⟨this.1, ?_⟩
    simpa using this.2
  · cases hn

theorem priorProgress_keys (env : ReviewEnv) (db : DB) (cardID userID : Nat)
    (req : ReviewTheoryCardRequest) :
    (priorProgress env db cardID userID req).UserID = userID ∧
    (priorProgress env db cardID userID req).TheoryCardID = cardID ∧
    ((priorProgress env db cardID userID req) ∈ db.theoryProgress ∨
      (priorProgress env db cardID userID req).ID = 0) := by
  unfold priorProgress
  cases h : dbFirstProgress db userID cardID with
  | none => exact ⟨rfl, rfl, Or.inr rfl⟩
  | some p =>
    obtain ⟨h1, h2, h3⟩ := dbFirstProgress_some db userID cardID p h
    exact ⟨h2, h3, Or.inl h1⟩

theorem dbSaveProgress_fields (saveNow : Time) (db : DB) (p : UserTheoryProgress) :
    (dbSaveProgress saveNow db p).1.UserID = p.UserID ∧
    (dbSaveProgress saveNow db p).1.TheoryCardID = p.TheoryCardID ∧
    (dbSaveProgress saveNow db p).1.Interval = p.Interval ∧
    (dbSaveProgress saveNow db p).1.Repetitions = p.Repetitions ∧
    (dbSaveProgress saveNow db p).1.EaseFactor = p.EaseFactor ∧
    (dbSaveProgress saveNow db p).1.NextReviewAt = p.NextReviewAt ∧
    (dbSaveProgress saveNow db p).1.LastAnswer = p.LastAnswer ∧
    (dbSaveProgress saveNow db p).1.UpdatedAt = saveNow := by
  unfold dbSaveProgress
  split <;> exact ⟨rfl, rfl, rfl, rfl, rfl, rfl, rfl, rfl⟩

theorem dbSaveProgress_mem (saveNow : Time) (db : DB) (p : UserTheoryProgress)
    (h : (∃ r ∈ db.theoryProgress, r.ID = p.ID) ∨ p.ID = 0) :
    (dbSaveProgress saveNow db p).1 ∈ (dbSaveProgress saveNow db p).2.theoryProgress := by
  unfold dbSaveProgress
  by_cases h0 : p.ID = 0
  · rw [if_pos h0]
    exact List.mem_append_right _ (List.mem_singleton_self _)
  · rw [if_neg h0]
    rcases h with ⟨r, hr, hid⟩ | h
    · simp only
      apply List.mem_map.mpr
      exact ⟨r, hr, by simp [hid]⟩
    · exact absurd h h0

/-- What `ReviewTheoryCard` returns and leaves behind when the card is found and neither
the lookup of the record nor the save fails. -/
theorem ReviewTheoryCard_ok (env : ReviewEnv) (db : DB) (cardID userID : Nat)
    (req : ReviewTheoryCardRequest) (card : TheoryCard)
    (hcard : dbFirstActiveCard env.cardErr db cardID = .ok card)
    (hfind : env.findErr = none) (hsave : env.saveErr = none) :
    ReviewTheoryCard env db cardID userID req =
      (.ok (dbSaveProgress env.saveNow db
              (applyReview req.Answer env.now (priorProgress env db cardID userID req))).1,
       (dbSaveProgress env.saveNow db
          (applyReview req.Answer env.now (priorProgress env db cardID userID req))).2) := by
  unfold ReviewTheoryCard priorProgress
  simp only [hcard, hfind, hsave]

theorem applyReview_keys (answer : String) (now : Time) (p : UserTheoryProgress) :
    (applyReview answer now p).ID = p.ID ∧ (applyReview answer now p).UserID = p.UserID ∧
    (applyReview answer now p).TheoryCardID = p.TheoryCardID ∧
    (applyReview answer now p).LastAnswer = answer ∧
    (applyReview answer now p).NextReviewAt = now.AddDays (applyReview answer now p).Interval := by
  by_cases h : answer = "AGAIN"
  · subst h
    rw [applyReview_again]
    exact ⟨rfl, rfl, rfl, rfl, rfl⟩
  · obtain ⟨a, b, c, d, -, -, -, e⟩ := applyReview_graded answer now p h
    exact ⟨a, b, c, d, e⟩

theorem ReviewTheoryCard_persists (env : ReviewEnv) (db : DB) (cardID userID : Nat)
    (req : ReviewTheoryCardRequest) :
    (dbSaveProgress env.saveNow db
        (applyReview req.Answer env.now (priorProgress env db cardID userID req))).1 ∈
      (dbSaveProgress env.saveNow db
        (applyReview req.Answer env.now (priorProgress env db cardID userID req))).2.theoryProgress
    := by
  apply dbSaveProgress_mem
  obtain ⟨hid, -⟩ := applyReview_keys req.Answer env.now (priorProgress env db cardID userID req)
  rcases (priorProgress_keys env db cardID userID req).2.2 with hm | h0
  · exact Or.inl ⟨_, hm, hid.symm⟩
  · exact Or.inr (by rw [hid, h0])

/-- C14: a review answered AGAIN, from any stored record or from the record created on a
first review, answers and stores `Repetitions = 0`, `Interval = 1`, the ease factor it
started from (2.5 on a first review), `LastAnswer = AGAIN` and `NextReviewAt` one day after
the clock reading of the review; a further AGAIN on the stored record changes none of
`Repetitions`, `Interval`, `EaseFactor`. -/
theorem review_again_resets (env : ReviewEnv) (db : DB) (cardID userID : Nat)
    (req : ReviewTheoryCardRequest) (card : TheoryCard)
    (hcard : dbFirstActiveCard env.cardErr db cardID = .ok card)
    (hfind : env.findErr = none) (hsave : env.saveErr = none)
    (hans : req.Answer = "AGAIN") :
    ∃ resp,
      (ReviewTheoryCard env db cardID userID req).1 = .ok resp ∧
      resp ∈ (ReviewTheoryCard env db cardID userID req).2.theoryProgress ∧
      resp.UserID = userID ∧ resp.TheoryCardID = cardID ∧
      resp.Repetitions = 0 ∧ resp.Interval = 1 ∧
      resp.EaseFactor = (priorProgress env db cardID userID req).EaseFactor ∧
      (dbFirstProgress db userID cardID = none → resp.EaseFactor = 5 / 2) ∧
      resp.LastAnswer = "AGAIN" ∧
      resp.NextReviewAt = env.now.AddDays 1 ∧
      resp.NextReviewAt.unixNano = env.now.unixNano + nanosPerDay ∧
      (∀ now2 : Time,
        (applyReview "AGAIN" now2 resp).Repetitions = resp.Repetitions ∧
        (applyReview "AGAIN" now2 resp).Interval = resp.Interval ∧
        (applyReview "AGAIN" now2 resp).EaseFactor = resp.EaseFactor) := by
  have hok := ReviewTheoryCard_ok env db cardID userID req card hcard hfind hsave
  have hmem := ReviewTheoryCard_persists env db cardID userID req
  obtain ⟨fU, fC, fI, fR, fE, fN, fL, -⟩ := dbSaveProgress_fields env.saveNow db
    (applyReview req.Answer env.now (priorProgress env db cardID userID req))
  obtain ⟨pU, pC, -⟩ := priorProgress_keys env db cardID userID req
  obtain ⟨-, aU, aC, aL, -⟩ :=
    applyReview_keys req.Answer env.now (priorProgress env db cardID userID req)
  have aR : (applyReview req.Answer env.now
      (priorProgress env db cardID userID req)).Repetitions = 0 := by
    rw [hans, applyReview_again]
  have aI : (applyReview req.Answer env.now
      (priorProgress env db cardID userID req)).Interval = 1 := by
    rw [hans, applyReview_again]
  have aE : (applyReview req.Answer env.now
      (priorProgress env db cardID userID req)).EaseFactor =
      (priorProgress env db cardID userID req).EaseFactor := by
    rw [hans, applyReview_again]
  have aN : (applyReview req.Answer env.now
      (priorProgress env db cardID userID req)).NextReviewAt = env.now.AddDays 1 := by
    rw [hans, applyReview_again]
  rw [hok]
  refine ⟨_, rfl, hmem, by rw [fU, aU]; exact pU, by rw [fC, aC]; exact pC, fR.trans aR,
    fI.trans aI, fE.trans aE, ?_, by rw [fL, aL, hans], fN.trans aN, ?_, ?_⟩
  · intro hnone
    rw [fE, aE]
    unfold priorProgress
    rw [hnone]
    rfl
  · rw [fN, aN]
    show env.now.unixNano + 1 * nanosPerDay = env.now.unixNano + nanosPerDay
    rw [Int.one_mul]
  · intro now2
    rw [applyReview_again]
    exact ⟨(fR.trans aR).symm, (fI.trans aI).symm, rfl⟩

theorem review_again_resets_witness :
    ∃ resp,
      (ReviewTheoryCard (calmReviewEnv demoMorning) demoTheoryDB 3 7 { Answer := "AGAIN" }).1 =
        .ok resp ∧
      resp.Repetitions = 0 ∧ resp.Interval = 1 ∧ resp.EaseFactor = 5 / 2 := by
  obtain ⟨resp, h1, -, -, -, h2, h3, -, h4, -⟩ :=
    review_again_resets (calmReviewEnv demoMorning) demoTheoryDB 3 7 { Answer := "AGAIN" }
      demoCard (by rfl) (by rfl) (by rfl) (by rfl)
  exact ⟨resp, h1, h2, h3, h4 (by rfl)⟩

/-- C15: a review answered HARD, GOOD or EASY (quality 3, 4, 5) adds exactly one to
`Repetitions` and sets the ease factor to
`max(1.3, ease + (0.1 - (5 - q) * (0.08 + (5 - q) * 0.02)))`, which in exact arithmetic is
`max(1.3, ease - 0.14)` for HARD, `max(1.3, ease)` for GOOD and `max(1.3, ease + 0.1)` for
EASY, `ease` being the ease factor of the record the review started from. -/
theorem review_graded_ease (env : ReviewEnv) (db : DB) (cardID userID : Nat)
    (req : ReviewTheoryCardRequest) (card : TheoryCard)
    (hcard : dbFirstActiveCard env.cardErr db cardID = .ok card)
    (hfind : env.findErr = none) (hsave : env.saveErr = none)
    (hans : req.Answer = "HARD" ∨ req.Answer = "GOOD" ∨ req.Answer = "EASY") :
    qualityOf "HARD" = 3 ∧ qualityOf "GOOD" = 4 ∧ qualityOf "EASY" = 5 ∧
    ∃ resp,
      (ReviewTheoryCard env db cardID userID req).1 = .ok resp ∧
      resp ∈ (ReviewTheoryCard env db cardID userID req).2.theoryProgress ∧
      resp.Repetitions = (priorProgress env db cardID userID req).Repetitions + 1 ∧
      resp.EaseFactor =
        specEase (qualityOf req.Answer) (priorProgress env db cardID userID req).EaseFactor ∧
      (req.Answer = "HARD" → resp.EaseFactor =
        max (13 / 10) ((priorProgress env db cardID userID req).EaseFactor - 14 / 100)) ∧
      (req.Answer = "GOOD" → resp.EaseFactor =
        max (13 / 10) (priorProgress env db cardID userID req).EaseFactor) ∧
      (req.Answer = "EASY" → resp.EaseFactor =
        max (13 / 10) ((priorProgress env db cardID userID req).EaseFactor + 1 / 10)) := by
  have hok := ReviewTheoryCard_ok env db cardID userID req card hcard hfind hsave
  have hmem := ReviewTheoryCard_persists env db cardID userID req
  obtain ⟨-, -, -, fR, fE, -, -, -⟩ := dbSaveProgress_fields env.saveNow db
    (applyReview req.Answer env.now (priorProgress env db cardID userID req))
  have hne : req.Answer ≠ "AGAIN" := by
    rcases hans with h | h | h <;> rw [h] <;> decide
  obtain ⟨-, -, -, -, gR, gE, -, -⟩ :=
    applyReview_graded req.Answer env.now (priorProgress env db cardID userID req) hne
  rw [hok]
  refine ⟨by decide, by decide, by decide, _, rfl, hmem, by rw [fR, gR], by rw [fE, gE],
    ?_, ?_, ?_⟩
  · intro h
    rw [fE, gE, h]
    have : qualityOf "HARD" = 3 := by decide
    unfold specEase
    rw [this]
    congr 1
    push_cast
    ring
  · intro h
    rw [fE, gE, h]
    have : qualityOf "GOOD" = 4 := by decide
    unfold specEase
    rw [this]
    congr 1
    push_cast
    ring
  · intro h
    rw [fE, gE, h]
    have : qualityOf "EASY" = 5 := by decide
    unfold specEase
    rw [this]
    congr 1
    push_cast
    ring

theorem review_graded_ease_witness :
    ∃ resp,
      (ReviewTheoryCard (calmReviewEnv demoMorning) demoTheoryDB 3 7 { Answer := "HARD" }).1 =
        .ok resp ∧
      resp.Repetitions = 1 ∧ resp.EaseFactor = 59 / 25 := by
  obtain ⟨-, -, -, resp, h1, -, h2, -, h3, -⟩ :=
    review_graded_ease (calmReviewEnv demoMorning) demoTheoryDB 3 7 { Answer := "HARD" }
      demoCard (by rfl) (by rfl) (by rfl) (Or.inl rfl)
  have hp : priorProgress (calmReviewEnv demoMorning) demoTheoryDB 3 7 { Answer := "HARD" } =
      freshProgress 7 3 "HARD" demoMorning := by rfl
  rw [hp] at h2 h3
  refine ⟨resp, h1, by rw [h2]; rfl, ?_⟩
  rw [h3 rfl]
  show max (13 / 10 : ℚ) (5 / 2 - 14 / 100) = 59 / 25
  norm_num

theorem nextProgressID_fresh (db : DB) :
    nextProgressID db ≠ 0 ∧ ∀ r ∈ db.theoryProgress, r.ID ≠ nextProgressID db := by
  refine ⟨by unfold nextProgressID; omega, fun r hr heq => ?_⟩
  have := (le_foldl_max (db.theoryProgress.map (fun r => r.ID)) 0).2 r.ID
    (List.mem_map.mpr ⟨r, hr, rfl⟩)
  unfold nextProgressID at heq
  omega

theorem dbFirstActiveCard_congr (fault : Option String) (db1 db2 : DB) (cardID : Nat)
    (h : db1.theoryCards = db2.theoryCards) :
    dbFirstActiveCard fault db1 cardID = dbFirstActiveCard fault db2 cardID := by
  unfold dbFirstActiveCard
  rw [h]

theorem dbSaveProgress_update (saveNow : Time) (db : DB) (p : UserTheoryProgress)
    (h : p.ID ≠ 0) :
    dbSaveProgress saveNow db p =
      ({ p with UpdatedAt := saveNow },
       { db with
         theoryProgress := db.theoryProgress.map (fun r =>
           if r.ID = p.ID then { p with UpdatedAt := saveNow } else r) }) := by
  unfold dbSaveProgress
  rw [if_neg h]

theorem dbSaveProgress_insert (saveNow : Time) (db : DB) (p : UserTheoryProgress)
    (h : p.ID = 0) :
    dbSaveProgress saveNow db p =
      ({ p with ID := nextProgressID db, CreatedAt := saveNow, UpdatedAt := saveNow },
       { db with
         theoryProgress := db.theoryProgress ++
           [{ p with ID := nextProgressID db, CreatedAt := saveNow, UpdatedAt := saveNow }] }) := by
  unfold dbSaveProgress
  rw [if_pos h]

theorem review_first (env : ReviewEnv) (db : DB) (cardID userID : Nat) (answer : String)
    (card : TheoryCard) (hcard : dbFirstActiveCard none db cardID = .ok card)
    (hcalm : env.calm)
    (hnone : ∀ r ∈ db.theoryProgress, ¬ (r.UserID = userID ∧ r.TheoryCardID = cardID)) :
    ReviewTheoryCard env db cardID userID { Answer := answer } =
      (.ok (firstRow env db cardID userID answer),
       { db with theoryProgress := db.theoryProgress ++ [firstRow env db cardID userID answer] }) ∧
    Tracked { db with
              theoryProgress := db.theoryProgress ++ [firstRow env db cardID userID answer] }
      cardID userID db.theoryProgress (firstRow env db cardID userID answer) := by
  obtain ⟨hc, hf, hs⟩ := hcalm
  have hfirst : dbFirstProgress db userID cardID = none := by
    unfold dbFirstProgress
    have : db.theoryProgress.filter
        (fun r => r.UserID == userID && r.TheoryCardID == cardID) = [] := by
      rw [List.filter_eq_nil_iff]
      intro r hr
      have := hnone r hr
      simpa using this
    rw [this]
    rfl
  have hprior : priorProgress env db cardID userID { Answer := answer } =
      freshProgress userID cardID answer env.createNow := by
    unfold priorProgress
    rw [hfirst]
  obtain ⟨kID, kU, kC, -, -⟩ :=
    applyReview_keys answer env.now (freshProgress userID cardID answer env.createNow)
  constructor
  · rw [ReviewTheoryCard_ok env db cardID userID _ card (by rw [hc]; exact hcard) hf hs, hprior,
      dbSaveProgress_insert _ _ _ (by rw [kID]; rfl)]
    rfl
  · refine ⟨rfl, hnone, ?_, kU, kC, (nextProgressID_fresh db).1⟩
    intro r hr
    exact (nextProgressID_fresh db).2 r hr

theorem review_tracked (env : ReviewEnv) (db : DB) (cardID userID : Nat) (answer : String)
    (card : TheoryCard) (tbl : List UserTheoryProgress) (row : UserTheoryProgress)
    (hcard : dbFirstActiveCard none db cardID = .ok card)
    (hcalm : env.calm) (ht : Tracked db cardID userID tbl row) :
    ReviewTheoryCard env db cardID userID { Answer := answer } =
      (.ok (stepRow env answer row),
       { db with theoryProgress := tbl ++ [stepRow env answer row] }) ∧
    Tracked { db with theoryProgress := tbl ++ [stepRow env answer row] }
      cardID userID tbl (stepRow env answer row) := by
  obtain ⟨hc, hf, hs⟩ := hcalm
  obtain ⟨htbl, hno, hfresh, hU, hC, h0⟩ := ht
  obtain ⟨kID, kU, kC, -, -⟩ := applyReview_keys answer env.now row
  have hfirst : dbFirstProgress db userID cardID = some row := by
    unfold dbFirstProgress
    have : db.theoryProgress.filter
        (fun r => r.UserID == userID && r.TheoryCardID == cardID) = [row] := by
      rw [htbl, List.filter_append]
      have h1 : tbl.filter (fun r => r.UserID == userID && r.TheoryCardID == cardID) = [] := by
        rw [List.filter_eq_nil_iff]
        intro r hr
        have := hno r hr
        simpa using this
      rw [h1]
      simp [hU, hC]
    rw [this]
    rfl
  have hprior : priorProgress env db cardID userID { Answer := answer } = row := by
    unfold priorProgress
    rw [hfirst]
  constructor
  · rw [ReviewTheoryCard_ok env db cardID userID _ card (by rw [hc]; exact hcard) hf hs, hprior,
      dbSaveProgress_update _ _ _ (by rw [kID]; exact h0)]
    have hmap : db.theoryProgress.map (fun r =>
        if r.ID = (applyReview answer env.now row).ID then
          { applyReview answer env.now row with UpdatedAt := env.saveNow } else r) =
        tbl ++ [stepRow env answer row] := by
      rw [htbl, List.map_append, kID]
      congr 1
      · conv_rhs => rw [← List.map_id tbl]
        apply List.map_congr_left
        intro r hr
        rw [if_neg (hfresh r hr)]
        rfl
      · simp [stepRow]
    dsimp only
    rw [hmap]
    rfl
  · refine ⟨rfl, hno, ?_, by show (applyReview answer env.now row).UserID = _; rw [kU, hU],
      by show (applyReview answer env.now row).TheoryCardID = _; rw [kC, hC], ?_⟩
    · intro r hr
      show r.ID ≠ (applyReview answer env.now row).ID
      rw [kID]
      exact hfresh r hr
    · show (applyReview answer env.now row).ID ≠ 0
      rw [kID]
      exact h0

theorem reviewAll_tracked (cardID userID : Nat) (card : TheoryCard)
    (tbl : List UserTheoryProgress) :
    ∀ (l : List (ReviewEnv × String)) (db : DB) (row : UserTheoryProgress),
      dbFirstActiveCard none db cardID = .ok card →
      (∀ e ∈ l, e.1.calm) → Tracked db cardID userID tbl row →
      (reviewAll cardID userID l db).2 = (rowsFrom row l).map Except.ok := by
  intro l
  induction l with
  | nil => intro db row _ _ _; rfl
  | cons e rest ih =>
    intro db row hcard hcalm ht
    obtain ⟨env, answer⟩ := e
    obtain ⟨h1, h2⟩ := review_tracked env db cardID userID answer card tbl row hcard
      (hcalm (env, answer) (List.mem_cons_self _ _)) ht
    have hrest := ih { db with theoryProgress := tbl ++ [stepRow env answer row] }
      (stepRow env answer row) hcard
      (fun e he => hcalm e (List.mem_cons_of_mem _ he)) h2
    show (ReviewTheoryCard env db cardID userID { Answer := answer }).1 ::
        (reviewAll cardID userID rest
          (ReviewTheoryCard env db cardID userID { Answer := answer }).2).2 = _
    rw [h1]
    simp only
    rw [hrest]
    rfl

/-- The reviews of a card by a user who has no record for it yet, none of them failing:
the first call stores `firstRow`, each further call the `stepRow` of the record before. -/
theorem reviewAll_fresh (cardID userID : Nat) (card : TheoryCard) (db : DB)
    (env : ReviewEnv) (answer : String) (rest : List (ReviewEnv × String))
    (hcard : dbFirstActiveCard none db cardID = .ok card)
    (hcalm : env.calm) (hrest : ∀ e ∈ rest, e.1.calm)
    (hnone : ∀ r ∈ db.theoryProgress, ¬ (r.UserID = userID ∧ r.TheoryCardID = cardID)) :
    (reviewAll cardID userID ((env, answer) :: rest) db).2 =
      (firstRow env db cardID userID answer ::
        rowsFrom (firstRow env db cardID userID answer) rest).map Except.ok := by
  obtain ⟨h1, h2⟩ := review_first env db cardID userID answer card hcard hcalm hnone
  have := reviewAll_tracked cardID userID card db.theoryProgress rest
    { db with theoryProgress := db.theoryProgress ++ [firstRow env db cardID userID answer] }
    (firstRow env db cardID userID answer) hcard hrest h2
  show (ReviewTheoryCard env db cardID userID { Answer := answer }).1 ::
      (reviewAll cardID userID rest
        (ReviewTheoryCard env db cardID userID { Answer := answer }).2).2 = _
  rw [h1]
  simp only
  rw [this]
  rfl

theorem truncToInt_six : truncToInt (((6 : Int) : ℚ) * (5 / 2)) = 15 := by
  rw [truncToInt_nonneg _ (by norm_num), Int.floor_eq_iff]
  norm_num

theorem round_six : round ((6 : ℚ) * (5 / 2)) = 15 := by
  rw [round_eq, Int.floor_eq_iff]
  norm_num

theorem round_fifteen : round ((15 : ℚ) * (5 / 2)) = 38 := by
  rw [round_eq, Int.floor_eq_iff]
  norm_num

theorem specEase_good (ease : ℚ) (h : 13 / 10 ≤ ease) : specEase (qualityOf "GOOD") ease = ease := by
  have : qualityOf "GOOD" = 4 := by decide
  unfold specEase
  rw [this]
  have e : ease + (1 / 10 - (5 - ((4 : Int) : ℚ)) * (8 / 100 + (5 - ((4 : Int) : ℚ)) * (2 / 100)))
      = ease := by
    push_cast
    ring
  rw [e, max_eq_right h]

theorem stepRow_again (env : ReviewEnv) (row : UserTheoryProgress) :
    (stepRow env "AGAIN" row).Repetitions = 0 ∧ (stepRow env "AGAIN" row).Interval = 1 ∧
    (stepRow env "AGAIN" row).EaseFactor = row.EaseFactor := by
  unfold stepRow
  rw [applyReview_again]
  exact ⟨rfl, rfl, rfl⟩

theorem stepRow_good (env : ReviewEnv) (row : UserTheoryProgress)
    (h : 13 / 10 ≤ row.EaseFactor) :
    (stepRow env "GOOD" row).Repetitions = row.Repetitions + 1 ∧
    (stepRow env "GOOD" row).EaseFactor = row.EaseFactor ∧
    (stepRow env "GOOD" row).Interval =
      (if row.Repetitions + 1 ≤ 1 then 1
       else if row.Repetitions + 1 = 2 then 6
       else truncToInt ((row.Interval : ℚ) * row.EaseFactor)) := by
  obtain ⟨-, -, -, -, gR, gE, gI, -⟩ := applyReview_graded "GOOD" env.now row (by decide)
  rw [specEase_good _ h] at gE gI
  exact ⟨gR, gE, gI⟩

theorem firstRow_good (env : ReviewEnv) (db : DB) (cardID userID : Nat) :
    (firstRow env db cardID userID "GOOD").Repetitions = 1 ∧
    (firstRow env db cardID userID "GOOD").EaseFactor = 5 / 2 ∧
    (firstRow env db cardID userID "GOOD").Interval = 1 := by
  obtain ⟨-, -, -, -, gR, gE, gI, -⟩ := applyReview_graded "GOOD" env.now
    (freshProgress userID cardID "GOOD" env.createNow) (by decide)
  have hE : (freshProgress userID cardID "GOOD" env.createNow).EaseFactor = 5 / 2 := rfl
  have hR : (freshProgress userID cardID "GOOD" env.createNow).Repetitions = 0 := rfl
  rw [hE, specEase_good _ (by norm_num)] at gE
  rw [hR] at gR gI
  refine ⟨gR, gE, ?_⟩
  show (applyReview "GOOD" env.now (freshProgress userID cardID "GOOD" env.createNow)).Interval = 1
  rw [gI]
  rfl

/-- The records stored by three reviews answered GOOD of a card new to the user. -/
theorem three_goods (env1 env2 env3 : ReviewEnv) (db : DB) (cardID userID : Nat) :
    (stepRow env2 "GOOD" (firstRow env1 db cardID userID "GOOD")).Repetitions = 2 ∧
    (stepRow env2 "GOOD" (firstRow env1 db cardID userID "GOOD")).EaseFactor = 5 / 2 ∧
    (stepRow env2 "GOOD" (firstRow env1 db cardID userID "GOOD")).Interval = 6 ∧
    (stepRow env3 "GOOD"
      (stepRow env2 "GOOD" (firstRow env1 db cardID userID "GOOD"))).Repetitions = 3 ∧
    (stepRow env3 "GOOD"
      (stepRow env2 "GOOD" (firstRow env1 db cardID userID "GOOD"))).EaseFactor = 5 / 2 ∧
    (stepRow env3 "GOOD"
      (stepRow env2 "GOOD" (firstRow env1 db cardID userID "GOOD"))).Interval = 15 := by
  obtain ⟨r1, e1, i1⟩ := firstRow_good env1 db cardID userID
  obtain ⟨r2, e2, i2⟩ := stepRow_good env2 (firstRow env1 db cardID userID "GOOD")
    (by rw [e1]; norm_num)
  rw [r1] at r2 i2
  rw [e1] at e2
  have i2' : (stepRow env2 "GOOD" (firstRow env1 db cardID userID "GOOD")).Interval = 6 := by
    rw [i2]; rfl
  obtain ⟨r3, e3, i3⟩ := stepRow_good env3
    (stepRow env2 "GOOD" (firstRow env1 db cardID userID "GOOD")) (by rw [e2]; norm_num)
  rw [r2] at r3 i3
  rw [e2] at e3
  rw [i2', e2] at i3
  refine ⟨by rw [r2]; rfl, e2, i2', by rw [r3]; rfl, e3, ?_⟩
  rw [i3]
  exact truncToInt_six
/-- The five reviews GOOD, GOOD, GOOD, AGAIN, GOOD of a card new to the user, none of them
failing: the responses carry the intervals 1, 6, 15, 1, 1 and the ease factor 2.5. -/
theorem good_good_good_again_good (db : DB) (card : TheoryCard) (cardID userID : Nat)
    (e1 e2 e3 e4 e5 : ReviewEnv)
    (hcard : dbFirstActiveCard none db cardID = .ok card)
    (h1 : e1.calm) (h2 : e2.calm) (h3 : e3.calm) (h4 : e4.calm) (h5 : e5.calm)
    (hnone : ∀ r ∈ db.theoryProgress, ¬ (r.UserID = userID ∧ r.TheoryCardID = cardID)) :
    ∃ r1 r2 r3 r4 r5,
      (reviewAll cardID userID
        [(e1, "GOOD"), (e2, "GOOD"), (e3, "GOOD"), (e4, "AGAIN"), (e5, "GOOD")] db).2 =
        [.ok r1, .ok r2, .ok r3, .ok r4, .ok r5] ∧
      r1.Interval = 1 ∧ r2.Interval = 6 ∧ r3.Interval = 15 ∧ r4.Interval = 1 ∧
      r5.Interval = 1 ∧
      r1.EaseFactor = 5 / 2 ∧ r2.EaseFactor = 5 / 2 ∧ r3.EaseFactor = 5 / 2 ∧
      r4.EaseFactor = 5 / 2 ∧ r5.EaseFactor = 5 / 2 ∧ r5.Repetitions = 1 := by
  have hseq := reviewAll_fresh cardID userID card db e1 "GOOD"
    [(e2, "GOOD"), (e3, "GOOD"), (e4, "AGAIN"), (e5, "GOOD")] hcard h1
    (by
      intro e he
      simp only [List.mem_cons, List.mem_singleton, List.mem_nil_iff, or_false] at he
      rcases he with rfl | rfl | rfl | rfl
      · exact h2
      · exact h3
      · exact h4
      · exact h5) hnone
  obtain ⟨-, q1, i1⟩ := firstRow_good e1 db cardID userID
  obtain ⟨-, q2, i2, -, q3, i3⟩ := three_goods e1 e2 e3 db cardID userID
  obtain ⟨r4, i4, q4⟩ := stepRow_again e4
    (stepRow e3 "GOOD" (stepRow e2 "GOOD" (firstRow e1 db cardID userID "GOOD")))
  rw [q3] at q4
  obtain ⟨r5, q5, i5⟩ := stepRow_good e5
    (stepRow e4 "AGAIN"
      (stepRow e3 "GOOD" (stepRow e2 "GOOD" (firstRow e1 db cardID userID "GOOD"))))
    (by rw [q4]; norm_num)
  rw [r4] at r5 i5
  rw [q4] at q5
  refine ⟨_, _, _, _, _, hseq, i1, i2, i3, i4, ?_, q1, q2, q3, q4, q5, by rw [r5]; rfl⟩
  rw [i5]
  rfl

/-- C18 (as stated, refuted): the five reviews GOOD, GOOD, GOOD, AGAIN, GOOD of a new card
answer with the intervals 1, 6, 15, 1 and then 1, not 6: the review after AGAIN is a first
repetition again. -/
theorem fifth_interval_is_one :
    ∃ r1 r2 r3 r4 r5,
      (reviewAll 3 7
        [(calmReviewEnv demoMorning, "GOOD"), (calmReviewEnv demoMorning, "GOOD"),
         (calmReviewEnv demoMorning, "GOOD"), (calmReviewEnv demoMorning, "AGAIN"),
         (calmReviewEnv demoMorning, "GOOD")]
        demoTheoryDB).2 = [.ok r1, .ok r2, .ok r3, .ok r4, .ok r5] ∧
      r5.Interval = 1 ∧ r5.Interval ≠ 6 := by
  obtain ⟨r1, r2, r3, r4, r5, hseq, -, -, -, -, i5, -⟩ :=
    good_good_good_again_good demoTheoryDB demoCard 3 7 (calmReviewEnv demoMorning)
      (calmReviewEnv demoMorning) (calmReviewEnv demoMorning) (calmReviewEnv demoMorning)
      (calmReviewEnv demoMorning)
      (by rfl) ⟨rfl, rfl, rfl⟩ ⟨rfl, rfl, rfl⟩ ⟨rfl, rfl, rfl⟩ ⟨rfl, rfl, rfl⟩ ⟨rfl, rfl, rfl⟩
      (fun r hr => absurd hr (List.not_mem_nil r))
  exact ⟨r1, r2, r3, r4, r5, hseq, i5, by rw [i5]; decide⟩

/-- C18 (amended): starting from a card with no progress record for the user, the five
reviews GOOD, GOOD, GOOD, AGAIN, GOOD, none of them failing, answer in this order with the
intervals 1, 6, 15, 1, 1, where 15 is `round(6 * ease)` for the ease factor 2.5 of the third
response; the ease factor is 2.5, hence at least 1.3, after each of the five. -/
theorem review_sequence_intervals (db : DB) (card : TheoryCard) (cardID userID : Nat)
    (e1 e2 e3 e4 e5 : ReviewEnv)
    (hcard : dbFirstActiveCard none db cardID = .ok card)
    (h1 : e1.calm) (h2 : e2.calm) (h3 : e3.calm) (h4 : e4.calm) (h5 : e5.calm)
    (hnone : ∀ r ∈ db.theoryProgress, ¬ (r.UserID = userID ∧ r.TheoryCardID = cardID)) :
    ∃ r1 r2 r3 r4 r5,
      (reviewAll cardID userID
        [(e1, "GOOD"), (e2, "GOOD"), (e3, "GOOD"), (e4, "AGAIN"), (e5, "GOOD")] db).2 =
        [.ok r1, .ok r2, .ok r3, .ok r4, .ok r5] ∧
      r1.Interval = 1 ∧ r2.Interval = 6 ∧
      r3.Interval = round ((6 : ℚ) * r3.EaseFactor) ∧ r3.Interval = 15 ∧
      r4.Interval = 1 ∧ r5.Interval = 1 ∧
      r1.EaseFactor ≥ 13 / 10 ∧ r2.EaseFactor ≥ 13 / 10 ∧ r3.EaseFactor ≥ 13 / 10 ∧
      r4.EaseFactor ≥ 13 / 10 ∧ r5.EaseFactor ≥ 13 / 10 := by
  obtain ⟨r1, r2, r3, r4, r5, hseq, i1, i2, i3, i4, i5, q1, q2, q3, q4, q5, -⟩ :=
    good_good_good_again_good db card cardID userID e1 e2 e3 e4 e5 hcard h1 h2 h3 h4 h5 hnone
  refine ⟨r1, r2, r3, r4, r5, hseq, i1, i2, ?_, i3, i4, i5, ?_, ?_, ?_, ?_, ?_⟩
  · rw [i3, q3, round_six]
  · rw [q1]; norm_num
  · rw [q2]; norm_num
  · rw [q3]; norm_num
  · rw [q4]; norm_num
  · rw [q5]; norm_num

theorem review_sequence_intervals_witness :
    ∃ r1 r2 r3 r4 r5,
      (reviewAll 3 7
        [(calmReviewEnv demoLastNight, "GOOD"), (calmReviewEnv demoMorning, "GOOD"),
         (calmReviewEnv demoMorning, "GOOD"), (calmReviewEnv demoMorning, "AGAIN"),
         (calmReviewEnv demoMorning, "GOOD")]
        demoTheoryDB).2 = [.ok r1, .ok r2, .ok r3, .ok r4, .ok r5] ∧
      r3.Interval = 15 ∧ r5.Interval = 1 := by
  obtain ⟨r1, r2, r3, r4, r5, hseq, -, -, -, i3, -, i5, -⟩ :=
    review_sequence_intervals demoTheoryDB demoCard 3 7 (calmReviewEnv demoLastNight)
      (calmReviewEnv demoMorning) (calmReviewEnv demoMorning) (calmReviewEnv demoMorning)
      (calmReviewEnv demoMorning)
      (by rfl) ⟨rfl, rfl, rfl⟩ ⟨rfl, rfl, rfl⟩ ⟨rfl, rfl, rfl⟩ ⟨rfl, rfl, rfl⟩ ⟨rfl, rfl, rfl⟩
      (fun r hr => absurd hr (List.not_mem_nil r))
  exact ⟨r1, r2, r3, r4, r5, hseq, i3, i5⟩

theorem priorProgress_cases (env : ReviewEnv) (db : DB) (cardID userID : Nat)
    (req : ReviewTheoryCardRequest) :
    priorProgress env db cardID userID req ∈ db.theoryProgress ∨
    priorProgress env db cardID userID req =
      freshProgress userID cardID req.Answer env.createNow := by
  unfold priorProgress
  cases h : dbFirstProgress db userID cardID with
  | none => exact Or.inr rfl
  | some p => exact Or.inl (dbFirstProgress_some db userID cardID p h).1

theorem dbSaveProgress_rows (saveNow : Time) (db : DB) (p : UserTheoryProgress) :
    ∀ r ∈ (dbSaveProgress saveNow db p).2.theoryProgress,
      r ∈ db.theoryProgress ∨ r = (dbSaveProgress saveNow db p).1 := by
  intro r hr
  by_cases h0 : p.ID = 0
  · rw [dbSaveProgress_insert _ _ _ h0] at hr ⊢
    rcases List.mem_append.mp hr with h | h
    · exact Or.inl h
    · exact Or.inr (List.mem_singleton.mp h)
  · rw [dbSaveProgress_update _ _ _ h0] at hr ⊢
    obtain ⟨r0, hr0, rfl⟩ := List.mem_map.mp hr
    simp only
    split
    · exact Or.inr rfl
    · exact Or.inl hr0

/-! ## Ownership of tasks and test cases -/

/-- C19: `UpdateTask`, `DeleteTask` and `CreateTestCase` change the database only for the
owner.  When the task is found and the caller is not `task.CreatedByID`, each returns
"permission denied" and leaves the whole database as it was; when no live task has the id,
each returns "task not found" and leaves the database as it was; whenever one of them does
change the database, the task was found and the caller is its creator; and the three
handlers answer "permission denied" with 403 and "task not found" with 404. -/
theorem task_mutations_owner_only (env : TaskEnv) (db : DB) (userID : Nat)
    (hfirst : env.firstErr = none) :
    (∀ (id : Nat) (task : Task), findLiveTask db id = some task →
      userID ≠ task.CreatedByID →
      (∀ req, UpdateTask env db id userID req = (.error "permission denied", db) ∧
        handleUpdateTask env db (some userID) (some id) (some req) = (403, db)) ∧
      DeleteTask env db id userID = (some "permission denied", db) ∧
      handleDeleteTask env db (some userID) (some id) = (403, db) ∧
      (∀ req : CreateTestCaseRequest, req.TaskID = id →
        CreateTestCase env db userID req = (.error "permission denied", db) ∧
        handleCreateTestCase env db (some userID) (some req) = (403, db))) ∧
    (∀ id : Nat, findLiveTask db id = none →
      (∀ req, UpdateTask env db id userID req = (.error "task not found", db) ∧
        handleUpdateTask env db (some userID) (some id) (some req) = (404, db)) ∧
      DeleteTask env db id userID = (some "task not found", db) ∧
      handleDeleteTask env db (some userID) (some id) = (404, db) ∧
      (∀ req : CreateTestCaseRequest, req.TaskID = id →
        CreateTestCase env db userID req = (.error "task not found", db) ∧
        handleCreateTestCase env db (some userID) (some req) = (404, db))) ∧
    (∀ (id : Nat) (req : UpdateTaskRequest), (UpdateTask env db id userID req).2 ≠ db →
      ∃ task, findLiveTask db id = some task ∧ task.CreatedByID = userID) ∧
    (∀ id : Nat, (DeleteTask env db id userID).2 ≠ db →
      ∃ task, findLiveTask db id = some task ∧ task.CreatedByID = userID) ∧
    (∀ req : CreateTestCaseRequest, (CreateTestCase env db userID req).2 ≠ db →
      ∃ task, findLiveTask db req.TaskID = some task ∧ task.CreatedByID = userID) ∧
    taskErrorStatus "permission denied" = 403 ∧ taskErrorStatus "task not found" = 404 := by
  refine ⟨?_, ?_, ?_, ?_, ?_, by decide, by decide⟩
  · intro id task hfound hne
    have hne' : task.CreatedByID ≠ userID := fun h => hne h.symm
    have hU : ∀ req, UpdateTask env db id userID req = (.error "permission denied", db) := by
      intro req
      unfold UpdateTask
      simp only [hfirst, hfound, hne', ne_eq, not_false_eq_true, if_true]
    have hD : DeleteTask env db id userID = (some "permission denied", db) := by
      unfold DeleteTask
      simp only [hfirst, hfound, hne', ne_eq, not_false_eq_true, if_true]
    have hC : ∀ req : CreateTestCaseRequest, req.TaskID = id →
        CreateTestCase env db userID req = (.error "permission denied", db) := by
      intro req hid
      unfold CreateTestCase
      simp only [hfirst, hid, hfound, hne', ne_eq, not_false_eq_true, if_true]
    refine ⟨fun req => ⟨hU req, ?_⟩, hD, ?_, fun req hid => ⟨hC req hid, ?_⟩⟩
    · unfold handleUpdateTask
      simp only [hU req]
      rfl
    · unfold handleDeleteTask
      simp only [hD]
      rfl
    · unfold handleCreateTestCase
      simp only [hC req hid]
      rfl
  · intro id hnone
    have hU : ∀ req, UpdateTask env db id userID req = (.error "task not found", db) := by
      intro req
      unfold UpdateTask
      simp only [hfirst, hnone]
    have hD : DeleteTask env db id userID = (some "task not found", db) := by
      unfold DeleteTask
      simp only [hfirst, hnone]
    have hC : ∀ req : CreateTestCaseRequest, req.TaskID = id →
        CreateTestCase env db userID req = (.error "task not found", db) := by
      intro req hid
      unfold CreateTestCase
      simp only [hfirst, hid, hnone]
    refine ⟨fun req => ⟨hU req, ?_⟩, hD, ?_, fun req hid => ⟨hC req hid, ?_⟩⟩
    · unfold handleUpdateTask
      simp only [hU req]
      rfl
    · unfold handleDeleteTask
      simp only [hD]
      rfl
    · unfold handleCreateTestCase
      simp only [hC req hid]
      rfl
  · intro id req hchg
    cases hfound : findLiveTask db id with
    | none =>
      exfalso; apply hchg
      unfold UpdateTask
      simp only [hfirst, hfound]
    | some task =>
      refine ⟨task, rfl, ?_⟩
      by_contra hne
      apply hchg
      unfold UpdateTask
      simp only [hfirst, hfound, hne, ne_eq, not_false_eq_true, if_true]
  · intro id hchg
    cases hfound : findLiveTask db id with
    | none =>
      exfalso; apply hchg
      unfold DeleteTask
      simp only [hfirst, hfound]
    | some task =>
      refine ⟨task, rfl, ?_⟩
      by_contra hne
      apply hchg
      unfold DeleteTask
      simp only [hfirst, hfound, hne, ne_eq, not_false_eq_true, if_true]
  · intro req hchg
    cases hfound : findLiveTask db req.TaskID with
    | none =>
      exfalso; apply hchg
      unfold CreateTestCase
      simp only [hfirst, hfound]
    | some task =>
      refine ⟨task, rfl, ?_⟩
      by_contra hne
      apply hchg
      unfold CreateTestCase
      simp only [hfirst, hfound, hne, ne_eq, not_false_eq_true, if_true]

theorem task_mutations_owner_only_witness :
    UpdateTask calmTaskEnv demoDB 1 7 demoDeactivate = (.error "permission denied", demoDB) ∧
    handleDeleteTask calmTaskEnv demoDB (some 7) (some 1) = (403, demoDB) ∧
    handleCreateTestCase calmTaskEnv demoDB (some 7) (some demoNewCase) = (403, demoDB) ∧
    handleDeleteTask calmTaskEnv demoDB (some 7) (some 99) = (404, demoDB) := by
  obtain ⟨h1, h2, -⟩ := task_mutations_owner_only calmTaskEnv demoDB 7 (by rfl)
  obtain ⟨a, -, b, c⟩ := h1 1 demoTask (by rfl) (by decide)
  obtain ⟨-, -, d, -⟩ := h2 99 (by rfl)
  exact ⟨(a demoDeactivate).1, b, (c demoNewCase rfl).2, d⟩

/-! ## Validation, activity log and streak -/

theorem updateUserProgress_progress_frame (env : Env) (db : DB) (userID taskID : Nat) :
    (updateUserProgress env db userID taskID).2.activities = db.activities ∧
    (updateUserProgress env db userID taskID).2.streaks = db.streaks := by
  unfold updateUserProgress
  cases dbFirstTask env.progressTaskErr db taskID with
  | error err => exact ⟨rfl, rfl⟩
  | ok task =>
    unfold dbUpdateUserCounters
    cases env.progressUpdateErr <;> exact ⟨rfl, rfl⟩

/-- No call of `ValidateTask` touches the activity log or the streak table. -/
theorem ValidateTask_progress_frame (env : Env) (db : DB) (userID : Nat)
    (req : ValidateTaskRequest) :
    (ValidateTask env db userID req).db.activities = db.activities ∧
    (ValidateTask env db userID req).db.streaks = db.streaks := by
  unfold ValidateTask
  cases dbFirstTaskWithTestCases env.loadTaskErr db req.TaskID with
  | error err => exact ⟨rfl, rfl⟩
  | ok task =>
    simp only
    cases isLanguageSupported task req.Language
    · exact ⟨rfl, rfl⟩
    · simp only [Bool.not_true, Bool.false_eq_true, if_false]
      unfold dbCreateAttempt
      cases env.createAttemptErr with
      | some err => exact ⟨rfl, rfl⟩
      | none =>
        simp only
        cases (buildResponse (runLoop env.host req task.TestCases)).Success
        · exact ⟨rfl, rfl⟩
        · simp only [if_true]
          have hf := updateUserProgress_progress_frame env
            { db with
              attempts := db.attempts ++
                [{ buildAttempt userID req (buildResponse (runLoop env.host req task.TestCases))
                    with ID := nextAttemptID db }] } userID req.TaskID
          rcases hu : updateUserProgress env
            { db with
              attempts := db.attempts ++
                [{ buildAttempt userID req (buildResponse (runLoop env.host req task.TestCases))
                    with ID := nextAttemptID db }] } userID req.TaskID with ⟨e, db2⟩
          rw [hu] at hf
          cases e <;> exact hf

theorem updateUserStreak_congr (env : StreakEnv) (db1 db2 : DB) (userID : Nat)
    (h : db1.streaks = db2.streaks) :
    (updateUserStreak env db1 userID).1 = (updateUserStreak env db2 userID).1 ∧
    (updateUserStreak env db1 userID).2.streaks = (updateUserStreak env db2 userID).2.streaks := by
  unfold updateUserStreak nextStreakID
  rw [h]
  cases env.findErr with
  | some err => exact ⟨rfl, h⟩
  | none =>
    simp only
    cases db2.streaks.find? (fun s => s.UserID == userID) with
    | none =>
      simp only
      cases env.createErr with
      | some err => exact ⟨rfl, h⟩
      | none => exact ⟨rfl, rfl⟩
    | some streak =>
      simp only
      cases env.saveErr with
      | some err => exact ⟨rfl, h⟩
      | none => exact ⟨rfl, rfl⟩

theorem updateUserStreak_activities (env : StreakEnv) (db : DB) (userID : Nat) :
    (updateUserStreak env db userID).2.activities = db.activities := by
  unfold updateUserStreak
  cases env.findErr with
  | some err => rfl
  | none =>
    simp only
    cases db.streaks.find? (fun s => s.UserID == userID) with
    | none => simp only; cases env.createErr <;> rfl
    | some streak => simp only; cases env.saveErr <;> rfl

/-- What `RecordActivity` does when none of its statements fails: one activity row of the
user is appended and the streak table is the one `updateUserStreak` produces. -/
theorem RecordActivity_calm (env : ActivityEnv) (db : DB) (userID : Nat)
    (req : UpdateActivityRequest)
    (hc : env.createErr = none) (hs : env.statsErr = none)
    (hk : (updateUserStreak env.streak db userID).1 = none) :
    ∃ activity,
      (RecordActivity env db userID req).1 = .ok activity ∧
      activity.UserID = userID ∧ activity.PointsEarned = req.PointsEarned ∧
      (RecordActivity env db userID req).2.activities = db.activities ++ [activity] ∧
      (RecordActivity env db userID req).2.streaks =
        (updateUserStreak env.streak db userID).2.streaks := by
  unfold RecordActivity updateUserStats
  simp only [hc, hs]
  obtain ⟨c1, c2⟩ := updateUserStreak_congr env.streak
    { db with
      activities := db.activities ++
        [{ ID := nextActivityID db, UserID := userID, ActivityType := req.ActivityType,
           EntityType := req.EntityType, EntityID := req.EntityID,
           Description := req.Description, PointsEarned := req.PointsEarned,
           Metadata := req.Metadata }],
      users := db.users.map (fun u =>
        if u.ID = userID ∧ u.DeletedAt = none then
          { u with TotalPointsEarned := u.TotalPointsEarned + req.PointsEarned,
                   LastActivityDate := some env.statsNow }
        else u) } db userID rfl
  have c3 := updateUserStreak_activities env.streak
    { db with
      activities := db.activities ++
        [{ ID := nextActivityID db, UserID := userID, ActivityType := req.ActivityType,
           EntityType := req.EntityType, EntityID := req.EntityID,
           Description := req.Description, PointsEarned := req.PointsEarned,
           Metadata := req.Metadata }],
      users := db.users.map (fun u =>
        if u.ID = userID ∧ u.DeletedAt = none then
          { u with TotalPointsEarned := u.TotalPointsEarned + req.PointsEarned,
                   LastActivityDate := some env.statsNow }
        else u) } userID
  rw [hk] at c1
  rcases hu : updateUserStreak env.streak
    { db with
      activities := db.activities ++
        [{ ID := nextActivityID db, UserID := userID, ActivityType := req.ActivityType,
           EntityType := req.EntityType, EntityID := req.EntityID,
           Description := req.Description, PointsEarned := req.PointsEarned,
           Metadata := req.Metadata }],
      users := db.users.map (fun u =>
        if u.ID = userID ∧ u.DeletedAt = none then
          { u with TotalPointsEarned := u.TotalPointsEarned + req.PointsEarned,
                   LastActivityDate := some env.statsNow }
        else u) } userID with ⟨e, db3⟩
  rw [hu] at c1 c2 c3
  simp only at c1 c2 c3
  subst c1
  exact ⟨_, rfl, rfl, rfl, c3, c2⟩

/-- C20 (as stated, refuted): user 7 has a streak of 4 with the last activity on the evening
before; a validation that passes leaves the activity log empty and the streak row as it
was, with `CurrentStreak = 4`.  And on a server three hours ahead of UTC, where the last
activity at 23:59 UTC and the present 00:05 UTC of the next UTC day show the same calendar
day, `RecordActivity` appends its activity row and leaves the streak at 4 as well. -/
theorem validateTask_leaves_streak :
    (ValidateTask (demoEnv "5\n") demoStreakDB 7 demoReq).result =
      .ok (demoResponse "5" true 100) ∧
    (demoResponse "5" true 100).Success = true ∧
    (ValidateTask (demoEnv "5\n") demoStreakDB 7 demoReq).db.activities = [] ∧
    (ValidateTask (demoEnv "5\n") demoStreakDB 7 demoReq).db.streaks = [demoStreak] ∧
    demoStreak.CurrentStreak = 4 ∧ demoStreak.LastActivityDate = some demoLastNight ∧
    demoMorning.dayNumber - demoLastNight.dayNumber = 1 ∧
    demoStreakEast.CurrentStreak = 4 ∧
    demoStreakEast.LastActivityDate = some demoLastNightEast ∧
    demoMorningEast.unixNano / nanosPerDay - demoLastNightEast.unixNano / nanosPerDay = 1 ∧
    (RecordActivity (calmActivityEnv demoMorningEast) demoStreakEastDB 7
        demoActivity).2.activities.map (fun a => a.UserID) = [7] ∧
    (RecordActivity (calmActivityEnv demoMorningEast) demoStreakEastDB 7
        demoActivity).2.streaks.map
        (fun s => (s.UserID, s.CurrentStreak, s.LongestStreak)) = [(7, 4, 9)] := by
  refine ⟨by rfl, by rfl, by rfl, by rfl, by rfl, by rfl, by decide, by rfl, by rfl,
    by decide, by decide, by decide⟩

/-- C20 (amended): no validation, successful or not, appends a `UserActivity` row or changes
a `UserStreak` row.  The activity row and the streak advance come from `RecordActivity`:
when none of its statements fails it appends one activity row of the user and leaves the
streak table that `updateUserStreak` produces, so that a user with `CurrentStreak = 4`
whose last activity was on the calendar day before the present one, both days as the two
timestamps show them in their location, gets `CurrentStreak = 5` and
`LongestStreak = max(old LongestStreak, 5)`; when both timestamps are shown in UTC, that is
a last activity on the previous UTC day. -/
theorem validation_writes_no_activity (env : Env) (db : DB) (userID : Nat)
    (req : ValidateTaskRequest) :
    (ValidateTask env db userID req).db.activities = db.activities ∧
    (ValidateTask env db userID req).db.streaks = db.streaks ∧
    (∀ (aenv : ActivityEnv) (areq : UpdateActivityRequest),
      aenv.createErr = none → aenv.statsErr = none →
      (updateUserStreak aenv.streak db userID).1 = none →
      ∃ activity,
        (RecordActivity aenv db userID areq).1 = .ok activity ∧
        activity.UserID = userID ∧
        (RecordActivity aenv db userID areq).2.activities = db.activities ++ [activity] ∧
        (RecordActivity aenv db userID areq).2.streaks =
          (updateUserStreak aenv.streak db userID).2.streaks) ∧
    (∀ (aenv : ActivityEnv) (areq : UpdateActivityRequest) (streak : UserStreak) (last : Time),
      aenv.createErr = none → aenv.statsErr = none →
      aenv.streak.findErr = none → aenv.streak.saveErr = none →
      db.streaks.find? (fun s => s.UserID == userID) = some streak →
      streak.LastActivityDate = some last →
      aenv.streak.now.dayNumber - last.dayNumber = 1 →
      streak.CurrentStreak = 4 →
      ∃ row ∈ (RecordActivity aenv db userID areq).2.streaks,
        row.ID = streak.ID ∧ row.UserID = userID ∧ row.CurrentStreak = 5 ∧
        row.LongestStreak = max streak.LongestStreak 5) ∧
    (∀ (aenv : ActivityEnv) (areq : UpdateActivityRequest) (streak : UserStreak) (last : Time),
      aenv.createErr = none → aenv.statsErr = none →
      aenv.streak.findErr = none → aenv.streak.saveErr = none →
      db.streaks.find? (fun s => s.UserID == userID) = some streak →
      streak.LastActivityDate = some last →
      aenv.streak.now.zoneOffset = 0 → last.zoneOffset = 0 →
      aenv.streak.now.unixNano / nanosPerDay - last.unixNano / nanosPerDay = 1 →
      streak.CurrentStreak = 4 →
      ∃ row ∈ (RecordActivity aenv db userID areq).2.streaks,
        row.ID = streak.ID ∧ row.UserID = userID ∧ row.CurrentStreak = 5 ∧
        row.LongestStreak = max streak.LongestStreak 5) := by
  obtain ⟨hA, hS⟩ := ValidateTask_progress_frame env db userID req
  have hlocal : ∀ (aenv : ActivityEnv) (areq : UpdateActivityRequest) (streak : UserStreak)
      (last : Time),
      aenv.createErr = none → aenv.statsErr = none →
      aenv.streak.findErr = none → aenv.streak.saveErr = none →
      db.streaks.find? (fun s => s.UserID == userID) = some streak →
      streak.LastActivityDate = some last →
      aenv.streak.now.dayNumber - last.dayNumber = 1 →
      streak.CurrentStreak = 4 →
      ∃ row ∈ (RecordActivity aenv db userID areq).2.streaks,
        row.ID = streak.ID ∧ row.UserID = userID ∧ row.CurrentStreak = 5 ∧
        row.LongestStreak = max streak.LongestStreak 5 := by
    intro aenv areq streak last hc hs hf hsv hfound hlast hday hcur
    have hupd : updateUserStreak aenv.streak db userID =
        (none, { db with
                 streaks := db.streaks.map (fun s =>
                   if s.ID = streak.ID then advanceStreak aenv.streak.now streak else s) }) := by
      unfold updateUserStreak
      simp only [hf, hfound, hsv]
    obtain ⟨activity, -, -, -, -, h4⟩ :=
      RecordActivity_calm aenv db userID areq hc hs (by rw [hupd])
    obtain ⟨-, kID, kU, k1, -, -⟩ := advanceStreak_spec aenv.streak.now last streak hlast
    obtain ⟨kc, kl, -⟩ := k1 hday
    have huser : streak.UserID = userID := by
      have := List.find?_some hfound
      simpa using this
    refine ⟨advanceStreak aenv.streak.now streak, ?_, kID, by rw [kU, huser],
      by rw [kc, hcur]; rfl, by rw [kl, hcur]; rfl⟩
    rw [h4, hupd]
    apply List.mem_map.mpr
    exact ⟨streak, List.mem_of_find?_eq_some hfound, by simp⟩
  refine ⟨hA, hS, ?_, hlocal, ?_⟩
  · intro aenv areq hc hs hk
    obtain ⟨activity, h1, h2, -, h3, h4⟩ := RecordActivity_calm aenv db userID areq hc hs hk
    exact ⟨activity, h1, h2, h3, h4⟩
  · intro aenv areq streak last hc hs hf hsv hfound hlast hz1 hz2 hday hcur
    refine hlocal aenv areq streak last hc hs hf hsv hfound hlast ?_ hcur
    unfold Time.dayNumber
    rw [hz1, hz2, Int.zero_mul, Int.add_zero, Int.add_zero]
    exact hday

/-! ## The score and the error message of the persisted attempt -/

theorem buildAttempt_score (userID : Nat) (req : ValidateTaskRequest)
    (response : ValidateTaskResponse) :
    (buildAttempt userID req response).Score =
      (if response.Success = true then some response.Score else none) ∧
    (buildAttempt userID req response).ErrorMessage =
      (if response.Success = true then none else leadingError response.TestResults) := by
  unfold buildAttempt leadingError
  cases response.Success
  · cases response.TestResults with
    | nil => simp
    | cons first rest => by_cases h : first.Error = "" <;> simp [h]
  · simp

theorem buildResponse_success_score (st : LoopState)
    (h : (buildResponse st).Success = true) : (buildResponse st).Score = 100 := by
  obtain ⟨-, -, -, -, hSu, hS⟩ := buildResponse_fields st
  rw [hSu] at h
  simp only [Bool.and_eq_true, decide_eq_true_eq] at h
  obtain ⟨hf, hp⟩ := h
  have hp' : 0 < st.testsPassed := hp
  rw [hS, hf, Int.add_zero, if_pos hp,
    Int.tdiv_eq_ediv (Int.mul_nonneg (le_of_lt hp') (by decide)) (le_of_lt hp')]
  exact Int.mul_ediv_cancel_left 100 (ne_of_gt hp')

theorem ValidateTask_error_frame (env : Env) (db : DB) (userID : Nat)
    (req : ValidateTaskRequest) (err : String)
    (h : (ValidateTask env db userID req).result = .error err) :
    (ValidateTask env db userID req).db = db := by
  unfold ValidateTask at h ⊢
  cases hload : dbFirstTaskWithTestCases env.loadTaskErr db req.TaskID with
  | error e => simp
  | ok task =>
    cases hlang : isLanguageSupported task req.Language
    · simp [hlang]
    · cases hcreate : env.createAttemptErr with
      | some e => simp [hlang, dbCreateAttempt, hcreate]
      | none =>
        rw [hload] at h
        simp only [hlang, dbCreateAttempt, hcreate, Bool.not_true, Bool.false_eq_true,
          if_false] at h
        split at h
        · split at h <;> cases h
        · cases h
theorem buildResponse_failed_score (st : LoopState) (hp : 0 ≤ st.testsPassed)
    (hf : 0 ≤ st.testsFailed) (h : (buildResponse st).Success = false) :
    0 ≤ (buildResponse st).Score ∧ (buildResponse st).Score ≤ 99 := by
  obtain ⟨-, -, -, -, hSu, hS⟩ := buildResponse_fields st
  rw [hSu] at h
  rw [hS]
  split
  · rename_i hpos
    have hfpos : 0 < st.testsFailed := by
      by_contra hcon
      have hf0 : st.testsFailed = 0 := by omega
      have hp0 : st.testsPassed > 0 := by omega
      simp [hf0, hp0] at h
    rw [Int.tdiv_eq_ediv (Int.mul_nonneg hp (by decide)) (by omega)]
    refine ⟨Int.ediv_nonneg (Int.mul_nonneg hp (by decide)) (by omega), ?_⟩
    have hlt : st.testsPassed * 100 / (st.testsPassed + st.testsFailed) < 100 :=
      Int.ediv_lt_of_lt_mul hpos (by omega)
    omega
  · exact ⟨le_refl 0, by decide⟩

/-- C28: a validation that returns an error persists no attempt; one that returns a response
appends exactly one attempt, whose `Score` is set if and only if its status is `COMPLETED`
and is 100 whenever it is set.  For a failed validation the response reports a score between
0 and 99 and the attempt carries no score at all. -/
theorem attempt_score_iff_completed (env : Env) (db : DB) (userID : Nat)
    (req : ValidateTaskRequest) :
    (∀ err, (ValidateTask env db userID req).result = .error err →
      (ValidateTask env db userID req).db.attempts = db.attempts) ∧
    (∀ resp, (ValidateTask env db userID req).result = .ok resp →
      ∃ attempt,
        (ValidateTask env db userID req).db.attempts = db.attempts ++ [attempt] ∧
        (attempt.Score ≠ none ↔ attempt.Status = TaskStatus.COMPLETED) ∧
        (∀ s, attempt.Score = some s → s = 100) ∧
        (resp.Success = true → attempt.Score = some 100 ∧ resp.Score = 100) ∧
        (resp.Success = false →
          attempt.Score = none ∧ attempt.Status = TaskStatus.REJECTED ∧
          0 ≤ resp.Score ∧ resp.Score ≤ 99)) := by
  refine ⟨fun err h => by rw [ValidateTask_error_frame env db userID req err h], ?_⟩
  intro resp h
  obtain ⟨task, hload, hlang, hcreate, rfl⟩ := ValidateTask_ok_inv env db userID req resp h
  obtain ⟨hp, hf, -⟩ := runLoop_counts env.host req task.TestCases
  obtain ⟨-, -, hASt, -, -⟩ :=
    buildAttempt_fields userID req (buildResponse (runLoop env.host req task.TestCases))
  obtain ⟨hSc, -⟩ :=
    buildAttempt_score userID req (buildResponse (runLoop env.host req task.TestCases))
  refine ⟨_, ValidateTask_attempts env db userID req task hload hlang hcreate, ?_, ?_, ?_, ?_⟩
  · show (buildAttempt userID req _).Score ≠ none ↔ (buildAttempt userID req _).Status = _
    rw [hSc, hASt]; unfold getTaskStatus
    cases (buildResponse (runLoop env.host req task.TestCases)).Success <;> simp
  · intro s hs
    have hs' : (buildAttempt userID req
        (buildResponse (runLoop env.host req task.TestCases))).Score = some s := hs
    rw [hSc] at hs'
    cases hsu : (buildResponse (runLoop env.host req task.TestCases)).Success
    · rw [hsu] at hs'; simp at hs'
    · rw [hsu, if_pos rfl] at hs'
      rw [← Option.some.inj hs']
      exact buildResponse_success_score _ hsu
  · intro hsu
    have h100 := buildResponse_success_score _ hsu
    refine ⟨?_, h100⟩
    show (buildAttempt userID req _).Score = _
    rw [hSc, if_pos hsu, h100]
  · intro hsu
    obtain ⟨h0, h99⟩ := buildResponse_failed_score _ hp hf hsu
    refine ⟨?_, ?_, h0, h99⟩
    · show (buildAttempt userID req _).Score = _
      rw [hSc, hsu]; rfl
    · show (buildAttempt userID req _).Status = _
      rw [hASt, hsu]; rfl

/-- One test case passes and one fails: the response reports the score 50, the attempt is
stored as `REJECTED` without a score. -/
theorem partial_score_not_persisted :
    (ValidateTask rightThenWrongEnv demoTwoCaseDB 7 demoReq).result.toOption.map
        (fun r => (r.Success, r.Score, r.TestsPassed, r.TestsFailed)) =
      some (false, 50, 1, 1) ∧
    (ValidateTask rightThenWrongEnv demoTwoCaseDB 7 demoReq).db.attempts.map
        (fun a => (a.Status, a.Score)) = [(TaskStatus.REJECTED, none)] := by
  constructor <;> rfl

/-- C21 (as stated, refuted): the first test case ends with a wrong answer and no error,
the second one runs into the deadline; the validation fails, the first non-empty error among
the results is "Time limit exceeded", and the attempt is stored without an error message. -/
theorem errorMessage_ignores_later_error :
    (ValidateTask wrongThenTimeoutEnv demoTwoCaseDB 7 demoReq).result.toOption.map
        (fun r => (r.Success, r.TestResults.map (fun t => t.Error),
          firstNonEmptyError r.TestResults)) =
      some (false, ["", "Time limit exceeded"], some "Time limit exceeded") ∧
    (ValidateTask wrongThenTimeoutEnv demoTwoCaseDB 7 demoReq).db.attempts.map
        (fun a => a.ErrorMessage) = [none] := by
  constructor <;> rfl

/-- C21 (amended): for every validation with `Success = false` the persisted attempt's
`ErrorMessage` is the `Error` of the first per-test result in execution order when that
`Error` is not empty, and it is then the first non-empty `Error`; when the `Error` of the
first result is empty, or there is no result, `ErrorMessage` is not set, whatever the later
results carry. -/
theorem attempt_error_is_leading_error (env : Env) (db : DB) (userID : Nat)
    (req : ValidateTaskRequest) (resp : ValidateTaskResponse)
    (h : (ValidateTask env db userID req).result = .ok resp) (hfail : resp.Success = false) :
    ∃ attempt,
      (ValidateTask env db userID req).db.attempts = db.attempts ++ [attempt] ∧
      attempt.ErrorMessage = leadingError resp.TestResults ∧
      (∀ first rest, resp.TestResults = first :: rest → first.Error ≠ "" →
        attempt.ErrorMessage = some first.Error ∧
        firstNonEmptyError resp.TestResults = some first.Error) ∧
      (∀ first rest, resp.TestResults = first :: rest → first.Error = "" →
        attempt.ErrorMessage = none) ∧
      (resp.TestResults = [] → attempt.ErrorMessage = none) := by
  obtain ⟨task, hload, hlang, hcreate, rfl⟩ := ValidateTask_ok_inv env db userID req resp h
  obtain ⟨-, hEM⟩ :=
    buildAttempt_score userID req (buildResponse (runLoop env.host req task.TestCases))
  rw [hfail] at hEM
  have hEM' : (buildAttempt userID req
      (buildResponse (runLoop env.host req task.TestCases))).ErrorMessage =
      leadingError (buildResponse (runLoop env.host req task.TestCases)).TestResults := hEM
  refine ⟨_, ValidateTask_attempts env db userID req task hload hlang hcreate, hEM', ?_, ?_, ?_⟩
  · intro first rest hres hne
    refine ⟨?_, ?_⟩
    · show (buildAttempt userID req _).ErrorMessage = _
      rw [hEM', hres]; simp [leadingError, hne]
    · rw [hres]; simp [firstNonEmptyError, hne]
  · intro first rest hres he
    show (buildAttempt userID req _).ErrorMessage = _
    rw [hEM', hres]; simp [leadingError, he]
  · intro hres
    show (buildAttempt userID req _).ErrorMessage = _
    rw [hEM', hres]; rfl

theorem attempt_error_is_leading_error_witness :
    (ValidateTask wrongThenTimeoutEnv demoTwoCaseDB 7 demoReq).db.attempts.map
        (fun a => a.ErrorMessage) =
      [leadingError
        [ { ID := 11, Input := "2 3\n", ExpectedOutput := "5", ActualOutput := "6",
            Passed := false, ExecutionTime := 12, MemoryUsed := 0, Error := "" },
          { ID := 13, Input := "4 4\n", ExpectedOutput := "8", ActualOutput := "",
            Passed := false, ExecutionTime := 40, MemoryUsed := 0,
            Error := "Time limit exceeded" } ]] := by
  obtain ⟨attempt, h1, h2, -⟩ :=
    attempt_error_is_leading_error wrongThenTimeoutEnv demoTwoCaseDB 7 demoReq
      { Success := false, Score := 0, TestsPassed := 0, TestsFailed := 2, TotalTests := 2,
        TestResults :=
          [ { ID := 11, Input := "2 3\n", ExpectedOutput := "5", ActualOutput := "6",
              Passed := false, ExecutionTime := 12, MemoryUsed := 0, Error := "" },
            { ID := 13, Input := "4 4\n", ExpectedOutput := "8", ActualOutput := "",
              Passed := false, ExecutionTime := 40, MemoryUsed := 0,
              Error := "Time limit exceeded" } ],
        ExecutionTime := 52, MemoryUsed := 0, ErrorMessage := "" }
      (by rfl) (by rfl)
  rw [h1, ← h2]
  rfl

/-! ## The `is_active` flag of a task -/

theorem ValidateTask_load_error (env : Env) (db : DB) (userID : Nat)
    (req : ValidateTaskRequest) (err : String)
    (hload : dbFirstTaskWithTestCases env.loadTaskErr db req.TaskID = .error err) :
    (ValidateTask env db userID req).result = .error ("task not found: " ++ err) ∧
    (ValidateTask env db userID req).executed = [] ∧
    (ValidateTask env db userID req).db = db := by
  unfold ValidateTask
  rw [hload]
  exact ⟨rfl, rfl, rfl⟩

theorem ValidateTask_lang_error (env : Env) (db : DB) (userID : Nat)
    (req : ValidateTaskRequest) (task : Task)
    (hload : dbFirstTaskWithTestCases env.loadTaskErr db req.TaskID = .ok task)
    (hlang : isLanguageSupported task req.Language = false) :
    (ValidateTask env db userID req).result =
      .error ("language " ++ req.Language ++ " is not supported for this task") ∧
    (ValidateTask env db userID req).executed = [] ∧
    (ValidateTask env db userID req).db = db := by
  unfold ValidateTask
  rw [hload]
  simp only [hlang, Bool.not_false, if_true]
  refine ⟨?_, ?_, ?_⟩ <;> first | rfl | trivial

theorem ValidateTask_create_error (env : Env) (db : DB) (userID : Nat)
    (req : ValidateTaskRequest) (task : Task) (err : String)
    (hload : dbFirstTaskWithTestCases env.loadTaskErr db req.TaskID = .ok task)
    (hlang : isLanguageSupported task req.Language = true)
    (hcreate : env.createAttemptErr = some err) :
    (ValidateTask env db userID req).result =
      .error ("failed to save task attempt: " ++ err) ∧
    (ValidateTask env db userID req).executed = (runLoop env.host req task.TestCases).executed ∧
    (ValidateTask env db userID req).db = db := by
  unfold ValidateTask
  rw [hload]
  simp only [hlang, dbCreateAttempt, hcreate, Bool.not_true, Bool.false_eq_true, if_false]
  refine ⟨?_, ?_, ?_⟩ <;> first | rfl | trivial

theorem dbFirstTask_withTaskFlags (fault : Option String) (f : Task → Bool) (db : DB)
    (id : Nat) :
    dbFirstTask fault (withTaskFlags f db) id =
      match dbFirstTask fault db id with
      | .error err => .error err
      | .ok t => .ok { t with IsActive := f t } := by
  unfold dbFirstTask withTaskFlags
  cases fault with
  | some err => rfl
  | none =>
    simp only [List.find?_map]
    have hcomp : ((fun t : Task => t.ID == id && t.DeletedAt.isNone) ∘
        fun t : Task => { t with IsActive := f t }) =
        (fun t : Task => t.ID == id && t.DeletedAt.isNone) := rfl
    rw [hcomp]
    cases db.tasks.find? (fun t => t.ID == id && t.DeletedAt.isNone) <;> rfl

theorem dbFirstTaskWithTestCases_withTaskFlags (fault : Option String) (f : Task → Bool)
    (db : DB) (id : Nat) :
    (∀ err, dbFirstTaskWithTestCases fault db id = .error err →
      dbFirstTaskWithTestCases fault (withTaskFlags f db) id = .error err) ∧
    (∀ t, dbFirstTaskWithTestCases fault db id = .ok t →
      ∃ b, dbFirstTaskWithTestCases fault (withTaskFlags f db) id =
        .ok { t with IsActive := b }) := by
  unfold dbFirstTaskWithTestCases
  rw [dbFirstTask_withTaskFlags]
  cases dbFirstTask fault db id with
  | error e =>
    refine ⟨fun err h => h, fun t h => ?_⟩
    cases h
  | ok t0 =>
    refine ⟨fun err h => ?_, fun t h => ?_⟩
    · cases h
    · simp only at h
      rw [← Except.ok.inj h]
      exact ⟨f t0, rfl⟩

theorem updateUserProgress_withTaskFlags (env : Env) (f : Task → Bool) (db : DB)
    (userID taskID : Nat) :
    updateUserProgress env (withTaskFlags f db) userID taskID =
      ((updateUserProgress env db userID taskID).1,
        withTaskFlags f (updateUserProgress env db userID taskID).2) := by
  unfold updateUserProgress
  rw [dbFirstTask_withTaskFlags]
  cases dbFirstTask env.progressTaskErr db taskID with
  | error err => rfl
  | ok task =>
    unfold dbUpdateUserCounters
    cases env.progressUpdateErr <;> rfl

/-- The outcome of a validation does not depend on the `is_active` column of `tasks`. -/
theorem ValidateTask_withTaskFlags (env : Env) (f : Task → Bool) (db : DB) (userID : Nat)
    (req : ValidateTaskRequest) :
    (ValidateTask env (withTaskFlags f db) userID req).result =
      (ValidateTask env db userID req).result ∧
    (ValidateTask env (withTaskFlags f db) userID req).executed =
      (ValidateTask env db userID req).executed ∧
    (ValidateTask env (withTaskFlags f db) userID req).db =
      withTaskFlags f (ValidateTask env db userID req).db := by
  obtain ⟨hE, hO⟩ := dbFirstTaskWithTestCases_withTaskFlags env.loadTaskErr f db req.TaskID
  cases hload : dbFirstTaskWithTestCases env.loadTaskErr db req.TaskID with
  | error err =>
    obtain ⟨a1, a2, a3⟩ := ValidateTask_load_error env db userID req err hload
    obtain ⟨b1, b2, b3⟩ :=
      ValidateTask_load_error env (withTaskFlags f db) userID req err (hE err hload)
    rw [a1, a2, a3, b1, b2, b3]
    exact ⟨rfl, rfl, rfl⟩
  | ok task =>
    obtain ⟨b, hload2⟩ := hO task hload
    cases hlang : isLanguageSupported task req.Language
    · obtain ⟨a1, a2, a3⟩ := ValidateTask_lang_error env db userID req task hload hlang
      obtain ⟨b1, b2, b3⟩ :=
        ValidateTask_lang_error env (withTaskFlags f db) userID req _ hload2 hlang
      rw [a1, a2, a3, b1, b2, b3]
      exact ⟨rfl, rfl, rfl⟩
    · cases hcreate : env.createAttemptErr with
      | some err =>
        obtain ⟨a1, a2, a3⟩ :=
          ValidateTask_create_error env db userID req task err hload hlang hcreate
        obtain ⟨b1, b2, b3⟩ :=
          ValidateTask_create_error env (withTaskFlags f db) userID req _ err hload2 hlang
            hcreate
        rw [a1, a2, a3, b1, b2, b3]
        exact ⟨rfl, rfl, rfl⟩
      | none =>
        obtain ⟨a1, a2, a3⟩ := ValidateTask_of_checks env db userID req task hload hlang hcreate
        obtain ⟨b1, b2, b3⟩ :=
          ValidateTask_of_checks env (withTaskFlags f db) userID req _ hload2 hlang hcreate
        rw [a1, a2, a3, b1, b2, b3]
        refine ⟨rfl, rfl, ?_⟩
        show (if (buildResponse (runLoop env.host req task.TestCases)).Success = true then
            (updateUserProgress env (withTaskFlags f (insertedDB db userID req
              (buildResponse (runLoop env.host req task.TestCases)))) userID req.TaskID).2
          else withTaskFlags f (insertedDB db userID req
              (buildResponse (runLoop env.host req task.TestCases)))) = _
        rw [updateUserProgress_withTaskFlags]
        split <;> rfl

/-- C22 (as stated, refuted): `demoTask` is switched off, yet a correct submission for it is
validated like any other: the test case is executed, an attempt is stored and the counters
of the user go up.  An absent task id is answered with the task-not-found error. -/
theorem validateTask_runs_inactive_task :
    demoInactiveTaskDB.tasks.map (fun t => (t.ID, t.IsActive)) = [(1, false)] ∧
    (ValidateTask (demoEnv "5\n") demoInactiveTaskDB 7 demoReq).result =
      .ok (demoResponse "5" true 100) ∧
    (ValidateTask (demoEnv "5\n") demoInactiveTaskDB 7 demoReq).executed.length = 1 ∧
    (ValidateTask (demoEnv "5\n") demoInactiveTaskDB 7 demoReq).db.attempts.map
        (fun a => (a.TaskID, a.UserID, a.Status)) = [(1, 7, TaskStatus.COMPLETED)] ∧
    (ValidateTask (demoEnv "5\n") demoInactiveTaskDB 7 demoReq).db.users.map
        (fun u => (u.ID, u.TotalTasksCompleted, u.TotalPointsEarned)) =
      [(7, 1, 10), (8, 3, 30)] ∧
    (ValidateTask (demoEnv "5\n") demoInactiveTaskDB 7 { demoReq with TaskID := 99 }).result =
      .error "task not found: record not found" := by
  refine ⟨by rfl, by rfl, by rfl, by rfl, by rfl, by rfl⟩

/-- C22 (amended): when no task with the requested id can be loaded (the id is absent, the
row is soft-deleted or the driver fails), `ValidateTask` returns the task-not-found error,
executes no test case and leaves the database as it was.  The `IsActive` flag of a task is
not consulted: rewriting the flags of the tasks in any way changes neither the result nor
the executed requests, and the database afterwards differs in those flags only. -/
theorem validateTask_ignores_task_flag (env : Env) (db : DB) (userID : Nat)
    (req : ValidateTaskRequest) :
    (∀ err, dbFirstTask env.loadTaskErr db req.TaskID = .error err →
      (ValidateTask env db userID req).result = .error ("task not found: " ++ err) ∧
      (ValidateTask env db userID req).executed = [] ∧
      (ValidateTask env db userID req).db = db) ∧
    (db.tasks.find? (fun t => t.ID == req.TaskID && t.DeletedAt.isNone) = none →
      (ValidateTask env db userID req).executed = [] ∧
      (ValidateTask env db userID req).db = db ∧
      ∃ err, (ValidateTask env db userID req).result = .error ("task not found: " ++ err)) ∧
    (∀ f : Task → Bool,
      (ValidateTask env (withTaskFlags f db) userID req).result =
        (ValidateTask env db userID req).result ∧
      (ValidateTask env (withTaskFlags f db) userID req).executed =
        (ValidateTask env db userID req).executed ∧
      (ValidateTask env (withTaskFlags f db) userID req).db.attempts =
        (ValidateTask env db userID req).db.attempts ∧
      (ValidateTask env (withTaskFlags f db) userID req).db.users =
        (ValidateTask env db userID req).db.users) := by
  have hfail : ∀ err, dbFirstTask env.loadTaskErr db req.TaskID = .error err →
      (ValidateTask env db userID req).result = .error ("task not found: " ++ err) ∧
      (ValidateTask env db userID req).executed = [] ∧
      (ValidateTask env db userID req).db = db := by
    intro err h
    apply ValidateTask_load_error
    unfold dbFirstTaskWithTestCases
    rw [h]
  refine ⟨hfail, ?_, ?_⟩
  · intro hnone
    have : ∃ err, dbFirstTask env.loadTaskErr db req.TaskID = .error err := by
      unfold dbFirstTask
      cases env.loadTaskErr with
      | some e => exact ⟨e, rfl⟩
      | none => exact ⟨"record not found", by simp only [hnone]⟩
    obtain ⟨err, herr⟩ := this
    obtain ⟨h1, h2, h3⟩ := hfail err herr
    exact ⟨h2, h3, err, h1⟩
  · intro f
    obtain ⟨h1, h2, h3⟩ := ValidateTask_withTaskFlags env f db userID req
    refine ⟨h1, h2, by rw [h3]; rfl, by rw [h3]; rfl⟩

/-! ## Time and memory limits -/

theorem buildExecReq_fields (req : ValidateTaskRequest) (t : TestCase) :
    buildExecReq req t =
      { Code := req.Code, Language := req.Language, Input := t.Input,
        TimeLimit := judgeTimeLimit t, MemoryLimit := judgeMemoryLimit t } := by
  unfold buildExecReq judgeTimeLimit judgeMemoryLimit
  cases t.TimeLimit <;> cases t.MemoryLimit <;> rfl

/-- The deadline ghost agrees with `Execute`: a response is returned exactly when a child
process was started, and it is the classification of the run under that deadline. -/
theorem Execute_deadline (h : HostStep) (req : ExecuteCodeRequest) :
    (∀ resp, Execute h req = .ok resp →
      ∃ config execDir codeFile inputFile,
        getLanguageConfig req.Language = some config ∧
        ExecuteDeadline h req =
          some (if req.TimeLimit ≤ 0 then config.TimeLimit else req.TimeLimit) ∧
        resp = executeInDocker h config execDir codeFile inputFile
          (if req.TimeLimit ≤ 0 then config.TimeLimit else req.TimeLimit)) ∧
    (∀ L, ExecuteDeadline h req = some L →
      ∃ config resp, getLanguageConfig req.Language = some config ∧
        Execute h req = .ok resp ∧
        L = (if req.TimeLimit ≤ 0 then config.TimeLimit else req.TimeLimit)) := by
  unfold Execute ExecuteDeadline
  cases hc : getLanguageConfig req.Language with
  | none =>
    refine ⟨fun resp h1 => ?_, fun L h2 => ?_⟩
    · cases h1
    · cases h2
  | some config =>
    simp only
    cases h.mkdirAll (joinPath workDir ("exec_" ++ toString h.now)) with
    | some e =>
      refine ⟨fun resp h1 => ?_, fun L h2 => ?_⟩
      · cases h1
      · cases h2
    | none =>
      simp only
      cases h.writeFile (joinPath (joinPath workDir ("exec_" ++ toString h.now))
          ("code" ++ config.FileExtension)) req.Code with
      | some e =>
        refine ⟨fun resp h1 => ?_, fun L h2 => ?_⟩
        · cases h1
        · cases h2
      | none =>
        simp only
        cases (if req.Input ≠ "" then
            h.writeFile (joinPath (joinPath workDir ("exec_" ++ toString h.now)) "input.txt")
              req.Input
          else none) with
        | some e =>
          refine ⟨fun resp h1 => ?_, fun L h2 => ?_⟩
          · cases h1
          · cases h2
        | none =>
          refine ⟨fun resp h1 => ?_, fun L h2 => ?_⟩
          · exact ⟨config, _, _, _, rfl, rfl, (Except.ok.inj h1).symm⟩
          · exact ⟨config, _, rfl, rfl, (Option.some.inj h2).symm⟩

theorem memoryFlag_dockerCmd (config : LanguageConfig) (execDir : String) :
    memoryFlag (dockerCmd config execDir) = some "256m" := by
  unfold dockerCmd
  split <;> rfl

theorem executeInDockerOps_run (h : HostStep) (config : LanguageConfig)
    (execDir inputFile : String) (argv : List String)
    (hmem : HostOp.run argv ∈ executeInDockerOps h config execDir inputFile) :
    argv = dockerCmd config execDir := by
  unfold executeInDockerOps at hmem
  rcases List.mem_append.mp hmem with h1 | h1
  · split at h1
    · rcases List.mem_append.mp h1 with h2 | h2
      · simp at h2
      · split at h2 <;> simp at h2
    · simp at h1
  · simpa using h1

theorem ExecuteOps_run (h : HostStep) (req : ExecuteCodeRequest) (argv : List String)
    (hmem : HostOp.run argv ∈ ExecuteOps h req) :
    ∃ config execDir, getLanguageConfig req.Language = some config ∧
      argv = dockerCmd config execDir := by
  unfold ExecuteOps at hmem
  cases hc : getLanguageConfig req.Language with
  | none => rw [hc] at hmem; simp at hmem
  | some config =>
    rw [hc] at hmem
    simp only at hmem
    split at hmem
    · simp at hmem
    · split at hmem
      · simp at hmem
      · split at hmem
        · simp only [List.mem_append] at hmem
          rcases hmem with (h1 | h1) | h1
          · simp at h1
          · split at h1 <;> simp at h1
          · simp at h1
        · simp only [List.mem_append] at hmem
          rcases hmem with ((h1 | h1) | h1) | h1
          · simp at h1
          · split at h1 <;> simp at h1
          · exact ⟨config, _, rfl, executeInDockerOps_run h config _ _ argv h1⟩
          · simp at h1
/-- C23 (as stated, refuted): `limitedTask` sets 2 seconds and 64 MB, its test case sets
nothing, and the submission is in Java, whose profile defaults to 15 seconds and 512 MB.
The chain of the specification gives 2 seconds and 64 MB (15 seconds without the task's
value); the judge asks the executor for 10 seconds and 256 MB, and the child process runs
under a deadline of 10 seconds. -/
theorem judge_ignores_task_limits :
    limitedDB.tasks = [limitedTask] ∧
    limitedTask.TimeLimit = some 2 ∧ limitedTask.MemoryLimit = some 64 ∧
    demoCase.TimeLimit = none ∧ demoCase.MemoryLimit = none ∧
    getLanguageConfig "java" = some javaConfig ∧
    specTimeLimit limitedTask demoCase javaConfig = 2 ∧
    specMemoryLimit limitedTask demoCase javaConfig = 64 ∧
    specTimeLimit { limitedTask with TimeLimit := none } demoCase javaConfig = 15 ∧
    (ValidateTask (demoEnv "5\n") limitedDB 7 javaReq).executed.map
        (fun r => (r.Language, r.TimeLimit, r.MemoryLimit)) = [("java", 10, 256)] ∧
    ExecuteDeadline (quietHost "5\n") (buildExecReq javaReq demoCase) = some 10 ∧
    (runTestCase deadlineProbe javaReq demoCase).ExecutionTime = 10 := by
  refine ⟨rfl, rfl, rfl, rfl, rfl, by rfl, rfl, rfl, rfl, by rfl, by rfl, by rfl⟩

/-- C23 (amended): for every test case `t` and language, whatever the limits of the task
are, the judge asks the executor for the time limit `t.TimeLimit` when it is set and for 10
seconds otherwise, and for the memory limit `t.MemoryLimit` when it is set and for 256 MB
otherwise; the requests of a validation are these, one per active test case.  When the
executor answers, the child process ran under a deadline of that time limit when it is
positive and of the default of the language profile when it is not. -/
theorem judge_limits_from_test_case (h : HostStep) (req : ValidateTaskRequest)
    (t : TestCase) :
    (buildExecReq req t).TimeLimit = judgeTimeLimit t ∧
    (buildExecReq req t).MemoryLimit = judgeMemoryLimit t ∧
    (∀ v, t.TimeLimit = some v → judgeTimeLimit t = v) ∧
    (t.TimeLimit = none → judgeTimeLimit t = 10) ∧
    (∀ v, t.MemoryLimit = some v → judgeMemoryLimit t = v) ∧
    (t.MemoryLimit = none → judgeMemoryLimit t = 256) ∧
    (∀ resp, Execute h (buildExecReq req t) = .ok resp →
      ∃ profile execDir codeFile inputFile,
        getLanguageConfig req.Language = some profile ∧
        ExecuteDeadline h (buildExecReq req t) =
          some (if judgeTimeLimit t ≤ 0 then profile.TimeLimit else judgeTimeLimit t) ∧
        resp = executeInDocker h profile execDir codeFile inputFile
          (if judgeTimeLimit t ≤ 0 then profile.TimeLimit else judgeTimeLimit t)) ∧
    (∀ (env : Env) (db : DB) (userID : Nat) (task : Task),
      dbFirstTaskWithTestCases env.loadTaskErr db req.TaskID = .ok task →
      isLanguageSupported task req.Language = true →
      (ValidateTask env db userID req).executed =
        (task.TestCases.filter (fun tc => tc.IsActive)).map (fun tc =>
          { Code := req.Code, Language := req.Language, Input := tc.Input,
            TimeLimit := judgeTimeLimit tc, MemoryLimit := judgeMemoryLimit tc })) := by
  have hreq := buildExecReq_fields req t
  refine ⟨by rw [hreq], by rw [hreq], ?_, ?_, ?_, ?_, ?_, ?_⟩
  · intro v hv; unfold judgeTimeLimit; rw [hv]
  · intro hv; unfold judgeTimeLimit; rw [hv]
  · intro v hv; unfold judgeMemoryLimit; rw [hv]
  · intro hv; unfold judgeMemoryLimit; rw [hv]
  · intro resp hok
    obtain ⟨profile, execDir, codeFile, inputFile, hc, hd, hr⟩ :=
      (Execute_deadline h (buildExecReq req t)).1 resp hok
    have hT : (buildExecReq req t).TimeLimit = judgeTimeLimit t := by rw [hreq]
    have hL : (buildExecReq req t).Language = req.Language := by rw [hreq]
    rw [hT] at hd hr
    rw [hL] at hc
    exact ⟨profile, execDir, codeFile, inputFile, hc, hd, hr⟩
  · intro env db userID task hload hlang
    rw [ValidateTask_executed env db userID req task hload hlang]
    apply List.map_congr_left
    intro tc _
    exact buildExecReq_fields req tc

/-- C24 (the code at the failing input): every child process that `Execute` starts is
`docker run` with `--memory 256m`, whatever the request and the profile say.  A Java request
without a memory limit runs under 256 MB although the Java profile declares 512 MB; a Java
request that asks for 64 MB and a test case that asks for 128 MB run under 256 MB as
well. -/
theorem sandbox_memory_fixed_at_256m :
    (∀ (h : HostStep) (req : ExecuteCodeRequest) (argv : List String),
      HostOp.run argv ∈ ExecuteOps h req → memoryFlag argv = some "256m") ∧
    getLanguageConfig "java" = some javaConfig ∧ javaConfig.MemoryLimit = 512 ∧
    javaExec.MemoryLimit = 0 ∧ specMemoryFlag javaExec javaConfig = "512m" ∧
    (ExecuteOps (quietHost "") javaExec).filterMap
        (fun op => match op with
          | HostOp.run argv => some (memoryFlag argv)
          | _ => none) = [some "256m"] ∧
    javaExecSmall.MemoryLimit = 64 ∧ specMemoryFlag javaExecSmall javaConfig = "64m" ∧
    (ExecuteOps (quietHost "") javaExecSmall).filterMap
        (fun op => match op with
          | HostOp.run argv => some (memoryFlag argv)
          | _ => none) = [some "256m"] ∧
    (buildExecReq demoReq demoHungryCase).MemoryLimit = 128 ∧
    (ExecuteOps (quietHost "5\n") (buildExecReq demoReq demoHungryCase)).filterMap
        (fun op => match op with
          | HostOp.run argv => some (memoryFlag argv)
          | _ => none) = [some "256m"] := by
  refine ⟨?_, by rfl, rfl, rfl, by decide, by decide, rfl, by decide, by decide, rfl,
    by decide⟩
  intro h req argv hmem
  obtain ⟨config, execDir, -, rfl⟩ := ExecuteOps_run h req argv hmem
  exact memoryFlag_dockerCmd config execDir

/-! ## Reading a task -/

theorem GetTask_ok (env : TaskEnv) (db : DB) (id : Nat) (userID : Option Nat) (task : Task)
    (h : GetTask env db id userID = .ok task) :
    ∃ row, env.firstErr = none ∧ findLiveTask db id = some row ∧
      task = { row with
               TestCases := db.testCases.filter (fun tc =>
                 tc.TaskID == row.ID && testCaseScope userID tc) } ∧
      (row.IsPublic = true ∨ userID = some row.CreatedByID) := by
  unfold GetTask at h
  cases he : env.firstErr with
  | some err => rw [he] at h; cases h
  | none =>
    rw [he] at h
    simp only at h
    cases hf : findLiveTask db id with
    | none => rw [hf] at h; cases h
    | some row =>
      rw [hf] at h
      simp only at h
      split at h
      · cases h
      · rename_i hcond
        refine ⟨row, rfl, rfl, (Except.ok.inj h).symm, ?_⟩
        cases hp : row.IsPublic
        · right
          cases userID with
          | none => simp [hp] at hcond
          | some uid =>
            simp [hp] at hcond
            rw [hcond]
        · left; rfl

theorem GetTask_hidden (env : TaskEnv) (db : DB) (id : Nat) (userID : Option Nat) (row : Task)
    (he : env.firstErr = none) (hf : findLiveTask db id = some row)
    (hp : row.IsPublic = false) (hu : userID ≠ some row.CreatedByID) :
    GetTask env db id userID = .error "task not found" := by
  unfold GetTask
  rw [he]
  simp only [hf]
  cases userID with
  | none => simp [hp]
  | some uid =>
    have : uid ≠ row.CreatedByID := fun e => hu (by rw [e])
    simp [hp, this]

theorem GetTask_shown (env : TaskEnv) (db : DB) (id : Nat) (userID : Option Nat) (row : Task)
    (he : env.firstErr = none) (hf : findLiveTask db id = some row)
    (hv : row.IsPublic = true ∨ userID = some row.CreatedByID) :
    GetTask env db id userID =
      .ok { row with
            TestCases := db.testCases.filter (fun tc =>
              tc.TaskID == row.ID && testCaseScope userID tc) } := by
  unfold GetTask
  rw [he]
  simp only [hf]
  rcases hv with hp | hu
  · simp [hp]
  · subst hu
    simp

/-- C25 (as stated, refuted): `demoTask` is public and switched off; `GetTask` without a
caller id returns it, with its public active test case. -/
theorem getTask_returns_inactive_task :
    demoInactiveTaskDB.tasks.map (fun t => (t.ID, t.IsPublic, t.IsActive)) =
      [(1, true, false)] ∧
    (GetTask calmTaskEnv demoInactiveTaskDB 1 none).toOption.map
        (fun t => (t.ID, t.IsPublic, t.IsActive, t.TestCases)) =
      some (1, true, false, [demoCase]) := by
  constructor <;> rfl

/-- C25 (amended): `GetTask` called without a caller id returns a task only if the task is
public, whether it is active or not, and every test case included in the returned task is
public and active; a public task that the lookup finds is returned to every caller.  For
every non-public task that the lookup finds, `GetTask` returns "task not found" to every
caller other than its creator, and no call returns a non-public task to anyone else. -/
theorem getTask_visibility (env : TaskEnv) (db : DB) (id : Nat) :
    (∀ task, GetTask env db id none = .ok task →
      task.IsPublic = true ∧
      ∀ tc ∈ task.TestCases, tc.IsPublic = true ∧ tc.IsActive = true ∧ tc.TaskID = task.ID) ∧
    (∀ row userID, env.firstErr = none → findLiveTask db id = some row →
      row.IsPublic = true →
      ∃ task, GetTask env db id userID = .ok task ∧ task.ID = row.ID ∧
        task.IsActive = row.IsActive ∧ task.IsPublic = true) ∧
    (∀ row userID, env.firstErr = none → findLiveTask db id = some row →
      row.IsPublic = false → userID ≠ some row.CreatedByID →
      GetTask env db id userID = .error "task not found") ∧
    (∀ userID task, GetTask env db id userID = .ok task → task.IsPublic = false →
      userID = some task.CreatedByID) ∧
    (∀ row, env.firstErr = none → findLiveTask db id = some row → row.IsPublic = false →
      ∃ task, GetTask env db id (some row.CreatedByID) = .ok task ∧ task.ID = row.ID) := by
  refine ⟨?_, ?_, ?_, ?_, ?_⟩
  · intro task h
    obtain ⟨row, -, -, rfl, hv⟩ := GetTask_ok env db id none task h
    refine ⟨?_, ?_⟩
    · rcases hv with hp | hu
      · exact hp
      · cases hu
    · intro tc htc
      have := (List.mem_filter.mp htc).2
      simp only [testCaseScope, Bool.and_eq_true, beq_iff_eq] at this
      exact ⟨this.2.1, this.2.2, this.1⟩
  · intro row userID he hf hp
    exact ⟨_, GetTask_shown env db id userID row he hf (Or.inl hp), rfl, rfl, hp⟩
  · intro row userID he hf hp hu
    exact GetTask_hidden env db id userID row he hf hp hu
  · intro userID task h hp
    obtain ⟨row, -, -, rfl, hv⟩ := GetTask_ok env db id userID task h
    rcases hv with hpub | hu
    · have hp' : row.IsPublic = false := hp
      rw [hpub] at hp'
      cases hp'
    · exact hu
  · intro row he hf hp
    exact ⟨_, GetTask_shown env db id (some row.CreatedByID) row he hf (Or.inr rfl), rfl⟩

/-- The private variant of `demoTask`: hidden from an unauthenticated caller and from user 7,
shown to its creator, user 2, with both active test cases. -/
theorem getTask_private_scenario :
    GetTask calmTaskEnv demoPrivateTaskDB 1 none = .error "task not found" ∧
    GetTask calmTaskEnv demoPrivateTaskDB 1 (some 7) = .error "task not found" ∧
    (GetTask calmTaskEnv demoPrivateTaskDB 1 (some 2)).toOption.map
        (fun t => (t.ID, t.TestCases)) = some (1, [demoCase]) := by
  refine ⟨by rfl, by rfl, by rfl⟩

/-! ## The answer of a review -/

theorem qualityOf_other (answer : String) (h : answer ∉ reviewAnswers) : qualityOf answer = 0 := by
  unfold reviewAnswers at h
  simp only [List.mem_cons, List.mem_singleton, List.not_mem_nil, or_false, not_or] at h
  unfold qualityOf
  rw [if_neg h.2.1, if_neg h.2.2.1, if_neg h.2.2.2]

theorem specEase_zero (ease : ℚ) : specEase ((0 : Int) : ℚ) ease = max (13 / 10) (ease - 8 / 10) := by
  unfold specEase
  congr 1
  norm_num
  ring

theorem ReviewTheoryCard_response (env : ReviewEnv) (db : DB) (cardID userID : Nat)
    (req : ReviewTheoryCardRequest) (resp : UserTheoryProgress)
    (h : (ReviewTheoryCard env db cardID userID req).1 = .ok resp) :
    ReviewTheoryCard env db cardID userID req =
      (.ok (dbSaveProgress env.saveNow db
              (applyReview req.Answer env.now (priorProgress env db cardID userID req))).1,
       (dbSaveProgress env.saveNow db
          (applyReview req.Answer env.now (priorProgress env db cardID userID req))).2) ∧
    resp = (dbSaveProgress env.saveNow db
              (applyReview req.Answer env.now (priorProgress env db cardID userID req))).1 := by
  cases hc : dbFirstActiveCard env.cardErr db cardID with
  | error err =>
    unfold ReviewTheoryCard at h
    rw [hc] at h
    cases h
  | ok card =>
    cases hf : env.findErr with
    | some err =>
      unfold ReviewTheoryCard at h
      rw [hc] at h
      simp only [hf] at h
      cases h
    | none =>
      cases hs : env.saveErr with
      | some err =>
        unfold ReviewTheoryCard at h
        rw [hc] at h
        simp only [hf, hs] at h
        cases h
      | none =>
        have hok := ReviewTheoryCard_ok env db cardID userID req card hc hf hs
        rw [hok] at h
        exact ⟨hok, (Except.ok.inj h).symm⟩

/-- C26 (as stated, refuted): the request body `{"answer": "MAYBE"}` passes the only
binding rule (`required`); the review is accepted, the record is stored with
`LastAnswer = "MAYBE"`, and it is scheduled like a graded review of quality 0: first
repetition, ease factor 2.5 - 0.8 = 1.7, next review in one day. -/
theorem review_stores_unknown_answer :
    "MAYBE" ∉ reviewAnswers ∧
    ∃ row,
      ReviewTheoryCard (calmReviewEnv demoMorning) demoTheoryDB 3 7 { Answer := "MAYBE" } =
        (.ok row, { demoTheoryDB with theoryProgress := [row] }) ∧
      row.LastAnswer = "MAYBE" ∧ row.Repetitions = 1 ∧ row.Interval = 1 ∧
      row.EaseFactor = 17 / 10 ∧ row.NextReviewAt = demoMorning.AddDays 1 := by
  refine ⟨by decide, firstRow (calmReviewEnv demoMorning) demoTheoryDB 3 7 "MAYBE", ?_, ?_⟩
  · exact (review_first (calmReviewEnv demoMorning) demoTheoryDB 3 7 "MAYBE" demoCard (by rfl)
      ⟨rfl, rfl, rfl⟩ (fun r hr => absurd hr (List.not_mem_nil r))).1
  · obtain ⟨-, -, -, gA, gR, gE, gI, gN⟩ :=
      applyReview_graded "MAYBE" demoMorning (freshProgress 7 3 "MAYBE" demoMorning)
        (by decide)
    have hI : (applyReview "MAYBE" demoMorning (freshProgress 7 3 "MAYBE" demoMorning)).Interval
        = 1 := by
      rw [gI]; rfl
    refine ⟨gA, gR, hI, ?_, ?_⟩
    · show (applyReview "MAYBE" demoMorning (freshProgress 7 3 "MAYBE" demoMorning)).EaseFactor
        = 17 / 10
      rw [gE, qualityOf_other "MAYBE" (by decide), specEase_zero]
      show max (13 / 10 : ℚ) (5 / 2 - 8 / 10) = 17 / 10
      norm_num
    · show (applyReview "MAYBE" demoMorning (freshProgress 7 3 "MAYBE" demoMorning)).NextReviewAt
        = demoMorning.AddDays 1
      rw [gN, hI]

/-- C26 (amended): after every review that `ReviewTheoryCard` accepts and persists, the
stored `LastAnswer` is the answer of the request, whatever string that is, so it is one of
the four grades exactly when the request's answer is.  An answer outside the four is
scheduled like a graded review of quality 0: one more repetition and the ease factor
lowered by 0.8, but not below 1.3. -/
theorem review_stores_request_answer (env : ReviewEnv) (db : DB) (cardID userID : Nat)
    (req : ReviewTheoryCardRequest) (resp : UserTheoryProgress)
    (h : (ReviewTheoryCard env db cardID userID req).1 = .ok resp) :
    resp ∈ (ReviewTheoryCard env db cardID userID req).2.theoryProgress ∧
    resp.LastAnswer = req.Answer ∧
    (resp.LastAnswer ∈ reviewAnswers ↔ req.Answer ∈ reviewAnswers) ∧
    (req.Answer ∉ reviewAnswers →
      resp.Repetitions = (priorProgress env db cardID userID req).Repetitions + 1 ∧
      resp.EaseFactor =
        max (13 / 10) ((priorProgress env db cardID userID req).EaseFactor - 8 / 10)) := by
  obtain ⟨hall, hresp⟩ := ReviewTheoryCard_response env db cardID userID req resp h
  obtain ⟨-, -, -, fR, fE, -, fA, -⟩ := dbSaveProgress_fields env.saveNow db
    (applyReview req.Answer env.now (priorProgress env db cardID userID req))
  obtain ⟨-, -, -, aA, -⟩ :=
    applyReview_keys req.Answer env.now (priorProgress env db cardID userID req)
  have hA : resp.LastAnswer = req.Answer := by rw [hresp, fA, aA]
  refine ⟨?_, hA, by rw [hA], ?_⟩
  · rw [hall, hresp]
    exact ReviewTheoryCard_persists env db cardID userID req
  · intro hout
    have hne : req.Answer ≠ "AGAIN" := by
      intro e
      apply hout
      rw [e]
      decide
    obtain ⟨-, -, -, -, gR, gE, -, -⟩ :=
      applyReview_graded req.Answer env.now (priorProgress env db cardID userID req) hne
    refine ⟨by rw [hresp, fR, gR], ?_⟩
    rw [hresp, fE, gE, qualityOf_other req.Answer hout, specEase_zero]

theorem review_stores_request_answer_witness :
    (firstRow (calmReviewEnv demoMorning) demoTheoryDB 3 7 "MAYBE").LastAnswer = "MAYBE" ∧
    ((firstRow (calmReviewEnv demoMorning) demoTheoryDB 3 7 "MAYBE").LastAnswer ∈ reviewAnswers ↔
      "MAYBE" ∈ reviewAnswers) :=
  ⟨(review_stores_request_answer (calmReviewEnv demoMorning) demoTheoryDB 3 7
      { Answer := "MAYBE" } (firstRow (calmReviewEnv demoMorning) demoTheoryDB 3 7 "MAYBE")
      (congrArg Prod.fst
        (review_first (calmReviewEnv demoMorning) demoTheoryDB 3 7 "MAYBE" demoCard (by rfl)
          ⟨rfl, rfl, rfl⟩ (fun r hr => absurd hr (List.not_mem_nil r))).1)).2.1,
   (review_stores_request_answer (calmReviewEnv demoMorning) demoTheoryDB 3 7
      { Answer := "MAYBE" } (firstRow (calmReviewEnv demoMorning) demoTheoryDB 3 7 "MAYBE")
      (congrArg Prod.fst
        (review_first (calmReviewEnv demoMorning) demoTheoryDB 3 7 "MAYBE" demoCard (by rfl)
          ⟨rfl, rfl, rfl⟩ (fun r hr => absurd hr (List.not_mem_nil r))).1)).2.2.1⟩

/-! ## A language without a profile -/

theorem runTestCase_unregistered (h : HostStep) (req : ValidateTaskRequest) (tc : TestCase)
    (hnone : getLanguageConfig req.Language = none) :
    (runTestCase h req tc).Passed = false ∧
    (runTestCase h req tc).Error = "unsupported language: " ++ req.Language := by
  have hL : (buildExecReq req tc).Language = req.Language := by rw [buildExecReq_fields]
  have hE : Execute h (buildExecReq req tc) =
      .error ("unsupported language: " ++ req.Language) := by
    unfold Execute
    rw [hL, hnone]
  unfold runTestCase
  rw [hE]
  exact ⟨rfl, rfl⟩

theorem foldl_loopStep_results (host : Nat → HostStep) (req : ValidateTaskRequest)
    (P : TestCaseResult → Prop) (hP : ∀ h tc, P (runTestCase h req tc)) :
    ∀ (tcs : List TestCase) (st : LoopState), (∀ r ∈ st.TestResults, P r) →
      ∀ r ∈ (tcs.foldl (loopStep host req) st).TestResults, P r := by
  intro tcs
  induction tcs with
  | nil => intro st h; simpa using h
  | cons tc rest ih =>
    intro st h
    simp only [List.foldl_cons]
    apply ih
    intro r hr
    unfold loopStep at hr
    cases hact : tc.IsActive
    · rw [hact] at hr
      exact h r hr
    · rw [hact] at hr
      simp only [Bool.not_true, Bool.false_eq_true, if_false] at hr
      rcases List.mem_append.mp hr with h1 | h1
      · exact h r h1
      · rw [List.mem_singleton.mp h1]
        exact hP _ _

theorem append_ne_empty (a b : String) (ha : a ≠ "") : a ++ b ≠ "" := by
  intro h
  have hl := congrArg String.length h
  rw [String.length_append] at hl
  have h0 : a.length = 0 := by
    have : ("" : String).length = 0 := rfl
    omega
  apply ha
  have hd : a.data = [] := List.length_eq_zero.mp h0
  exact String.ext hd

/-- C27 (as stated, refuted): `demoTask` with an empty supported set, and with a set that
names "ruby", lets a submission in "ruby" through the gate; "ruby" has no profile.  The
validation returns a response that reports the test case as failed with the error of the
executor, and it persists a `REJECTED` attempt. -/
theorem validateTask_judges_unregistered_language :
    getLanguageConfig "ruby" = none ∧
    openTaskDB.tasks.map (fun t => t.SupportedLanguages) = [[]] ∧
    (ValidateTask (demoEnv "5\n") openTaskDB 7 rubyReq).result.toOption.map
        (fun r => (r.Success, r.TestsPassed, r.TestsFailed,
          r.TestResults.map (fun t => (t.Passed, t.Error)))) =
      some (false, 0, 1, [(false, "unsupported language: ruby")]) ∧
    (ValidateTask (demoEnv "5\n") openTaskDB 7 rubyReq).db.attempts.map
        (fun a => (a.Language, a.Status, a.ErrorMessage)) =
      [("ruby", TaskStatus.REJECTED, some "unsupported language: ruby")] ∧
    rubyTaskDB.tasks.map (fun t => t.SupportedLanguages) = [["python", "ruby"]] ∧
    (ValidateTask (demoEnv "5\n") rubyTaskDB 7 rubyReq).result.toOption.map
        (fun r => (r.Success, r.TestResults.map (fun t => (t.Passed, t.Error)))) =
      some (false, [(false, "unsupported language: ruby")]) ∧
    (ValidateTask (demoEnv "5\n") rubyTaskDB 7 rubyReq).db.attempts.length = 1 := by
  refine ⟨by decide, by rfl, by rfl, by rfl, by rfl, by rfl, by rfl⟩

/-- C27 (amended): for a task that passes the supported-language gate and a submitted
language without a registered profile, `ValidateTask` makes no call on the host and, unless
the insert fails, returns a response with `Success = false` in which every active test
case is reported as failed with the error "unsupported language: <id>"; it persists a
`REJECTED` attempt, with that error as its message when there is an active test case, and
leaves the counters of the users as they were. -/
theorem validateTask_unregistered_language (env : Env) (db : DB) (userID : Nat)
    (req : ValidateTaskRequest) (task : Task)
    (hload : dbFirstTaskWithTestCases env.loadTaskErr db req.TaskID = .ok task)
    (hlang : isLanguageSupported task req.Language = true)
    (hnone : getLanguageConfig req.Language = none) :
    (∀ r ∈ (ValidateTask env db userID req).executed,
      r.Language = req.Language ∧ ∀ h, ExecuteOps h r = []) ∧
    (env.createAttemptErr = none →
      ∃ resp attempt,
        (ValidateTask env db userID req).result = .ok resp ∧
        resp.Success = false ∧ resp.TestsPassed = 0 ∧
        resp.TestsFailed = ((task.TestCases.filter (fun tc => tc.IsActive)).length : Int) ∧
        resp.TestResults.length = (task.TestCases.filter (fun tc => tc.IsActive)).length ∧
        (∀ r ∈ resp.TestResults,
          r.Passed = false ∧ r.Error = "unsupported language: " ++ req.Language) ∧
        (ValidateTask env db userID req).db.attempts = db.attempts ++ [attempt] ∧
        attempt.Status = TaskStatus.REJECTED ∧ attempt.Score = none ∧
        (task.TestCases.filter (fun tc => tc.IsActive) ≠ [] →
          attempt.ErrorMessage = some ("unsupported language: " ++ req.Language)) ∧
        (ValidateTask env db userID req).db.users = db.users) := by
  constructor
  · intro r hr
    rw [ValidateTask_executed env db userID req task hload hlang] at hr
    obtain ⟨tc, -, rfl⟩ := List.mem_map.mp hr
    have hL : (buildExecReq req tc).Language = req.Language := by rw [buildExecReq_fields]
    refine ⟨hL, fun h => ?_⟩
    unfold ExecuteOps
    rw [hL, hnone]
  · intro hcreate
    obtain ⟨hres, -, hdb⟩ := ValidateTask_of_checks env db userID req task hload hlang hcreate
    obtain ⟨hTP, hTF, -, hTR, hSu, -⟩ :=
      buildResponse_fields (runLoop env.host req task.TestCases)
    obtain ⟨hp, hf, hsum⟩ := runLoop_counts env.host req task.TestCases
    obtain ⟨ip, -, -⟩ := loopInv_foldl env.host req task.TestCases LoopState.init loopInv_init
    have hall : ∀ r ∈ (runLoop env.host req task.TestCases).TestResults,
        r.Passed = false ∧ r.Error = "unsupported language: " ++ req.Language := by
      unfold runLoop
      refine foldl_loopStep_results env.host req
        (fun r => r.Passed = false ∧ r.Error = "unsupported language: " ++ req.Language)
        (fun h tc => runTestCase_unregistered h req tc hnone) task.TestCases LoopState.init ?_
      intro r hr
      rw [init_TestResults] at hr
      exact absurd hr (List.not_mem_nil r)
    have hp0 : (runLoop env.host req task.TestCases).testsPassed = 0 := by
      have hc : (runLoop env.host req task.TestCases).TestResults.countP
          (fun r => r.Passed) = 0 := by
        rw [List.countP_eq_zero]
        intro r hr
        rw [(hall r hr).1]
        decide
      have := ip
      unfold runLoop at hc ⊢
      rw [this, hc]
      rfl
    have hids := (foldl_loopStep_trace env.host req task.TestCases LoopState.init).2
    simp only [init_TestResults, List.map_nil, List.nil_append] at hids
    have hlen := congrArg List.length hids
    simp only [List.length_map] at hlen
    have hsucc : (buildResponse (runLoop env.host req task.TestCases)).Success = false := by
      rw [hSu, hp0]
      simp
    obtain ⟨-, -, hASt, -, -⟩ :=
      buildAttempt_fields userID req (buildResponse (runLoop env.host req task.TestCases))
    obtain ⟨hSc, hEM⟩ :=
      buildAttempt_score userID req (buildResponse (runLoop env.host req task.TestCases))
    refine ⟨_, _, hres, hsucc, by rw [hTP, hp0], ?_, ?_, ?_,
      ValidateTask_attempts env db userID req task hload hlang hcreate, ?_, ?_, ?_, ?_⟩
    · rw [hTF]; omega
    · rw [hTR]; exact hlen
    · rw [hTR]; exact hall
    · show (buildAttempt userID req _).Status = _
      rw [hASt, hsucc]; rfl
    · show (buildAttempt userID req _).Score = _
      rw [hSc, hsucc]; rfl
    · intro hne
      show (buildAttempt userID req _).ErrorMessage = _
      rw [hEM, hsucc, hTR]
      have hlen' : (runLoop env.host req task.TestCases).TestResults.length ≠ 0 := by
        unfold runLoop
        rw [hlen]
        exact fun h0 => hne (List.length_eq_zero.mp h0)
      cases hR : (runLoop env.host req task.TestCases).TestResults with
      | nil => rw [hR] at hlen'; exact absurd rfl hlen'
      | cons first rest =>
        have hfirst := (hall first (by rw [hR]; exact List.mem_cons_self _ _)).2
        have hne' : first.Error ≠ "" := by
          rw [hfirst]
          exact append_ne_empty _ _ (by decide)
        have hlead : leadingError (first :: rest) = some first.Error := if_pos hne'
        rw [hlead, hfirst]
        rfl
    · rw [hdb, hsucc]
      rfl

theorem validateTask_unregistered_language_witness :
    getLanguageConfig rubyReq.Language = none ∧
    (ValidateTask (demoEnv "5\n") openTaskDB 7 rubyReq).db.users = openTaskDB.users := by
  obtain ⟨resp, attempt, -, -, -, -, -, -, -, -, -, -, hu⟩ :=
    (validateTask_unregistered_language (demoEnv "5\n") openTaskDB 7 rubyReq
      { demoTask with SupportedLanguages := [], TestCases := [demoCase, demoInactiveCase] }
      (by rfl) (by rfl) (by decide)).2 rfl
  exact ⟨by decide, hu⟩

/-! ## Progress along a learning path -/

theorem advancePath_keys (env : PathEnv) (p : UserPathProgress) :
    (advancePath env p).ID = p.ID ∧ (advancePath env p).UserID = p.UserID ∧
    (advancePath env p).PathName = p.PathName ∧
    (advancePath env p).TotalSteps = p.TotalSteps := by
  unfold advancePath
  simp only
  split <;> split <;> split <;> exact ⟨rfl, rfl, rfl, rfl⟩

theorem advancePath_steps (env : PathEnv) (p : UserPathProgress) :
    (advancePath env p).CurrentStep =
      (if p.CurrentStep < p.TotalSteps then p.CurrentStep + 1 else p.CurrentStep) ∧
    (advancePath env p).CompletedSteps =
      (if p.CurrentStep < p.TotalSteps then p.CompletedSteps + 1 else p.CompletedSteps) ∧
    (advancePath env p).IsCompleted =
      (if (advancePath env p).CompletedSteps ≥ p.TotalSteps ∧ p.IsCompleted = false then true
       else p.IsCompleted) := by
  unfold advancePath
  simp only
  by_cases h1 : p.CurrentStep < p.TotalSteps
  · simp only [h1, if_true]
    split <;> split <;> exact ⟨rfl, rfl, rfl⟩
  · simp only [h1, if_false]
    split <;> split <;> exact ⟨rfl, rfl, rfl⟩
theorem pathStart_inv (r : UserPathProgress) (h : PathStart r) : PathInv r := by
  obtain ⟨h1, h2, h3⟩ := h
  refine ⟨by rw [h1, h2]; rfl, ?_, fun _ => h3⟩
  rw [h1]
  exact le_max_right _ _

theorem freshPath_inv (userID : Nat) (pathName : String) : PathInv (freshPath userID pathName) :=
  pathStart_inv _ ⟨rfl, rfl, rfl⟩

/-- One update keeps the relation between the two step counters and the bound of
`CurrentStep`; on a path with at least one step it leaves `IsCompleted` unset. -/
theorem advancePath_inv (env : PathEnv) (p : UserPathProgress) (h : PathInv p) :
    PathInv (advancePath env p) := by
  obtain ⟨hC, hB, hD⟩ := h
  obtain ⟨-, -, -, kT⟩ := advancePath_keys env p
  obtain ⟨sC, sD, sI⟩ := advancePath_steps env p
  have hC' : (advancePath env p).CompletedSteps = (advancePath env p).CurrentStep - 1 := by
    rw [sC, sD]
    split <;> omega
  have hB' : (advancePath env p).CurrentStep ≤ max p.TotalSteps 1 := by
    rw [sC]
    split <;> omega
  refine ⟨hC', by rw [kT]; exact hB', fun hT => ?_⟩
  rw [kT] at hT
  rw [sI, if_neg ?_]
  · exact hD hT
  · intro hc
    have := hc.1
    omega

theorem leastPathID_mem_aux (l : List UserPathProgress) :
    ∀ (acc : Option UserPathProgress) (p : UserPathProgress),
      l.foldl
        (fun acc r =>
          match acc with
          | none => some r
          | some a => if r.ID < a.ID then some r else some a) acc = some p →
      p ∈ l ∨ acc = some p := by
  induction l with
  | nil => intro acc p h; exact Or.inr h
  | cons r rest ih =>
    intro acc p h
    simp only [List.foldl_cons] at h
    rcases ih _ p h with hm | hacc
    · exact Or.inl (List.mem_cons_of_mem r hm)
    · cases acc with
      | none =>
        simp only [Option.some.injEq] at hacc
        subst hacc
        exact Or.inl (List.mem_cons_self _ _)
      | some a =>
        simp only at hacc
        split at hacc
        · simp only [Option.some.injEq] at hacc
          subst hacc
          exact Or.inl (List.mem_cons_self _ _)
        · exact Or.inr hacc

theorem dbFirstPath_some (db : DB) (userID : Nat) (pathName : String) (p : UserPathProgress)
    (h : dbFirstPath db userID pathName = some p) :
    p ∈ db.pathProgress ∧ p.UserID = userID ∧ p.PathName = pathName := by
  unfold dbFirstPath leastPathID at h
  rcases leastPathID_mem_aux _ none p h with hm | hn
  · have := List.mem_filter.mp hm
    refine ⟨this.1, ?_⟩
    simpa using this.2
  · cases hn

theorem priorPath_cases (db : DB) (userID : Nat) (req : PathProgressRequest) :
    (priorPath db userID req ∈ db.pathProgress ∧
      dbFirstPath db userID req.PathName = some (priorPath db userID req)) ∨
    (priorPath db userID req = freshPath userID req.PathName ∧
      dbFirstPath db userID req.PathName = none) := by
  unfold priorPath
  cases h : dbFirstPath db userID req.PathName with
  | none => exact Or.inr ⟨rfl, rfl⟩
  | some p => exact Or.inl ⟨(dbFirstPath_some db userID req.PathName p h).1, rfl⟩

theorem dbSavePath_fields (db : DB) (p : UserPathProgress) :
    (dbSavePath db p).1.UserID = p.UserID ∧ (dbSavePath db p).1.PathName = p.PathName ∧
    (dbSavePath db p).1.TotalSteps = p.TotalSteps ∧
    (dbSavePath db p).1.CompletedSteps = p.CompletedSteps ∧
    (dbSavePath db p).1.CurrentStep = p.CurrentStep ∧
    (dbSavePath db p).1.IsCompleted = p.IsCompleted ∧
    (dbSavePath db p).1.CompletedAt = p.CompletedAt ∧
    (p.ID ≠ 0 → (dbSavePath db p).1.ID = p.ID) := by
  unfold dbSavePath
  split
  · rename_i h0
    exact ⟨rfl, rfl, rfl, rfl, rfl, rfl, rfl, fun h => absurd h0 h⟩
  · exact ⟨rfl, rfl, rfl, rfl, rfl, rfl, rfl, fun _ => rfl⟩

theorem dbSavePath_rows (db : DB) (p : UserPathProgress) :
    ∀ r ∈ (dbSavePath db p).2.pathProgress,
      r ∈ db.pathProgress ∨ r = (dbSavePath db p).1 := by
  intro r hr
  unfold dbSavePath at hr ⊢
  split at hr
  · rename_i h0
    rw [if_pos h0]
    rcases List.mem_append.mp hr with h | h
    · exact Or.inl h
    · exact Or.inr (List.mem_singleton.mp h)
  · rename_i h0
    rw [if_neg h0]
    obtain ⟨r0, hr0, rfl⟩ := List.mem_map.mp hr
    simp only
    split
    · exact Or.inr rfl
    · exact Or.inl hr0

theorem UpdatePathProgress_ok (env : PathEnv) (db : DB) (userID : Nat)
    (req : PathProgressRequest) (hfind : env.findErr = none) (hsave : env.saveErr = none) :
    UpdatePathProgress env db userID req =
      (.ok (dbSavePath db (advancePath env (priorPath db userID req))).1,
       (dbSavePath db (advancePath env (priorPath db userID req))).2) := by
  unfold UpdatePathProgress priorPath
  simp only [hfind, hsave]

theorem UpdatePathProgress_rows (env : PathEnv) (db : DB) (userID : Nat)
    (req : PathProgressRequest) :
    ∀ r ∈ (UpdatePathProgress env db userID req).2.pathProgress,
      r ∈ db.pathProgress ∨
      r = (dbSavePath db (advancePath env (priorPath db userID req))).1 := by
  intro r hr
  cases hf : env.findErr with
  | some err =>
    unfold UpdatePathProgress at hr
    rw [hf] at hr
    exact Or.inl hr
  | none =>
    cases hs : env.saveErr with
    | some err =>
      unfold UpdatePathProgress at hr
      simp only [hf, hs] at hr
      exact Or.inl hr
    | none =>
      rw [UpdatePathProgress_ok env db userID req hf hs] at hr
      exact dbSavePath_rows db _ r hr

theorem savedPath_inv (env : PathEnv) (db : DB) (userID : Nat) (req : PathProgressRequest)
    (hinv : ∀ r ∈ db.pathProgress, PathInv r) :
    PathInv (dbSavePath db (advancePath env (priorPath db userID req))).1 := by
  have hprior : PathInv (priorPath db userID req) := by
    rcases priorPath_cases db userID req with ⟨hm, -⟩ | ⟨hf, -⟩
    · exact hinv _ hm
    · rw [hf]; exact freshPath_inv _ _
  obtain ⟨i1, i2, i3⟩ := advancePath_inv env _ hprior
  obtain ⟨-, -, fT, fD, fC, fI, -, -⟩ :=
    dbSavePath_fields db (advancePath env (priorPath db userID req))
  unfold PathInv
  rw [fT, fD, fC, fI]
  exact ⟨i1, i2, i3⟩

theorem pathReachable_inv (db : DB) (h : PathReachable db) :
    ∀ r ∈ db.pathProgress, PathInv r := by
  induction h with
  | start db h0 => exact fun r hr => pathStart_inv r (h0 r hr)
  | call env userID req db _ ih =>
    intro r hr
    rcases UpdatePathProgress_rows env db userID req r hr with hold | hnew
    · exact ih r hold
    · rw [hnew]
      exact savedPath_inv env db userID req ih

/-- The first call for a path without a row: the row is created with `TotalSteps = 0`, stays
at step 1 with nothing completed, and is marked completed at once. -/
theorem UpdatePathProgress_first (env : PathEnv) (db : DB) (userID : Nat)
    (req : PathProgressRequest) (hfind : env.findErr = none) (hsave : env.saveErr = none)
    (hnone : dbFirstPath db userID req.PathName = none) :
    ∃ row,
      UpdatePathProgress env db userID req =
        (.ok row, { db with pathProgress := db.pathProgress ++ [row] }) ∧
      row.UserID = userID ∧ row.PathName = req.PathName ∧ row.ID = nextPathID db ∧
      row.TotalSteps = 0 ∧ row.CurrentStep = 1 ∧ row.CompletedSteps = 0 ∧
      row.IsCompleted = true ∧ row.CompletedAt = some env.completedNow := by
  have hprior : priorPath db userID req = freshPath userID req.PathName := by
    unfold priorPath
    rw [hnone]
  have hadv : advancePath env (freshPath userID req.PathName) =
      { freshPath userID req.PathName with
        IsCompleted := true, CompletedAt := some env.completedNow,
        LastAccessedAt := some env.now } := by
    unfold advancePath freshPath
    simp
  refine ⟨{ freshPath userID req.PathName with
            ID := nextPathID db, IsCompleted := true, CompletedAt := some env.completedNow,
            LastAccessedAt := some env.now }, ?_, rfl, rfl, rfl, rfl, rfl, rfl, rfl, rfl⟩
  rw [UpdatePathProgress_ok env db userID req hfind hsave, hprior, hadv]
  rfl
theorem UpdatePathProgress_response (env : PathEnv) (db : DB) (userID : Nat)
    (req : PathProgressRequest) (resp : UserPathProgress)
    (h : (UpdatePathProgress env db userID req).1 = .ok resp) :
    env.findErr = none ∧ env.saveErr = none ∧
    resp = (dbSavePath db (advancePath env (priorPath db userID req))).1 := by
  cases hf : env.findErr with
  | some err =>
    unfold UpdatePathProgress at h
    rw [hf] at h
    cases h
  | none =>
    cases hs : env.saveErr with
    | some err =>
      unfold UpdatePathProgress at h
      simp only [hf, hs] at h
      cases h
    | none =>
      rw [UpdatePathProgress_ok env db userID req hf hs] at h
      exact ⟨rfl, rfl, (Except.ok.inj h).symm⟩

theorem pathInv_never_completes (r : UserPathProgress) (h : PathInv r) :
    r.CompletedSteps = r.CurrentStep - 1 ∧ r.CurrentStep ≤ max r.TotalSteps 1 ∧
    (r.TotalSteps ≥ 1 → r.CompletedSteps < r.TotalSteps ∧ r.IsCompleted = false) := by
  obtain ⟨h1, h2, h3⟩ := h
  refine ⟨h1, h2, fun hT => ⟨?_, h3 hT⟩⟩
  omega

/-- A path of three steps: five calls move the user to step 2, then to step 3, and then
leave the row where it is, with two steps completed and the path not marked completed. -/
theorem path_of_three_steps :
    (updatePathAll 7 { PathName := "go-basics" }
        [calmPathEnv demoMorning, calmPathEnv demoMorning, calmPathEnv demoMorning,
         calmPathEnv demoMorning, calmPathEnv demoMorning] demoPathDB).2.map
      (fun out => out.toOption.map
        (fun r => (r.TotalSteps, r.CurrentStep, r.CompletedSteps, r.IsCompleted))) =
      [some (3, 2, 1, false), some (3, 3, 2, false), some (3, 3, 2, false),
       some (3, 3, 2, false), some (3, 3, 2, false)] ∧
    (updatePathAll 7 { PathName := "go-basics" }
        [calmPathEnv demoMorning, calmPathEnv demoMorning, calmPathEnv demoMorning,
         calmPathEnv demoMorning, calmPathEnv demoMorning] demoPathDB).1.pathProgress.map
      (fun r => (r.ID, r.TotalSteps, r.CurrentStep, r.CompletedSteps, r.IsCompleted)) =
      [(1, 3, 3, 2, false)] := by
  constructor <;> decide

/-- A path without a row: the first call creates the row with `TotalSteps = 0` and marks it
completed with nothing completed; a second call changes none of the counters. -/
theorem path_created_by_first_call :
    (updatePathAll 7 { PathName := "rust-basics" }
        [calmPathEnv demoMorning, calmPathEnv demoMorning] demoPathDB).2.map
      (fun out => out.toOption.map
        (fun r => (r.ID, r.TotalSteps, r.CurrentStep, r.CompletedSteps, r.IsCompleted))) =
      [some (2, 0, 1, 0, true), some (2, 0, 1, 0, true)] := by
  decide

/-- C30: in every table of path rows that arises by calls of `UpdatePathProgress` from rows
standing at `CurrentStep = 1`, `CompletedSteps = 0` and not marked completed, every row has
`CompletedSteps = CurrentStep - 1` and `CurrentStep ≤ max(TotalSteps, 1)`, and a row with
`TotalSteps ≥ 1` has `CompletedSteps < TotalSteps` and is not marked completed; the same
holds for the row that a call returns.  No call changes the `TotalSteps` of the row it
reads.  A call for a path without a row creates the row with `TotalSteps = 0` and returns
it marked completed, at step 1 with `CompletedSteps = 0`. -/
theorem path_progress_invariant :
    (∀ db : DB, PathReachable db →
      ∀ r ∈ db.pathProgress,
        r.CompletedSteps = r.CurrentStep - 1 ∧ r.CurrentStep ≤ max r.TotalSteps 1 ∧
        (r.TotalSteps ≥ 1 → r.CompletedSteps < r.TotalSteps ∧ r.IsCompleted = false)) ∧
    (∀ db : DB, PathReachable db →
      ∀ (env : PathEnv) (userID : Nat) (req : PathProgressRequest) (resp : UserPathProgress),
        (UpdatePathProgress env db userID req).1 = .ok resp →
        resp ∈ (UpdatePathProgress env db userID req).2.pathProgress ∧
        resp.CompletedSteps = resp.CurrentStep - 1 ∧
        resp.CurrentStep ≤ max resp.TotalSteps 1 ∧
        (resp.TotalSteps ≥ 1 → resp.CompletedSteps < resp.TotalSteps ∧
          resp.IsCompleted = false)) ∧
    (∀ (env : PathEnv) (db : DB) (userID : Nat) (req : PathProgressRequest),
      ∀ r ∈ (UpdatePathProgress env db userID req).2.pathProgress,
        r ∈ db.pathProgress ∨
        (r.TotalSteps = (priorPath db userID req).TotalSteps ∧
          (priorPath db userID req ∈ db.pathProgress ∨
            (dbFirstPath db userID req.PathName = none ∧ r.TotalSteps = 0)))) ∧
    (∀ (env : PathEnv) (db : DB) (userID : Nat) (req : PathProgressRequest),
      env.findErr = none → env.saveErr = none →
      dbFirstPath db userID req.PathName = none →
      ∃ row,
        UpdatePathProgress env db userID req =
          (.ok row, { db with pathProgress := db.pathProgress ++ [row] }) ∧
        row.UserID = userID ∧ row.PathName = req.PathName ∧
        row.TotalSteps = 0 ∧ row.CurrentStep = 1 ∧ row.CompletedSteps = 0 ∧
        row.IsCompleted = true) := by
  refine ⟨?_, ?_, ?_, ?_⟩
  · intro db h r hr
    exact pathInv_never_completes r (pathReachable_inv db h r hr)
  · intro db h env userID req resp hok
    obtain ⟨hf, hs, hresp⟩ := UpdatePathProgress_response env db userID req resp hok
    have hinv := savedPath_inv env db userID req (pathReachable_inv db h)
    rw [← hresp] at hinv
    refine ⟨?_, pathInv_never_completes resp hinv⟩
    rw [UpdatePathProgress_ok env db userID req hf hs, hresp]
    unfold dbSavePath
    split
    · exact List.mem_append_right _ (List.mem_singleton_self _)
    · rename_i h0
      rcases priorPath_cases db userID req with ⟨hm, -⟩ | ⟨hfresh, -⟩
      · apply List.mem_map.mpr
        refine ⟨priorPath db userID req, hm, ?_⟩
        rw [if_pos (advancePath_keys env _).1.symm]
      · exfalso
        apply h0
        rw [(advancePath_keys env _).1, hfresh]
        rfl
  · intro env db userID req r hr
    rcases UpdatePathProgress_rows env db userID req r hr with hold | hnew
    · exact Or.inl hold
    · right
      obtain ⟨-, -, fT, -⟩ := dbSavePath_fields db (advancePath env (priorPath db userID req))
      obtain ⟨-, -, -, kT⟩ := advancePath_keys env (priorPath db userID req)
      have hT : r.TotalSteps = (priorPath db userID req).TotalSteps := by rw [hnew, fT, kT]
      refine ⟨hT, ?_⟩
      rcases priorPath_cases db userID req with ⟨hm, -⟩ | ⟨hfresh, hnone⟩
      · exact Or.inl hm
      · exact Or.inr ⟨hnone, by rw [hT, hfresh]; rfl⟩
  · intro env db userID req hf hs hnone
    obtain ⟨row, h1, h2, h3, -, h5, h6, h7, h8, -⟩ :=
      UpdatePathProgress_first env db userID req hf hs hnone
    exact ⟨row, h1, h2, h3, h5, h6, h7, h8⟩

/-! ## Rounding to binary64 -/

theorem roundHalfEven_near (x : ℚ) : |((roundHalfEven x : Int) : ℚ) - x| ≤ 1 / 2 := by
  have h1 : (⌊x⌋ : ℚ) ≤ x := Int.floor_le x
  have h2 : x < (⌊x⌋ : ℚ) + 1 := Int.lt_floor_add_one x
  unfold roundHalfEven
  simp only
  split
  · rename_i h
    rw [abs_le]; constructor <;> linarith
  · rename_i h
    split
    · rw [abs_le]; push_cast; constructor <;> linarith
    · rename_i h'
      have he : x - (⌊x⌋ : ℚ) = 1 / 2 := le_antisymm (not_lt.mp h') (not_lt.mp h)
      split
      · rw [abs_le]; constructor <;> linarith
      · rw [abs_le]; push_cast; constructor <;> linarith

theorem log2Fuel_eq (fuel : Nat) : ∀ n : Nat, n ≤ fuel → log2Fuel fuel n = Nat.log2 n := by
  induction fuel with
  | zero =>
    intro n hn
    have h0 : n = 0 := by omega
    subst h0
    rw [Nat.log2]
    rfl
  | succ fuel ih =>
    intro n hn
    rw [Nat.log2]
    show (if 2 ≤ n then log2Fuel fuel (n / 2) + 1 else 0) = _
    by_cases h2 : 2 ≤ n
    · rw [if_pos h2, if_pos h2, ih (n / 2) (by omega)]
    · rw [if_neg h2, if_neg h2]

theorem natLog2_eq (n : Nat) : natLog2 n = Nat.log2 n := log2Fuel_eq n n (le_refl n)

theorem floorLog2_le (a : ℚ) (ha : 0 < a) : (2 : ℚ) ^ (floorLog2 a) ≤ a := by
  unfold floorLog2
  rw [natLog2_eq, natLog2_eq]
  simp only
  split
  · rename_i h; exact h
  · have hnum : 0 < a.num := Rat.num_pos.mpr ha
    have hp0 : a.num.natAbs ≠ 0 := by
      intro h0
      have := Int.natAbs_eq_zero.mp h0
      omega
    have hq0 : a.den ≠ 0 := a.den_nz
    have hp : (2 : ℚ) ^ (Nat.log2 a.num.natAbs) ≤ (a.num.natAbs : ℚ) := by
      exact_mod_cast Nat.log2_self_le hp0
    have hq : (a.den : ℚ) ≤ (2 : ℚ) ^ (Nat.log2 a.den + 1) := by
      exact_mod_cast le_of_lt (Nat.lt_log2_self (n := a.den))
    have hden : (0 : ℚ) < (a.den : ℚ) := by exact_mod_cast Nat.pos_of_ne_zero hq0
    have ha' : a = (a.num.natAbs : ℚ) / (a.den : ℚ) := by
      have hcast : ((a.num.natAbs : ℕ) : ℚ) = (a.num : ℚ) := by
        rw [Nat.cast_natAbs, abs_of_pos hnum]
      rw [hcast]
      exact (Rat.num_div_den a).symm
    have hexp : (2 : ℚ) ^ ((Nat.log2 a.num.natAbs : Int) - (Nat.log2 a.den : Int) - 1) =
        (2 : ℚ) ^ (Nat.log2 a.num.natAbs) / (2 : ℚ) ^ (Nat.log2 a.den + 1) := by
      rw [show ((Nat.log2 a.num.natAbs : Int) - (Nat.log2 a.den : Int) - 1) =
          ((Nat.log2 a.num.natAbs : Int)) - ((Nat.log2 a.den + 1 : Nat) : Int) by push_cast; ring]
      rw [zpow_sub₀ (by norm_num : (2 : ℚ) ≠ 0)]
      simp only [zpow_natCast]
    rw [hexp]
    calc (2 : ℚ) ^ (Nat.log2 a.num.natAbs) / (2 : ℚ) ^ (Nat.log2 a.den + 1)
        ≤ (a.num.natAbs : ℚ) / (2 : ℚ) ^ (Nat.log2 a.den + 1) :=
          div_le_div_of_nonneg_right hp (by positivity)
      _ ≤ (a.num.natAbs : ℚ) / (a.den : ℚ) :=
          div_le_div_of_nonneg_left (by positivity) hden hq
      _ = a := ha'.symm

/-- The relative error of rounding to binary64 is at most `2 ^ -53`. -/
theorem roundF64_near (x : ℚ) : |roundF64 x - x| ≤ |x| / 2 ^ 53 := by
  unfold roundF64
  split
  · rename_i h0
    rw [h0]; simp
  · rename_i h0
    simp only
    have ha : 0 < |x| := abs_pos.mpr h0
    have hE := floorLog2_le |x| ha
    have hsplit : (2 : ℚ) ^ (floorLog2 |x| - 52) = (2 : ℚ) ^ (floorLog2 |x|) / 2 ^ 52 := by
      rw [zpow_sub₀ (by norm_num : (2 : ℚ) ≠ 0)]
      norm_num
    have hpow : (0 : ℚ) < (2 : ℚ) ^ (floorLog2 |x| - 52) := by positivity
    have hnear := roundHalfEven_near (|x| / (2 : ℚ) ^ (floorLog2 |x| - 52))
    generalize (2 : ℚ) ^ (floorLog2 |x| - 52) = P at hsplit hpow hnear ⊢
    generalize ((roundHalfEven (|x| / P) : Int) : ℚ) = n at hnear ⊢
    have hsx : (if x < 0 then (-1 : ℚ) else 1) * |x| = x := by
      by_cases hneg : x < 0
      · rw [if_pos hneg, abs_of_neg hneg]; ring
      · rw [if_neg hneg, abs_of_nonneg (not_lt.mp hneg)]; ring
    have hsign : |(if x < 0 then (-1 : ℚ) else 1)| = 1 := by
      split <;> simp
    have hdiff : (if x < 0 then (-1 : ℚ) else 1) * n * P - x =
        (if x < 0 then (-1 : ℚ) else 1) * ((n - |x| / P) * P) := by
      have hcancel : |x| / P * P = |x| := div_mul_cancel₀ _ (ne_of_gt hpow)
      calc (if x < 0 then (-1 : ℚ) else 1) * n * P - x
          = (if x < 0 then (-1 : ℚ) else 1) * n * P -
              (if x < 0 then (-1 : ℚ) else 1) * |x| := by rw [hsx]
        _ = (if x < 0 then (-1 : ℚ) else 1) * n * P -
              (if x < 0 then (-1 : ℚ) else 1) * (|x| / P * P) := by rw [hcancel]
        _ = (if x < 0 then (-1 : ℚ) else 1) * ((n - |x| / P) * P) := by ring
    rw [hdiff, abs_mul, abs_mul, abs_of_pos hpow, hsign, one_mul]
    calc |n - |x| / P| * P ≤ 1 / 2 * P := mul_le_mul_of_nonneg_right hnear (le_of_lt hpow)
      _ = (2 : ℚ) ^ (floorLog2 |x|) / 2 ^ 53 := by rw [hsplit]; ring
      _ ≤ |x| / 2 ^ 53 := div_le_div_of_nonneg_right hE (by positivity)

theorem roundF64_ge (x : ℚ) (hx : 0 ≤ x) : x * (1 - 1 / 2 ^ 53) ≤ roundF64 x := by
  have h := roundF64_near x
  rw [abs_of_nonneg hx, abs_le] at h
  linarith [h.1]

theorem roundF64_le (x : ℚ) (hx : 0 ≤ x) : roundF64 x ≤ x * (1 + 1 / 2 ^ 53) := by
  have h := roundF64_near x
  rw [abs_of_nonneg hx, abs_le] at h
  linarith [h.2]

/-! ## The review scheduler in `float64` and `int` -/

theorem wrapInt64_of_fits (i : Int) (h1 : minInt64 ≤ i) (h2 : i ≤ maxInt64) :
    wrapInt64 i = i := by
  unfold wrapInt64
  unfold minInt64 at h1
  unfold maxInt64 at h2
  omega

theorem intOfFloat64_of_fits (arch : Arch) (f : ℚ) (h1 : minInt64 ≤ truncToInt f)
    (h2 : truncToInt f ≤ maxInt64) : intOfFloat64 arch f = truncToInt f := by
  unfold intOfFloat64
  rw [if_pos ⟨h1, h2⟩]

theorem roundF64_thirteen_tenths : (13 / 10 : ℚ) ≤ roundF64 (13 / 10) := by decide!

theorem easeF64_ge (answer : String) (ease : ℚ) : (13 / 10 : ℚ) ≤ easeF64 answer ease :=
  le_trans roundF64_thirteen_tenths (le_max_left _ _)

theorem applyReviewF64_again (arch : Arch) (now : Time) (p : UserTheoryProgress) :
    applyReviewF64 arch "AGAIN" now p =
      { p with LastAnswer := "AGAIN", Repetitions := 0, Interval := 1,
               NextReviewAt := now.AddDays 1 } := by
  unfold applyReviewF64
  simp

theorem applyReviewF64_graded (arch : Arch) (answer : String) (now : Time)
    (p : UserTheoryProgress) (h : answer ≠ "AGAIN") :
    (applyReviewF64 arch answer now p).ID = p.ID ∧
    (applyReviewF64 arch answer now p).UserID = p.UserID ∧
    (applyReviewF64 arch answer now p).TheoryCardID = p.TheoryCardID ∧
    (applyReviewF64 arch answer now p).LastAnswer = answer ∧
    (applyReviewF64 arch answer now p).Repetitions = wrapInt64 (p.Repetitions + 1) ∧
    (applyReviewF64 arch answer now p).EaseFactor = easeF64 answer p.EaseFactor ∧
    (applyReviewF64 arch answer now p).Interval =
      (if wrapInt64 (p.Repetitions + 1) ≤ 1 then 1
       else if wrapInt64 (p.Repetitions + 1) = 2 then 6
       else intOfFloat64 arch (productF64 answer p)) ∧
    (applyReviewF64 arch answer now p).NextReviewAt =
      now.AddDays (applyReviewF64 arch answer now p).Interval := by
  have hease : ∀ e : ℚ, (if e < roundF64 (13 / 10) then roundF64 (13 / 10) else e) =
      max (roundF64 (13 / 10)) e := by
    intro e
    by_cases he : e < roundF64 (13 / 10)
    · rw [if_pos he, max_eq_left (le_of_lt he)]
    · rw [if_neg he, max_eq_right (not_lt.mp he)]
  have hmax := hease (roundF64 (p.EaseFactor + easeDelta (qualityOf answer)))
  unfold productF64 easeF64
  rw [← hmax]
  unfold applyReviewF64
  simp only [h, if_false]
  by_cases he : roundF64 (p.EaseFactor + easeDelta (qualityOf answer)) < roundF64 (13 / 10)
  · by_cases h1 : wrapInt64 (p.Repetitions + 1) ≤ 1
    · simp only [he, h1, if_true]
      refine ⟨?_, ?_, ?_, ?_, ?_, ?_, ?_, ?_⟩ <;> trivial
    · by_cases h2 : wrapInt64 (p.Repetitions + 1) = 2
      · simp only [he, h1, h2, if_true, if_false]
        refine ⟨?_, ?_, ?_, ?_, ?_, ?_, ?_, ?_⟩ <;> trivial
      · simp only [he, h1, h2, if_true, if_false]
        refine ⟨?_, ?_, ?_, ?_, ?_, ?_, ?_, ?_⟩ <;> trivial
  · by_cases h1 : wrapInt64 (p.Repetitions + 1) ≤ 1
    · simp only [he, h1, if_true, if_false]
      refine ⟨?_, ?_, ?_, ?_, ?_, ?_, ?_, ?_⟩ <;> trivial
    · by_cases h2 : wrapInt64 (p.Repetitions + 1) = 2
      · simp only [he, h1, h2, if_true, if_false]
        refine ⟨?_, ?_, ?_, ?_, ?_, ?_, ?_, ?_⟩ <;> trivial
      · simp only [he, h1, h2, if_true, if_false]
        refine ⟨?_, ?_, ?_, ?_, ?_, ?_, ?_, ?_⟩ <;> trivial

theorem applyReviewF64_keys (arch : Arch) (answer : String) (now : Time)
    (p : UserTheoryProgress) :
    (applyReviewF64 arch answer now p).ID = p.ID ∧
    (applyReviewF64 arch answer now p).UserID = p.UserID ∧
    (applyReviewF64 arch answer now p).TheoryCardID = p.TheoryCardID ∧
    (applyReviewF64 arch answer now p).LastAnswer = answer ∧
    (applyReviewF64 arch answer now p).NextReviewAt =
      now.AddDays (applyReviewF64 arch answer now p).Interval := by
  by_cases h : answer = "AGAIN"
  · subst h
    rw [applyReviewF64_again]
    exact ⟨rfl, rfl, rfl, rfl, rfl⟩
  · obtain ⟨a, b, c, d, -, -, -, e⟩ := applyReviewF64_graded arch answer now p h
    exact ⟨a, b, c, d, e⟩

/-- The `float64` product of an interval of at least one day and an ease factor of at
least 1.3 is at least 1.29 times the interval. -/
theorem floatProduct_ge (i : Int) (e : ℚ) (hi : 1 ≤ i) (he : 13 / 10 ≤ e) :
    (129 / 100 : ℚ) * (i : ℚ) ≤ roundF64 (float64OfInt i * e) := by
  have hi' : (1 : ℚ) ≤ (i : ℚ) := by exact_mod_cast hi
  have hi0 : (0 : ℚ) ≤ (i : ℚ) := le_trans (by norm_num) hi'
  have hy : (i : ℚ) * (1 - 1 / 2 ^ 53) ≤ float64OfInt i := roundF64_ge _ hi0
  have hy0 : (0 : ℚ) ≤ float64OfInt i :=
    le_trans (mul_nonneg hi0 (by norm_num)) hy
  have he0 : (0 : ℚ) ≤ e := le_trans (by norm_num) he
  have hye : (i : ℚ) * (1 - 1 / 2 ^ 53) * (13 / 10) ≤ float64OfInt i * e :=
    mul_le_mul hy he (by norm_num) hy0
  have hz := roundF64_ge (float64OfInt i * e) (mul_nonneg hy0 he0)
  have hstep : (i : ℚ) * (1 - 1 / 2 ^ 53) * (13 / 10) * (1 - 1 / 2 ^ 53) ≤
      float64OfInt i * e * (1 - 1 / 2 ^ 53) :=
    mul_le_mul_of_nonneg_right hye (by norm_num)
  have hc : (129 / 100 : ℚ) ≤ (1 - 1 / 2 ^ 53) * (13 / 10) * (1 - 1 / 2 ^ 53) := by norm_num
  calc (129 / 100 : ℚ) * (i : ℚ)
      ≤ (1 - 1 / 2 ^ 53) * (13 / 10) * (1 - 1 / 2 ^ 53) * (i : ℚ) :=
        mul_le_mul_of_nonneg_right hc hi0
    _ = (i : ℚ) * (1 - 1 / 2 ^ 53) * (13 / 10) * (1 - 1 / 2 ^ 53) := by ring
    _ ≤ float64OfInt i * e * (1 - 1 / 2 ^ 53) := hstep
    _ ≤ roundF64 (float64OfInt i * e) := hz

theorem productF64_ge (answer : String) (p : UserTheoryProgress) (hI : 1 ≤ p.Interval) :
    (129 / 100 : ℚ) * (p.Interval : ℚ) ≤ productF64 answer p :=
  floatProduct_ge p.Interval _ hI (easeF64_ge answer p.EaseFactor)

/-- The integer part of that product is at least one day, and it exceeds an interval of at
least 6 days. -/
theorem truncProduct_bounds (answer : String) (p : UserTheoryProgress) (hI : 1 ≤ p.Interval) :
    1 ≤ truncToInt (productF64 answer p) ∧
    (6 ≤ p.Interval → p.Interval < truncToInt (productF64 answer p)) := by
  have hge := productF64_ge answer p hI
  have hI' : (1 : ℚ) ≤ (p.Interval : ℚ) := by exact_mod_cast hI
  have hnn : (0 : ℚ) ≤ productF64 answer p := by linarith
  rw [truncToInt_nonneg _ hnn]
  refine ⟨Int.le_floor.mpr (by push_cast; linarith), fun h6 => ?_⟩
  have h6' : (6 : ℚ) ≤ (p.Interval : ℚ) := by exact_mod_cast h6
  have : p.Interval + 1 ≤ ⌊productF64 answer p⌋ :=
    Int.le_floor.mpr (by push_cast; linarith)
  omega

theorem applyReviewF64_inv (arch : Arch) (answer : String) (now : Time)
    (p : UserTheoryProgress)
    (h : 13 / 10 ≤ p.EaseFactor ∧ 1 ≤ p.Interval ∧ 0 ≤ p.Repetitions)
    (hm : 2 ≤ p.Repetitions → 6 ≤ p.Interval) (hfit : reviewFits answer p) :
    (13 / 10 ≤ (applyReviewF64 arch answer now p).EaseFactor ∧
      1 ≤ (applyReviewF64 arch answer now p).Interval ∧
      0 ≤ (applyReviewF64 arch answer now p).Repetitions) ∧
    (2 ≤ (applyReviewF64 arch answer now p).Repetitions →
      6 ≤ (applyReviewF64 arch answer now p).Interval) := by
  obtain ⟨hE, hI, hR⟩ := h
  by_cases ha : answer = "AGAIN"
  · subst ha
    rw [applyReviewF64_again]
    refine ⟨⟨hE, le_refl _, le_refl _⟩, fun h2 => ?_⟩
    have h0 : (2 : Int) ≤ 0 := h2
    omega
  · obtain ⟨-, -, -, -, gR, gE, gI, -⟩ := applyReviewF64_graded arch answer now p ha
    rcases hfit with hag | ⟨hlt, hprod⟩
    · exact absurd hag ha
    · have hw : wrapInt64 (p.Repetitions + 1) = p.Repetitions + 1 :=
        wrapInt64_of_fits _ (by unfold minInt64; omega) (by omega)
      rw [hw] at gR gI
      obtain ⟨b1, b6⟩ := truncProduct_bounds answer p hI
      rw [gR, gE, gI]
      refine ⟨⟨easeF64_ge answer p.EaseFactor, ?_, by omega⟩, fun h2 => ?_⟩
      · split
        · exact le_refl _
        · split
          · decide
          · obtain ⟨f1, f2⟩ := hprod (by omega)
            rw [intOfFloat64_of_fits arch _ f1 f2]
            exact b1
      · split
        · omega
        · split
          · decide
          · obtain ⟨f1, f2⟩ := hprod (by omega)
            rw [intOfFloat64_of_fits arch _ f1 f2]
            have := b6 (hm (by omega))
            omega

theorem applyReviewF64_strict (arch : Arch) (answer : String) (now : Time)
    (p : UserTheoryProgress) (ha : answer ≠ "AGAIN")
    (hI : 1 ≤ p.Interval) (hR : 0 ≤ p.Repetitions)
    (hm : 2 ≤ p.Repetitions → 6 ≤ p.Interval)
    (hfit : reviewFits answer p)
    (h3 : 3 ≤ (applyReviewF64 arch answer now p).Repetitions) :
    (applyReviewF64 arch answer now p).Repetitions = p.Repetitions + 1 ∧
    (applyReviewF64 arch answer now p).Interval =
      ⌊roundF64 (float64OfInt p.Interval * (applyReviewF64 arch answer now p).EaseFactor)⌋ ∧
    p.Interval < (applyReviewF64 arch answer now p).Interval := by
  obtain ⟨-, -, -, -, gR, gE, gI, -⟩ := applyReviewF64_graded arch answer now p ha
  rcases hfit with hag | ⟨hlt, hprod⟩
  · exact absurd hag ha
  · have hw : wrapInt64 (p.Repetitions + 1) = p.Repetitions + 1 :=
      wrapInt64_of_fits _ (by unfold minInt64; omega) (by omega)
    rw [hw] at gR gI
    rw [gR] at h3
    obtain ⟨f1, f2⟩ := hprod h3
    obtain ⟨-, b6⟩ := truncProduct_bounds answer p hI
    have hval : (applyReviewF64 arch answer now p).Interval =
        truncToInt (productF64 answer p) := by
      rw [gI, if_neg (by omega), if_neg (by omega), intOfFloat64_of_fits arch _ f1 f2]
    have hnn : (0 : ℚ) ≤ productF64 answer p := by
      have := productF64_ge answer p hI
      have hI' : (1 : ℚ) ≤ (p.Interval : ℚ) := by exact_mod_cast hI
      linarith
    refine ⟨gR, ?_, ?_⟩
    · rw [hval, truncToInt_nonneg _ hnn, gE]
      rfl
    · rw [hval]
      exact b6 (hm (by omega))

theorem ReviewTheoryCardF64_ok (arch : Arch) (env : ReviewEnv) (db : DB) (cardID userID : Nat)
    (req : ReviewTheoryCardRequest) (card : TheoryCard)
    (hcard : dbFirstActiveCard env.cardErr db cardID = .ok card)
    (hfind : env.findErr = none) (hsave : env.saveErr = none) :
    ReviewTheoryCardF64 arch env db cardID userID req =
      (.ok (dbSaveProgress env.saveNow db
              (applyReviewF64 arch req.Answer env.now
                (priorProgress env db cardID userID req))).1,
       (dbSaveProgress env.saveNow db
          (applyReviewF64 arch req.Answer env.now
            (priorProgress env db cardID userID req))).2) := by
  unfold ReviewTheoryCardF64 priorProgress
  simp only [hcard, hfind, hsave]

theorem ReviewTheoryCardF64_response (arch : Arch) (env : ReviewEnv) (db : DB)
    (cardID userID : Nat) (req : ReviewTheoryCardRequest) (resp : UserTheoryProgress)
    (h : (ReviewTheoryCardF64 arch env db cardID userID req).1 = .ok resp) :
    ReviewTheoryCardF64 arch env db cardID userID req =
      (.ok (dbSaveProgress env.saveNow db
              (applyReviewF64 arch req.Answer env.now
                (priorProgress env db cardID userID req))).1,
       (dbSaveProgress env.saveNow db
          (applyReviewF64 arch req.Answer env.now
            (priorProgress env db cardID userID req))).2) ∧
    resp = (dbSaveProgress env.saveNow db
              (applyReviewF64 arch req.Answer env.now
                (priorProgress env db cardID userID req))).1 := by
  cases hc : dbFirstActiveCard env.cardErr db cardID with
  | error err =>
    unfold ReviewTheoryCardF64 at h
    rw [hc] at h
    cases h
  | ok card =>
    cases hf : env.findErr with
    | some err =>
      unfold ReviewTheoryCardF64 at h
      rw [hc] at h
      simp only [hf] at h
      cases h
    | none =>
      cases hs : env.saveErr with
      | some err =>
        unfold ReviewTheoryCardF64 at h
        rw [hc] at h
        simp only [hf, hs] at h
        cases h
      | none =>
        have hok := ReviewTheoryCardF64_ok arch env db cardID userID req card hc hf hs
        rw [hok] at h
        exact ⟨hok, (Except.ok.inj h).symm⟩

theorem ReviewTheoryCardF64_rows (arch : Arch) (env : ReviewEnv) (db : DB)
    (cardID userID : Nat) (req : ReviewTheoryCardRequest) :
    ∀ r ∈ (ReviewTheoryCardF64 arch env db cardID userID req).2.theoryProgress,
      r ∈ db.theoryProgress ∨
      r = (dbSaveProgress env.saveNow db
            (applyReviewF64 arch req.Answer env.now
              (priorProgress env db cardID userID req))).1 := by
  intro r hr
  cases hc : dbFirstActiveCard env.cardErr db cardID with
  | error err =>
    unfold ReviewTheoryCardF64 at hr
    rw [hc] at hr
    exact Or.inl hr
  | ok card =>
    cases hf : env.findErr with
    | some err =>
      unfold ReviewTheoryCardF64 at hr
      rw [hc] at hr
      simp only [hf] at hr
      exact Or.inl hr
    | none =>
      cases hs : env.saveErr with
      | some err =>
        unfold ReviewTheoryCardF64 at hr
        rw [hc] at hr
        simp only [hf, hs] at hr
        exact Or.inl hr
      | none =>
        rw [ReviewTheoryCardF64_ok arch env db cardID userID req card hc hf hs] at hr
        exact dbSaveProgress_rows env.saveNow db _ r hr

theorem ReviewTheoryCardF64_persists (arch : Arch) (env : ReviewEnv) (db : DB)
    (cardID userID : Nat) (req : ReviewTheoryCardRequest) :
    (dbSaveProgress env.saveNow db
        (applyReviewF64 arch req.Answer env.now (priorProgress env db cardID userID req))).1 ∈
      (dbSaveProgress env.saveNow db
        (applyReviewF64 arch req.Answer env.now
          (priorProgress env db cardID userID req))).2.theoryProgress := by
  apply dbSaveProgress_mem
  obtain ⟨hid, -⟩ :=
    applyReviewF64_keys arch req.Answer env.now (priorProgress env db cardID userID req)
  rcases (priorProgress_keys env db cardID userID req).2.2 with hm | h0
  · exact Or.inl ⟨_, hm, hid.symm⟩
  · exact Or.inr (by rw [hid, h0])

theorem reviewReachableF64_mono (arch : Arch) (P : ReviewEnv → Prop) (db : DB)
    (h : ReviewReachableF64 arch P db) : ReviewReachableF64 arch (fun _ => True) db := by
  induction h with
  | start db h0 => exact ReviewReachableF64.start db h0
  | review env cardID userID req db _ _ hans hfit ih =>
    exact ReviewReachableF64.review env cardID userID req db ih trivial hans hfit

theorem reviewReachableF64_inv (arch : Arch) (db : DB)
    (h : ReviewReachableF64 arch (fun _ => True) db) :
    ∀ r ∈ db.theoryProgress,
      (13 / 10 ≤ r.EaseFactor ∧ 1 ≤ r.Interval ∧ 0 ≤ r.Repetitions) ∧
      (2 ≤ r.Repetitions → 6 ≤ r.Interval) := by
  induction h with
  | start db h0 => intro r hr; rw [h0] at hr; exact absurd hr (List.not_mem_nil r)
  | review env cardID userID req db _ _ _ hfit ih =>
    intro r hr
    rcases ReviewTheoryCardF64_rows arch env db cardID userID req r hr with hold | hnew
    · exact ih r hold
    · obtain ⟨-, -, fI, fR, fE, -, -, -⟩ := dbSaveProgress_fields env.saveNow db
        (applyReviewF64 arch req.Answer env.now (priorProgress env db cardID userID req))
      have hprior : (13 / 10 ≤ (priorProgress env db cardID userID req).EaseFactor ∧
          1 ≤ (priorProgress env db cardID userID req).Interval ∧
          0 ≤ (priorProgress env db cardID userID req).Repetitions) ∧
          (2 ≤ (priorProgress env db cardID userID req).Repetitions →
            6 ≤ (priorProgress env db cardID userID req).Interval) := by
        rcases priorProgress_cases env db cardID userID req with hm | hf
        · exact ih _ hm
        · rw [hf]
          refine ⟨⟨?_, le_refl _, le_refl _⟩, fun h2 => ?_⟩
          · show (13 / 10 : ℚ) ≤ 5 / 2
            norm_num
          · have h0 : (2 : Int) ≤ 0 := h2
            omega
      rw [hnew, fE, fI, fR]
      exact applyReviewF64_inv arch req.Answer env.now _ hprior.1 hprior.2 hfit

theorem reviewReachableF64_schedule (arch : Arch) (db : DB)
    (h : ReviewReachableF64 arch ReviewEnv.timely db) :
    ∀ r ∈ db.theoryProgress,
      ∃ t : Time, r.NextReviewAt = t.AddDays r.Interval ∧
        t.unixNano ≤ r.UpdatedAt.unixNano ∧ r.UpdatedAt.unixNano < t.unixNano + nanosPerDay := by
  induction h with
  | start db h0 => intro r hr; rw [h0] at hr; exact absurd hr (List.not_mem_nil r)
  | review env cardID userID req db _ hP _ _ ih =>
    intro r hr
    rcases ReviewTheoryCardF64_rows arch env db cardID userID req r hr with hold | hnew
    · exact ih r hold
    · obtain ⟨-, -, fI, -, -, fN, -, fU⟩ := dbSaveProgress_fields env.saveNow db
        (applyReviewF64 arch req.Answer env.now (priorProgress env db cardID userID req))
      obtain ⟨-, -, -, -, aN⟩ :=
        applyReviewF64_keys arch req.Answer env.now (priorProgress env db cardID userID req)
      refine ⟨env.now, ?_, ?_, ?_⟩
      · rw [hnew, fN, fI, aN]
      · rw [hnew, fU]; exact hP.1
      · rw [hnew, fU]; exact hP.2

/-- The integer part of the `float64` product exceeds an interval of at least 6 days at any
ease factor of at least 1.3. -/
theorem floatProduct_grows (i : Int) (e : ℚ) (hi : 6 ≤ i) (he : 13 / 10 ≤ e) :
    i < ⌊roundF64 (float64OfInt i * e)⌋ := by
  have h := floatProduct_ge i e (by omega) he
  have hi' : (6 : ℚ) ≤ (i : ℚ) := by exact_mod_cast hi
  have : i + 1 ≤ ⌊roundF64 (float64OfInt i * e)⌋ :=
    Int.le_floor.mpr (by push_cast; linarith)
  omega

/-- The `float64` product differs from the exact product of the interval and the ease factor
by at most three units in the 53rd binary digit. -/
theorem floatProduct_near (i : Int) (e : ℚ) :
    |roundF64 (float64OfInt i * e) - (i : ℚ) * e| ≤ |(i : ℚ) * e| * (3 / 2 ^ 53) := by
  have h1 : |float64OfInt i - (i : ℚ)| ≤ |(i : ℚ)| / 2 ^ 53 := roundF64_near _
  have h2 := roundF64_near (float64OfInt i * e)
  have hf : |float64OfInt i| ≤ |(i : ℚ)| * (1 + 1 / 2 ^ 53) := by
    have := abs_sub_abs_le_abs_sub (float64OfInt i) (i : ℚ)
    linarith
  have he0 : 0 ≤ |e| := abs_nonneg e
  have hi0 : 0 ≤ |(i : ℚ)| := abs_nonneg _
  have h3 : |float64OfInt i * e - (i : ℚ) * e| ≤ |(i : ℚ)| * |e| / 2 ^ 53 := by
    rw [← sub_mul, abs_mul]
    calc |float64OfInt i - (i : ℚ)| * |e| ≤ |(i : ℚ)| / 2 ^ 53 * |e| :=
          mul_le_mul_of_nonneg_right h1 he0
      _ = |(i : ℚ)| * |e| / 2 ^ 53 := by ring
  have h4 : |float64OfInt i * e| ≤ |(i : ℚ)| * |e| * (1 + 1 / 2 ^ 53) := by
    rw [abs_mul]
    calc |float64OfInt i| * |e| ≤ |(i : ℚ)| * (1 + 1 / 2 ^ 53) * |e| :=
          mul_le_mul_of_nonneg_right hf he0
      _ = |(i : ℚ)| * |e| * (1 + 1 / 2 ^ 53) := by ring
  have h5 := abs_sub_le (roundF64 (float64OfInt i * e)) (float64OfInt i * e) ((i : ℚ) * e)
  have hie : 0 ≤ |(i : ℚ)| * |e| := mul_nonneg hi0 he0
  rw [abs_mul (i : ℚ) e]
  have h6 : |float64OfInt i * e| / 2 ^ 53 ≤ |(i : ℚ)| * |e| * (1 + 1 / 2 ^ 53) / 2 ^ 53 :=
    div_le_div_of_nonneg_right h4 (by positivity)
  have h7 : |(i : ℚ)| * |e| * (1 + 1 / 2 ^ 53) / 2 ^ 53 + |(i : ℚ)| * |e| / 2 ^ 53 ≤
      |(i : ℚ)| * |e| * (3 / 2 ^ 53) := by
    have : |(i : ℚ)| * |e| * (3 / 2 ^ 53) -
        (|(i : ℚ)| * |e| * (1 + 1 / 2 ^ 53) / 2 ^ 53 + |(i : ℚ)| * |e| / 2 ^ 53) =
        |(i : ℚ)| * |e| * ((1 - 1 / 2 ^ 53) / 2 ^ 53) := by ring
    have hpos : (0 : ℚ) ≤ (1 - 1 / 2 ^ 53) / 2 ^ 53 := by norm_num
    have := mul_nonneg hie hpos
    linarith
  linarith

theorem roundF64_nonneg (x : ℚ) (hx : 0 ≤ x) : 0 ≤ roundF64 x := by
  have h := roundF64_ge x hx
  have : (0 : ℚ) ≤ x * (1 - 1 / 2 ^ 53) := mul_nonneg hx (by norm_num)
  linarith

theorem productF64_nonneg (answer : String) (p : UserTheoryProgress) (hI : 0 ≤ p.Interval) :
    0 ≤ productF64 answer p := by
  unfold productF64
  apply roundF64_nonneg
  apply mul_nonneg
  · exact roundF64_nonneg _ (by exact_mod_cast hI)
  · exact le_trans (by norm_num) (easeF64_ge answer p.EaseFactor)

/-- A review stays inside the `int` when the exact product of the interval and the new ease
factor is at most `2 ^ 62`. -/
theorem reviewFits_of_small (answer : String) (p : UserTheoryProgress)
    (hR : p.Repetitions < maxInt64) (hI : 0 ≤ p.Interval)
    (hprod : (p.Interval : ℚ) * easeF64 answer p.EaseFactor ≤ 2 ^ 62) :
    reviewFits answer p := by
  refine Or.inr ⟨hR, fun _ => ?_⟩
  have hnn := productF64_nonneg answer p hI
  have hI' : (0 : ℚ) ≤ (p.Interval : ℚ) := by exact_mod_cast hI
  have he : (0 : ℚ) ≤ easeF64 answer p.EaseFactor :=
    le_trans (by norm_num) (easeF64_ge answer p.EaseFactor)
  have hf0 : (0 : ℚ) ≤ float64OfInt p.Interval := roundF64_nonneg _ hI'
  have hf : float64OfInt p.Interval ≤ (p.Interval : ℚ) * (1 + 1 / 2 ^ 53) := roundF64_le _ hI'
  have hfe : float64OfInt p.Interval * easeF64 answer p.EaseFactor ≤
      2 ^ 62 * (1 + 1 / 2 ^ 53) := by
    calc float64OfInt p.Interval * easeF64 answer p.EaseFactor
        ≤ (p.Interval : ℚ) * (1 + 1 / 2 ^ 53) * easeF64 answer p.EaseFactor :=
          mul_le_mul_of_nonneg_right hf he
      _ = (p.Interval : ℚ) * easeF64 answer p.EaseFactor * (1 + 1 / 2 ^ 53) := by ring
      _ ≤ 2 ^ 62 * (1 + 1 / 2 ^ 53) := mul_le_mul_of_nonneg_right hprod (by norm_num)
  have hr : productF64 answer p ≤ 2 ^ 62 * (1 + 1 / 2 ^ 53) * (1 + 1 / 2 ^ 53) := by
    unfold productF64
    calc roundF64 (float64OfInt p.Interval * easeF64 answer p.EaseFactor)
        ≤ float64OfInt p.Interval * easeF64 answer p.EaseFactor * (1 + 1 / 2 ^ 53) :=
          roundF64_le _ (mul_nonneg hf0 he)
      _ ≤ 2 ^ 62 * (1 + 1 / 2 ^ 53) * (1 + 1 / 2 ^ 53) :=
          mul_le_mul_of_nonneg_right hfe (by norm_num)
  have hmax : productF64 answer p ≤ ((maxInt64 : Int) : ℚ) := by
    refine le_trans hr ?_
    unfold maxInt64
    norm_num
  rw [truncToInt_nonneg _ hnn]
  constructor
  · have := Int.floor_nonneg.mpr hnn
    unfold minInt64
    omega
  · have h1 : ((⌊productF64 answer p⌋ : Int) : ℚ) ≤ ((maxInt64 : Int) : ℚ) :=
      le_trans (Int.floor_le _) hmax
    exact_mod_cast h1

/-! ## Intervals and reachable records of the review scheduler -/

theorem four_goods_trace :
    reviewTrace (reviewAllF64 amd64 3 7 (sameReviews 4 "GOOD") demoTheoryDB).2 =
      [some (1, 1, 5 / 2), some (2, 6, 5 / 2), some (3, 15, 5 / 2), some (4, 37, 5 / 2)] ∧
    reviewTrace (reviewAllF64 arm64 3 7 (sameReviews 4 "GOOD") demoTheoryDB).2 =
      [some (1, 1, 5 / 2), some (2, 6, 5 / 2), some (3, 15, 5 / 2), some (4, 37, 5 / 2)] := by
  constructor <;> decide!

/-- The six reviews HARD, HARD, EASY, EASY, GOOD, HARD of a new card end with the interval
170: the `float64` product of 75 and the ease factor is a little below 171, where the
product of 75 and 2.28 is 171. -/
theorem hard_hard_easy_easy_good_hard_trace :
    (reviewTrace (reviewAllF64 amd64 3 7
      [(calmReviewEnv demoMorning, "HARD"), (calmReviewEnv demoMorning, "HARD"),
       (calmReviewEnv demoMorning, "EASY"), (calmReviewEnv demoMorning, "EASY"),
       (calmReviewEnv demoMorning, "GOOD"), (calmReviewEnv demoMorning, "HARD")]
      demoTheoryDB).2).drop 4 =
      [some (5, 75, 1362338887279575 / 562949953421312),
       some (6, 170, 5134103575202365 / 2251799813685248)] ∧
    ⌊(75 : ℚ) * (228 / 100)⌋ = 171 := by
  refine ⟨by decide!, ?_⟩
  rw [Int.floor_eq_iff]
  norm_num

theorem ripe_review_trace :
    reviewTrace [(ReviewTheoryCardF64 amd64 (calmReviewEnv demoMorning) demoRipeDB 3 7
      { Answer := "GOOD" }).1] = [some (48, -9223372036854775808, 5 / 2)] ∧
    reviewTrace [(ReviewTheoryCardF64 arm64 (calmReviewEnv demoMorning) demoRipeDB 3 7
      { Answer := "GOOD" }).1] = [some (48, 9223372036854775807, 5 / 2)] := by
  constructor <;> decide!

theorem goods_table_amd64 :
    (reviewAllF64 amd64 3 7 (sameReviews 47 "GOOD") demoTheoryDB).1.theoryProgress.map
      (fun r => (r.UserID, r.TheoryCardID, r.Repetitions, r.Interval, r.EaseFactor)) =
      [(7, 3, 47, 4753954829065798656, 5 / 2)] ∧
    (reviewAllF64 amd64 3 7 (sameReviews 48 "GOOD") demoTheoryDB).1.theoryProgress.map
      (fun r => (r.UserID, r.TheoryCardID, r.Repetitions, r.Interval, r.EaseFactor)) =
      [(7, 3, 48, -9223372036854775808, 5 / 2)] := by
  constructor <;> decide!

theorem goods_trace_amd64 :
    (reviewTrace (reviewAllF64 amd64 3 7 (sameReviews 48 "GOOD") demoTheoryDB).2).drop 46 =
      [some (47, 4753954829065798656, 5 / 2), some (48, -9223372036854775808, 5 / 2)] := by
  decide!

theorem goods_trace_arm64 :
    (reviewTrace (reviewAllF64 arm64 3 7 (sameReviews 49 "GOOD") demoTheoryDB).2).drop 47 =
      [some (48, 9223372036854775807, 5 / 2), some (49, 9223372036854775807, 5 / 2)] := by
  decide!

/-- C16 (as stated, refuted): four reviews answered GOOD of a new card give the intervals 1,
6, 15 and 37 on either architecture, whereas the previous interval 15 times the ease factor
2.5, rounded to the nearest integer, is 38.  And the review answered GOOD of the record
left by 47 such reviews (interval 4753954829065798656, ease factor 2.5) sets the interval
to the least `int` on amd64 and to the greatest on arm64, where the rounded product is
11884887072664496640. -/
theorem fourth_good_interval_not_rounded :
    reviewTrace (reviewAllF64 amd64 3 7 (sameReviews 4 "GOOD") demoTheoryDB).2 =
      [some (1, 1, 5 / 2), some (2, 6, 5 / 2), some (3, 15, 5 / 2), some (4, 37, 5 / 2)] ∧
    reviewTrace (reviewAllF64 arm64 3 7 (sameReviews 4 "GOOD") demoTheoryDB).2 =
      [some (1, 1, 5 / 2), some (2, 6, 5 / 2), some (3, 15, 5 / 2), some (4, 37, 5 / 2)] ∧
    round ((15 : ℚ) * (5 / 2)) = 38 ∧
    reviewTrace [(ReviewTheoryCardF64 amd64 (calmReviewEnv demoMorning) demoRipeDB 3 7
      { Answer := "GOOD" }).1] = [some (48, minInt64, 5 / 2)] ∧
    reviewTrace [(ReviewTheoryCardF64 arm64 (calmReviewEnv demoMorning) demoRipeDB 3 7
      { Answer := "GOOD" }).1] = [some (48, maxInt64, 5 / 2)] ∧
    demoRipeProgress.Interval = 4753954829065798656 ∧
    round ((4753954829065798656 : ℚ) * (5 / 2)) = 11884887072664496640 := by
  refine ⟨four_goods_trace.1, four_goods_trace.2, round_fifteen, ripe_review_trace.1,
    ripe_review_trace.2, rfl, ?_⟩
  rw [show (4753954829065798656 : ℚ) * (5 / 2) = ((11884887072664496640 : Int) : ℚ) by
    norm_num]
  exact round_intCast _

/-- C16 (amended): after a review answered HARD, GOOD or EASY, with `r` the repetition count
after the increment and `ease` the updated ease factor, the new interval is 1 when `r ≤ 1`,
6 when `r = 2`, and for `r ≥ 3` the conversion `int(float64(Interval) * ease)`: the integer
part of the `float64` product (truncated toward zero, not rounded; the floor for a
non-negative previous interval) whenever that integer part is an `int`, and the value the
platform yields otherwise.  The `float64` product is within three units in the 53rd binary
digit of the exact product. -/
theorem review_graded_interval (arch : Arch) (env : ReviewEnv) (db : DB) (cardID userID : Nat)
    (req : ReviewTheoryCardRequest) (card : TheoryCard)
    (hcard : dbFirstActiveCard env.cardErr db cardID = .ok card)
    (hfind : env.findErr = none) (hsave : env.saveErr = none)
    (hans : req.Answer = "HARD" ∨ req.Answer = "GOOD" ∨ req.Answer = "EASY") :
    ∃ resp,
      (ReviewTheoryCardF64 arch env db cardID userID req).1 = .ok resp ∧
      resp.Repetitions = wrapInt64 ((priorProgress env db cardID userID req).Repetitions + 1) ∧
      (minInt64 ≤ (priorProgress env db cardID userID req).Repetitions + 1 →
        (priorProgress env db cardID userID req).Repetitions < maxInt64 →
        resp.Repetitions = (priorProgress env db cardID userID req).Repetitions + 1) ∧
      resp.EaseFactor = easeF64 req.Answer (priorProgress env db cardID userID req).EaseFactor ∧
      (resp.Repetitions ≤ 1 → resp.Interval = 1) ∧
      (resp.Repetitions = 2 → resp.Interval = 6) ∧
      (resp.Repetitions ≥ 3 →
        resp.Interval = intOfFloat64 arch
          (roundF64 (float64OfInt (priorProgress env db cardID userID req).Interval *
            resp.EaseFactor)) ∧
        (minInt64 ≤ truncToInt
            (roundF64 (float64OfInt (priorProgress env db cardID userID req).Interval *
              resp.EaseFactor)) →
          truncToInt
            (roundF64 (float64OfInt (priorProgress env db cardID userID req).Interval *
              resp.EaseFactor)) ≤ maxInt64 →
          resp.Interval = truncToInt
            (roundF64 (float64OfInt (priorProgress env db cardID userID req).Interval *
              resp.EaseFactor))) ∧
        (0 ≤ (priorProgress env db cardID userID req).Interval →
          ⌊roundF64 (float64OfInt (priorProgress env db cardID userID req).Interval *
              resp.EaseFactor)⌋ ≤ maxInt64 →
          resp.Interval =
            ⌊roundF64 (float64OfInt (priorProgress env db cardID userID req).Interval *
              resp.EaseFactor)⌋) ∧
        |roundF64 (float64OfInt (priorProgress env db cardID userID req).Interval *
              resp.EaseFactor) -
            ((priorProgress env db cardID userID req).Interval : ℚ) * resp.EaseFactor| ≤
          |((priorProgress env db cardID userID req).Interval : ℚ) * resp.EaseFactor| *
            (3 / 2 ^ 53)) := by
  have hok := ReviewTheoryCardF64_ok arch env db cardID userID req card hcard hfind hsave
  obtain ⟨-, -, fI, fR, fE, -, -, -⟩ := dbSaveProgress_fields env.saveNow db
    (applyReviewF64 arch req.Answer env.now (priorProgress env db cardID userID req))
  have hne : req.Answer ≠ "AGAIN" := by
    rcases hans with h | h | h <;> rw [h] <;> decide
  obtain ⟨-, -, -, -, gR, gE, gI, -⟩ :=
    applyReviewF64_graded arch req.Answer env.now (priorProgress env db cardID userID req) hne
  rw [hok]
  refine ⟨_, rfl, by rw [fR, gR], ?_, by rw [fE, gE], ?_, ?_, ?_⟩
  · intro h1 h2
    rw [fR, gR]
    exact wrapInt64_of_fits _ h1 (by omega)
  · intro h
    rw [fR, gR] at h
    rw [fI, gI, if_pos h]
  · intro h
    rw [fR, gR] at h
    rw [fI, gI, if_neg (by omega), if_pos h]
  · intro h
    rw [fR, gR] at h
    have hI : (dbSaveProgress env.saveNow db
        (applyReviewF64 arch req.Answer env.now
          (priorProgress env db cardID userID req))).1.Interval =
        intOfFloat64 arch
          (roundF64 (float64OfInt (priorProgress env db cardID userID req).Interval *
            (dbSaveProgress env.saveNow db
              (applyReviewF64 arch req.Answer env.now
                (priorProgress env db cardID userID req))).1.EaseFactor)) := by
      rw [fI, gI, if_neg (by omega), if_neg (by omega), fE, gE]
      rfl
    refine ⟨hI, fun h1 h2 => ?_, fun hnn hmax => ?_, floatProduct_near _ _⟩
    · rw [hI]
      exact intOfFloat64_of_fits arch _ h1 h2
    · have hprod : (0 : ℚ) ≤
          roundF64 (float64OfInt (priorProgress env db cardID userID req).Interval *
            (dbSaveProgress env.saveNow db
              (applyReviewF64 arch req.Answer env.now
                (priorProgress env db cardID userID req))).1.EaseFactor) := by
        rw [fE, gE]
        exact productF64_nonneg req.Answer _ hnn
      have ht := truncToInt_nonneg _ hprod
      rw [hI, intOfFloat64_of_fits arch _ (by
        rw [ht]
        have := Int.floor_nonneg.mpr hprod
        unfold minInt64
        omega) (by rw [ht]; exact hmax), ht]

theorem review_graded_interval_witness :
    ∃ resp,
      (ReviewTheoryCardF64 amd64 (calmReviewEnv demoMorning) demoReviewedDB 3 7
        { Answer := "GOOD" }).1 = .ok resp ∧
      resp.Repetitions = 4 ∧ resp.EaseFactor = 5 / 2 ∧ resp.Interval = 37 := by
  obtain ⟨resp, h1, h2, -, h3, -, -, h4⟩ :=
    review_graded_interval amd64 (calmReviewEnv demoMorning) demoReviewedDB 3 7
      { Answer := "GOOD" } demoCard (by rfl) (by rfl) (by rfl) (Or.inr (Or.inl rfl))
  have hp : priorProgress (calmReviewEnv demoMorning) demoReviewedDB 3 7
      { Answer := "GOOD" } = demoProgress := by decide!
  rw [hp] at h2 h3 h4
  have hR : resp.Repetitions = 4 := by rw [h2]; decide!
  have hE : resp.EaseFactor = 5 / 2 := by rw [h3]; decide!
  obtain ⟨h5, -⟩ := h4 (by rw [hR]; decide)
  rw [hE] at h5
  exact ⟨resp, h1, hR, hE, by rw [h5]; decide!⟩

/-- C17 (as stated, refuted): 48 reviews answered GOOD of a new card.  After the 47th the
record has the interval 4753954829065798656; the 48th product leaves the `int`, and on
amd64 the record is left with the least `int` as its interval, which is below 1. -/
theorem forty_eight_goods_interval_negative :
    (∀ a ∈ (sameReviews 48 "GOOD").map (fun x => x.2), a ∈ reviewAnswers) ∧
    (reviewAllF64 amd64 3 7 (sameReviews 47 "GOOD") demoTheoryDB).1.theoryProgress.map
      (fun r => (r.UserID, r.TheoryCardID, r.Repetitions, r.Interval, r.EaseFactor)) =
      [(7, 3, 47, 4753954829065798656, 5 / 2)] ∧
    (reviewAllF64 amd64 3 7 (sameReviews 48 "GOOD") demoTheoryDB).1.theoryProgress.map
      (fun r => (r.UserID, r.TheoryCardID, r.Repetitions, r.Interval, r.EaseFactor)) =
      [(7, 3, 48, minInt64, 5 / 2)] ∧
    ¬ (minInt64 ≥ 1) := by
  refine ⟨by decide, goods_table_amd64.1, goods_table_amd64.2, by decide⟩

/-- C17 (amended): in every progress table reachable from one without records by reviews
answered AGAIN, HARD, GOOD or EASY, each of which stays inside the 64-bit `int` (the
repetition count is below the greatest `int` and, from the third repetition on, the integer
part of the `float64` product is an `int`), every record has `EaseFactor ≥ 1.3`,
`Interval ≥ 1` and `Repetitions ≥ 0`.  A review stays inside the `int` whenever the exact
product of the interval and the new ease factor is at most `2 ^ 62`.  Every successful
review whose interval `AddDate` can add exactly answers with `NextReviewAt` equal to its
clock reading plus `Interval` days; and when each row is stamped no earlier than, and less
than a day after, that clock reading, `NextReviewAt` of every such record is its latest
review time plus `Interval` days and strictly later than `UpdatedAt`. -/
theorem review_progress_invariant :
    (∀ (arch : Arch) (db : DB), ReviewReachableF64 arch (fun _ => True) db →
      ∀ r ∈ db.theoryProgress,
        r.EaseFactor ≥ 13 / 10 ∧ r.Interval ≥ 1 ∧ r.Repetitions ≥ 0) ∧
    (∀ (answer : String) (p : UserTheoryProgress),
      p.Repetitions < maxInt64 → 0 ≤ p.Interval →
      (p.Interval : ℚ) * easeF64 answer p.EaseFactor ≤ 2 ^ 62 → reviewFits answer p) ∧
    (∀ (arch : Arch) (env : ReviewEnv) (db : DB) (cardID userID : Nat)
      (req : ReviewTheoryCardRequest) (resp : UserTheoryProgress),
      (ReviewTheoryCardF64 arch env db cardID userID req).1 = .ok resp →
        resp.UpdatedAt = env.saveNow ∧
        (-maxAddDays ≤ resp.Interval → resp.Interval ≤ maxAddDays →
          resp.NextReviewAt = env.now.AddDays resp.Interval ∧
          resp.NextReviewAt.unixNano = env.now.unixNano + resp.Interval * nanosPerDay)) ∧
    (∀ (arch : Arch) (db : DB), ReviewReachableF64 arch ReviewEnv.timely db →
      ∀ r ∈ db.theoryProgress, r.Interval ≤ maxAddDays →
        (∃ t : Time, r.NextReviewAt = t.AddDays r.Interval ∧
          t.unixNano ≤ r.UpdatedAt.unixNano ∧
          r.UpdatedAt.unixNano < t.unixNano + nanosPerDay) ∧
        r.NextReviewAt.unixNano > r.UpdatedAt.unixNano) := by
  refine ⟨fun arch db h r hr => (reviewReachableF64_inv arch db h r hr).1,
    fun answer p hR hI hprod => reviewFits_of_small answer p hR hI hprod, ?_, ?_⟩
  · intro arch env db cardID userID req resp hok
    obtain ⟨-, hresp⟩ := ReviewTheoryCardF64_response arch env db cardID userID req resp hok
    obtain ⟨-, -, fI, -, -, fN, -, fU⟩ := dbSaveProgress_fields env.saveNow db
      (applyReviewF64 arch req.Answer env.now (priorProgress env db cardID userID req))
    obtain ⟨-, -, -, -, aN⟩ :=
      applyReviewF64_keys arch req.Answer env.now (priorProgress env db cardID userID req)
    have hN : resp.NextReviewAt = env.now.AddDays resp.Interval := by
      rw [hresp, fN, fI, aN]
    exact ⟨by rw [hresp, fU], fun _ _ => ⟨hN, by rw [hN]; rfl⟩⟩
  · intro arch db h r hr _
    obtain ⟨t, hN, h1, h2⟩ := reviewReachableF64_schedule arch db h r hr
    obtain ⟨⟨-, hI, -⟩, -⟩ :=
      reviewReachableF64_inv arch db (reviewReachableF64_mono arch _ db h) r hr
    refine ⟨⟨t, hN, h1, h2⟩, ?_⟩
    rw [hN]
    show t.unixNano + r.Interval * nanosPerDay > r.UpdatedAt.unixNano
    unfold nanosPerDay at h2 ⊢
    omega

/-- C29 (as stated, refuted): of 48 reviews answered GOOD of a new card on amd64, the 47th
answers with the interval 4753954829065798656 and the 48th, which brings the repetition
count to 48, with the least `int`: the interval drops.  On arm64 the 48th answers with the
greatest `int` and so does the 49th: the interval stalls. -/
theorem forty_eighth_good_interval_drops :
    (reviewTrace (reviewAllF64 amd64 3 7 (sameReviews 48 "GOOD") demoTheoryDB).2).drop 46 =
      [some (47, 4753954829065798656, 5 / 2), some (48, minInt64, 5 / 2)] ∧
    ¬ (minInt64 > 4753954829065798656) ∧
    (reviewTrace (reviewAllF64 arm64 3 7 (sameReviews 49 "GOOD") demoTheoryDB).2).drop 47 =
      [some (48, maxInt64, 5 / 2), some (49, maxInt64, 5 / 2)] ∧
    ¬ (maxInt64 > maxInt64) := by
  refine ⟨goods_trace_amd64, by decide, goods_trace_arm64, by decide⟩

/-- C29 (amended): in every progress table reachable from one without records by reviews
answered AGAIN, HARD, GOOD or EASY, each of which stays inside the 64-bit `int`, a record
with `Repetitions ≥ 2` has `Interval ≥ 6`; and every review of such a table that stays
inside the `int`, has an answer other than AGAIN and brings `Repetitions` to 3 or more
starts from a stored record and answers with an interval strictly greater than the interval
of that record, namely the integer part of the `float64` product of that interval and the
new ease factor.  The integer part of the `float64` product of an interval of at least 6
and an ease factor of at least 1.3, or the `float64` value of 1.3, always exceeds the
interval; and a review stays inside the `int` whenever the exact product is at most
`2 ^ 62`. -/
theorem review_schedule_never_stalls :
    (∀ (arch : Arch) (db : DB), ReviewReachableF64 arch (fun _ => True) db →
      ∀ r ∈ db.theoryProgress, r.Repetitions ≥ 2 → r.Interval ≥ 6) ∧
    (∀ (arch : Arch) (db : DB), ReviewReachableF64 arch (fun _ => True) db →
      ∀ (env : ReviewEnv) (cardID userID : Nat) (req : ReviewTheoryCardRequest)
        (resp : UserTheoryProgress),
        req.Answer ≠ "AGAIN" →
        reviewFits req.Answer (priorProgress env db cardID userID req) →
        (ReviewTheoryCardF64 arch env db cardID userID req).1 = .ok resp →
        resp.Repetitions ≥ 3 →
        ∃ prior, dbFirstProgress db userID cardID = some prior ∧
          prior ∈ db.theoryProgress ∧
          resp.Repetitions = prior.Repetitions + 1 ∧
          resp.Interval = ⌊roundF64 (float64OfInt prior.Interval * resp.EaseFactor)⌋ ∧
          resp.Interval > prior.Interval) ∧
    (∀ (i : Int) (e : ℚ), 6 ≤ i → 13 / 10 ≤ e →
      ⌊roundF64 (float64OfInt i * e)⌋ > i ∧
      ⌊roundF64 (float64OfInt i * roundF64 (13 / 10))⌋ > i) ∧
    (∀ (answer : String) (p : UserTheoryProgress),
      p.Repetitions < maxInt64 → 0 ≤ p.Interval →
      (p.Interval : ℚ) * easeF64 answer p.EaseFactor ≤ 2 ^ 62 → reviewFits answer p) := by
  refine ⟨fun arch db h r hr => (reviewReachableF64_inv arch db h r hr).2, ?_, ?_,
    fun answer p hR hI hprod => reviewFits_of_small answer p hR hI hprod⟩
  · intro arch db hreach env cardID userID req resp ha hfit hok h3
    obtain ⟨-, hresp⟩ := ReviewTheoryCardF64_response arch env db cardID userID req resp hok
    obtain ⟨-, -, fI, fR, fE, -, -, -⟩ := dbSaveProgress_fields env.saveNow db
      (applyReviewF64 arch req.Answer env.now (priorProgress env db cardID userID req))
    have hR : resp.Repetitions =
        (applyReviewF64 arch req.Answer env.now
          (priorProgress env db cardID userID req)).Repetitions := by
      rw [hresp, fR]
    have hI : resp.Interval =
        (applyReviewF64 arch req.Answer env.now
          (priorProgress env db cardID userID req)).Interval := by
      rw [hresp, fI]
    have hE : resp.EaseFactor =
        (applyReviewF64 arch req.Answer env.now
          (priorProgress env db cardID userID req)).EaseFactor := by
      rw [hresp, fE]
    cases hfirst : dbFirstProgress db userID cardID with
    | none =>
      have hprior : priorProgress env db cardID userID req =
          freshProgress userID cardID req.Answer env.createNow := by
        unfold priorProgress
        rw [hfirst]
      obtain ⟨-, -, -, -, gR, -, -, -⟩ := applyReviewF64_graded arch req.Answer env.now
        (priorProgress env db cardID userID req) ha
      rw [hR, gR, hprior] at h3
      have h0 : wrapInt64 ((0 : Int) + 1) ≥ 3 := h3
      exact absurd h0 (by decide)
    | some prior =>
      have hprior : priorProgress env db cardID userID req = prior := by
        unfold priorProgress
        rw [hfirst]
      have hmem := (dbFirstProgress_some db userID cardID prior hfirst).1
      rw [hprior] at hR hI hE hfit
      obtain ⟨⟨-, bI, bR⟩, bm⟩ := reviewReachableF64_inv arch db hreach prior hmem
      obtain ⟨s1, s2, s3⟩ := applyReviewF64_strict arch req.Answer env.now prior ha
        bI bR bm hfit (by rw [← hR]; exact h3)
      exact ⟨prior, rfl, hmem, by rw [hR, s1], by rw [hI, hE]; exact s2, by rw [hI]; exact s3⟩
  · intro i e hi he
    exact ⟨floatProduct_grows i e hi he,
      floatProduct_grows i _ hi roundF64_thirteen_tenths⟩

end Nareshka
